import Mathlib

/-!
GnuTLS: the GC crypto wrappers over Nettle and the (r, s) signature codec.

A shallow embedding of `crypto/gc-nettle.c` and of the codec exercised by
`tests/dss-sig-val.c`.  Bytes are natural numbers below 256 and a C pair
`(len, ptr)` is a `List Nat`.  Functions that mutate memory through a pointer
return the new contents next to their C return value.  The hash handles come a
second time on an explicit heap (`Mem`), where a handle and its buffers are
addresses and two handles may share storage.
-/

namespace GnuTLS

/-! ## The signature codec (`tests/dss-sig-val.c`) -/

/-- The `struct encode_tests_st` of `tests/dss-sig-val.c`; each `gnutls_datum_t`
is the list of its `size` bytes. -/
structure encode_tests_st where
  name : String
  sig : List Nat
  r : List Nat
  s : List Nat

/-- The table `encode_tests[]` of `tests/dss-sig-val.c`, byte for byte. -/
def encode_tests : List encode_tests_st := [
  { name := "test1",
    sig := [0x30, 0x46, 0x02, 0x21, 0x00, 0xe8, 0xa4, 0x26, 0x96, 0x2c, 0x32, 0xc6, 0x92, 0x55, 0x71, 0x31,
           0xd7, 0x10, 0x35, 0x92, 0x60, 0x85, 0x34, 0xf0, 0x65, 0x03, 0x08, 0x2e, 0x38, 0x2b, 0xc8, 0x28,
           0x67, 0xde, 0x10, 0x7c, 0xf5, 0x02, 0x21, 0x00, 0xc9, 0x8e, 0x56, 0x4f, 0xb1, 0x62, 0xe1, 0x74,
           0xbe, 0x8c, 0x9d, 0xff, 0x04, 0x88, 0x75, 0x76, 0x63, 0x91, 0x8a, 0xd6, 0x9d, 0x41, 0x76, 0xef,
           0xe2, 0xb5, 0x8e, 0xbb, 0xa8, 0x88, 0xba, 0x9f],
    r := [0x00, 0xe8, 0xa4, 0x26, 0x96, 0x2c, 0x32, 0xc6, 0x92, 0x55, 0x71, 0x31, 0xd7, 0x10, 0x35, 0x92,
         0x60, 0x85, 0x34, 0xf0, 0x65, 0x03, 0x08, 0x2e, 0x38, 0x2b, 0xc8, 0x28, 0x67, 0xde, 0x10, 0x7c,
         0xf5],
    s := [0x00, 0xc9, 0x8e, 0x56, 0x4f, 0xb1, 0x62, 0xe1, 0x74, 0xbe, 0x8c, 0x9d, 0xff, 0x04, 0x88, 0x75,
         0x76, 0x63, 0x91, 0x8a, 0xd6, 0x9d, 0x41, 0x76, 0xef, 0xe2, 0xb5, 0x8e, 0xbb, 0xa8, 0x88, 0xba,
         0x9f] },
  { name := "test2",
    sig := [0x30, 0x44, 0x02, 0x20, 0x07, 0xd2, 0x7f, 0xd0, 0xef, 0x77, 0xa8, 0x29, 0x31, 0x9b, 0x46, 0x01,
           0xb3, 0xaf, 0x66, 0xac, 0x33, 0x48, 0x15, 0x94, 0xb8, 0x80, 0xa1, 0x97, 0x71, 0x8f, 0x4a, 0x32,
           0x43, 0x12, 0xec, 0x1f, 0x02, 0x20, 0x37, 0x06, 0x13, 0xbe, 0x4c, 0x6d, 0xdd, 0xcd, 0xa1, 0x4c,
           0x88, 0xc5, 0x66, 0x85, 0x81, 0xf5, 0x50, 0x41, 0xb1, 0x4a, 0xee, 0x29, 0xce, 0x73, 0x2c, 0x09,
           0xff, 0xba, 0xe3, 0x5e, 0x8a, 0x12],
    r := [0x07, 0xd2, 0x7f, 0xd0, 0xef, 0x77, 0xa8, 0x29, 0x31, 0x9b, 0x46, 0x01, 0xb3, 0xaf, 0x66, 0xac,
         0x33, 0x48, 0x15, 0x94, 0xb8, 0x80, 0xa1, 0x97, 0x71, 0x8f, 0x4a, 0x32, 0x43, 0x12, 0xec, 0x1f],
    s := [0x37, 0x06, 0x13, 0xbe, 0x4c, 0x6d, 0xdd, 0xcd, 0xa1, 0x4c, 0x88, 0xc5, 0x66, 0x85, 0x81, 0xf5,
         0x50, 0x41, 0xb1, 0x4a, 0xee, 0x29, 0xce, 0x73, 0x2c, 0x09, 0xff, 0xba, 0xe3, 0x5e, 0x8a, 0x12] },
  { name := "test3",
    sig := [0x30, 0x44, 0x02, 0x20, 0x57, 0x53, 0x71, 0xfd, 0x9c, 0xb5, 0x96, 0xc2, 0xc5, 0xc7, 0x59, 0xce,
           0x2f, 0xc2, 0xbe, 0x8f, 0xdc, 0x22, 0xf9, 0xab, 0x38, 0xdc, 0x57, 0x81, 0xfb, 0x34, 0x78, 0x12,
           0xae, 0x88, 0x9a, 0x50, 0x02, 0x20, 0x60, 0x6b, 0xd4, 0x5b, 0xd6, 0x32, 0x05, 0xae, 0x1f, 0xe6,
           0x08, 0xf4, 0x73, 0x0f, 0x42, 0xbc, 0x32, 0x55, 0x1f, 0x8d, 0xea, 0x81, 0xec, 0x2b, 0x4a, 0x0b,
           0x8c, 0x0f, 0xb1, 0xbe, 0x5f, 0x9b],
    r := [0x57, 0x53, 0x71, 0xfd, 0x9c, 0xb5, 0x96, 0xc2, 0xc5, 0xc7, 0x59, 0xce, 0x2f, 0xc2, 0xbe, 0x8f,
         0xdc, 0x22, 0xf9, 0xab, 0x38, 0xdc, 0x57, 0x81, 0xfb, 0x34, 0x78, 0x12, 0xae, 0x88, 0x9a, 0x50],
    s := [0x60, 0x6b, 0xd4, 0x5b, 0xd6, 0x32, 0x05, 0xae, 0x1f, 0xe6, 0x08, 0xf4, 0x73, 0x0f, 0x42, 0xbc,
         0x32, 0x55, 0x1f, 0x8d, 0xea, 0x81, 0xec, 0x2b, 0x4a, 0x0b, 0x8c, 0x0f, 0xb1, 0xbe, 0x5f, 0x9b] },
  { name := "test4",
    sig := [0x30, 0x46, 0x02, 0x21, 0x00, 0xe7, 0xdd, 0x79, 0x58, 0x96, 0xf6, 0x12, 0x05, 0xc1, 0x7a, 0x44,
           0xd6, 0xdf, 0xde, 0x83, 0xe9, 0xb6, 0x30, 0xa7, 0xff, 0x02, 0x85, 0x97, 0x34, 0x5a, 0xcd, 0x2f,
           0xae, 0xbd, 0xc6, 0x5d, 0xde, 0x02, 0x21, 0x00, 0xb5, 0x64, 0xbc, 0x53, 0x97, 0xc5, 0x64, 0x6f,
           0x6b, 0x81, 0xe7, 0x4d, 0xad, 0x36, 0x29, 0x50, 0xd1, 0x62, 0x91, 0x65, 0x51, 0xf0, 0xc4, 0xa5,
           0x28, 0x80, 0x20, 0x51, 0x9b, 0xce, 0xcc, 0xc8],
    r := [0x00, 0xe7, 0xdd, 0x79, 0x58, 0x96, 0xf6, 0x12, 0x05, 0xc1, 0x7a, 0x44, 0xd6, 0xdf, 0xde, 0x83,
         0xe9, 0xb6, 0x30, 0xa7, 0xff, 0x02, 0x85, 0x97, 0x34, 0x5a, 0xcd, 0x2f, 0xae, 0xbd, 0xc6, 0x5d,
         0xde],
    s := [0x00, 0xb5, 0x64, 0xbc, 0x53, 0x97, 0xc5, 0x64, 0x6f, 0x6b, 0x81, 0xe7, 0x4d, 0xad, 0x36, 0x29,
         0x50, 0xd1, 0x62, 0x91, 0x65, 0x51, 0xf0, 0xc4, 0xa5, 0x28, 0x80, 0x20, 0x51, 0x9b, 0xce, 0xcc,
         0xc8] },
  { name := "test5",
    sig := [0x30, 0x45, 0x02, 0x20, 0x54, 0xce, 0x1b, 0x8d, 0x63, 0x5d, 0xa4, 0xdb, 0x26, 0x58, 0x1c, 0x8f,
           0xf0, 0xb0, 0x6d, 0xf3, 0x2f, 0x6a, 0xdb, 0x83, 0xcf, 0x7e, 0xe7, 0xda, 0x98, 0x52, 0xa6, 0x5f,
           0x1f, 0xc9, 0x50, 0x73, 0x02, 0x21, 0x00, 0xfa, 0xb9, 0x6a, 0x18, 0xd4, 0xc6, 0x45, 0x3c, 0xf2,
           0xbf, 0xc2, 0x3d, 0x15, 0x0d, 0xc6, 0xd4, 0x0c, 0x78, 0x52, 0x12, 0xec, 0xb5, 0x3c, 0xf5, 0xe0,
           0x8a, 0xbf, 0x6c, 0x11, 0xd3, 0xfd, 0x4f],
    r := [0x54, 0xce, 0x1b, 0x8d, 0x63, 0x5d, 0xa4, 0xdb, 0x26, 0x58, 0x1c, 0x8f, 0xf0, 0xb0, 0x6d, 0xf3,
         0x2f, 0x6a, 0xdb, 0x83, 0xcf, 0x7e, 0xe7, 0xda, 0x98, 0x52, 0xa6, 0x5f, 0x1f, 0xc9, 0x50, 0x73],
    s := [0x00, 0xfa, 0xb9, 0x6a, 0x18, 0xd4, 0xc6, 0x45, 0x3c, 0xf2, 0xbf, 0xc2, 0x3d, 0x15, 0x0d, 0xc6,
         0xd4, 0x0c, 0x78, 0x52, 0x12, 0xec, 0xb5, 0x3c, 0xf5, 0xe0, 0x8a, 0xbf, 0x6c, 0x11, 0xd3, 0xfd,
         0x4f] },
  { name := "test6",
    sig := [0x30, 0x45, 0x02, 0x20, 0x3b, 0x77, 0x03, 0xcf, 0x8f, 0xe7, 0x92, 0xf1, 0x6a, 0x68, 0x3b, 0xcd,
           0xb7, 0x21, 0x5b, 0x80, 0xcd, 0x00, 0x75, 0x65, 0x38, 0x31, 0x8c, 0xc2, 0x9b, 0x92, 0x6a, 0x1a,
           0x02, 0x4b, 0xd8, 0x73, 0x02, 0x21, 0x00, 0xd9, 0x88, 0x28, 0x68, 0xae, 0x31, 0x5d, 0x95, 0xa4,
           0x8b, 0x5e, 0x3a, 0x95, 0x24, 0x7b, 0x0d, 0x07, 0xaa, 0xc4, 0xe0, 0xeb, 0xb1, 0xf1, 0x89, 0xc0,
           0xab, 0x4d, 0x88, 0x15, 0x84, 0x5f, 0x01],
    r := [0x3b, 0x77, 0x03, 0xcf, 0x8f, 0xe7, 0x92, 0xf1, 0x6a, 0x68, 0x3b, 0xcd, 0xb7, 0x21, 0x5b, 0x80,
         0xcd, 0x00, 0x75, 0x65, 0x38, 0x31, 0x8c, 0xc2, 0x9b, 0x92, 0x6a, 0x1a, 0x02, 0x4b, 0xd8, 0x73],
    s := [0x00, 0xd9, 0x88, 0x28, 0x68, 0xae, 0x31, 0x5d, 0x95, 0xa4, 0x8b, 0x5e, 0x3a, 0x95, 0x24, 0x7b,
         0x0d, 0x07, 0xaa, 0xc4, 0xe0, 0xeb, 0xb1, 0xf1, 0x89, 0xc0, 0xab, 0x4d, 0x88, 0x15, 0x84, 0x5f,
         0x01] },
  { name := "test7",
    sig := [0x30, 0x45, 0x02, 0x20, 0x22, 0xa1, 0xbf, 0x7d, 0xcd, 0x7b, 0x5e, 0xab, 0xa0, 0x08, 0x20, 0xe5,
           0xcc, 0x22, 0x34, 0x61, 0xf1, 0x1f, 0xd0, 0x3a, 0x32, 0xc3, 0x61, 0x19, 0xcf, 0xe4, 0xeb, 0xff,
           0x66, 0xe6, 0x51, 0xa1, 0x02, 0x21, 0x00, 0x9d, 0x62, 0xcb, 0x04, 0x3e, 0xb6, 0x1f, 0xc1, 0x2e,
           0x52, 0xd4, 0x73, 0x7f, 0xbd, 0xa5, 0x9c, 0x29, 0x49, 0x75, 0x6d, 0x08, 0xf9, 0xcb, 0x74, 0xd7,
           0x41, 0xdc, 0xcb, 0x66, 0x4d, 0x9a, 0x77],
    r := [0x22, 0xa1, 0xbf, 0x7d, 0xcd, 0x7b, 0x5e, 0xab, 0xa0, 0x08, 0x20, 0xe5, 0xcc, 0x22, 0x34, 0x61,
         0xf1, 0x1f, 0xd0, 0x3a, 0x32, 0xc3, 0x61, 0x19, 0xcf, 0xe4, 0xeb, 0xff, 0x66, 0xe6, 0x51, 0xa1],
    s := [0x00, 0x9d, 0x62, 0xcb, 0x04, 0x3e, 0xb6, 0x1f, 0xc1, 0x2e, 0x52, 0xd4, 0x73, 0x7f, 0xbd, 0xa5,
         0x9c, 0x29, 0x49, 0x75, 0x6d, 0x08, 0xf9, 0xcb, 0x74, 0xd7, 0x41, 0xdc, 0xcb, 0x66, 0x4d, 0x9a,
         0x77] },
  { name := "test8",
    sig := [0x30, 0x44, 0x02, 0x20, 0x41, 0xc9, 0x32, 0x16, 0x2e, 0x6f, 0x0c, 0x1f, 0x0f, 0x81, 0xc0, 0x0f,
           0x01, 0x50, 0x31, 0x75, 0x10, 0x55, 0x25, 0x45, 0x2a, 0x75, 0xb1, 0xdf, 0x91, 0x8e, 0xdf, 0x24,
           0x30, 0xf2, 0xa8, 0x5f, 0x02, 0x20, 0x07, 0x80, 0xa7, 0x9b, 0xb8, 0x1c, 0x4f, 0x6e, 0xc4, 0x97,
           0x5c, 0xb7, 0x9e, 0x61, 0x2a, 0xf0, 0xfc, 0x16, 0xdd, 0xe7, 0xa3, 0xcc, 0x15, 0x99, 0x68, 0x08,
           0x8e, 0x85, 0x60, 0x9d, 0x34, 0xf8],
    r := [0x41, 0xc9, 0x32, 0x16, 0x2e, 0x6f, 0x0c, 0x1f, 0x0f, 0x81, 0xc0, 0x0f, 0x01, 0x50, 0x31, 0x75,
         0x10, 0x55, 0x25, 0x45, 0x2a, 0x75, 0xb1, 0xdf, 0x91, 0x8e, 0xdf, 0x24, 0x30, 0xf2, 0xa8, 0x5f],
    s := [0x07, 0x80, 0xa7, 0x9b, 0xb8, 0x1c, 0x4f, 0x6e, 0xc4, 0x97, 0x5c, 0xb7, 0x9e, 0x61, 0x2a, 0xf0,
         0xfc, 0x16, 0xdd, 0xe7, 0xa3, 0xcc, 0x15, 0x99, 0x68, 0x08, 0x8e, 0x85, 0x60, 0x9d, 0x34, 0xf8] },
  { name := "test9",
    sig := [0x30, 0x46, 0x02, 0x21, 0x00, 0xbe, 0xa1, 0x01, 0x12, 0x64, 0x1d, 0x66, 0x5a, 0x68, 0x4a, 0xa0,
           0xd5, 0x7e, 0x3e, 0x0c, 0x83, 0x51, 0xaa, 0x21, 0x9a, 0x0f, 0x7b, 0x38, 0xf0, 0xc0, 0x8b, 0xc5,
           0xba, 0xfe, 0x25, 0x83, 0x51, 0x02, 0x21, 0x00, 0xfb, 0xea, 0x25, 0x74, 0x78, 0xd3, 0xaa, 0x91,
           0x7b, 0xc8, 0x49, 0x26, 0x22, 0x26, 0xc7, 0x72, 0x6b, 0x25, 0xfd, 0x05, 0xac, 0x71, 0x5d, 0xeb,
           0x1d, 0xc5, 0xaa, 0x4e, 0xc9, 0x6e, 0x34, 0xb5],
    r := [0x00, 0xbe, 0xa1, 0x01, 0x12, 0x64, 0x1d, 0x66, 0x5a, 0x68, 0x4a, 0xa0, 0xd5, 0x7e, 0x3e, 0x0c,
         0x83, 0x51, 0xaa, 0x21, 0x9a, 0x0f, 0x7b, 0x38, 0xf0, 0xc0, 0x8b, 0xc5, 0xba, 0xfe, 0x25, 0x83,
         0x51],
    s := [0x00, 0xfb, 0xea, 0x25, 0x74, 0x78, 0xd3, 0xaa, 0x91, 0x7b, 0xc8, 0x49, 0x26, 0x22, 0x26, 0xc7,
         0x72, 0x6b, 0x25, 0xfd, 0x05, 0xac, 0x71, 0x5d, 0xeb, 0x1d, 0xc5, 0xaa, 0x4e, 0xc9, 0x6e, 0x34,
         0xb5] } ]

/-- Modelled from the spec: the DER length field written by the encoder (the
ASN.1 writer is absent from src/).  Short form below 128, otherwise `0x80 + k`
followed by the `k` big-endian base-256 digits; `none` past the DER limit of 126
length octets ("DER length-field encoding limits", spec 4.5). -/
def der_length (n : Nat) : Option (List Nat) :=
  if n < 128 then some [n]
  else
    let ds := (Nat.digits 256 n).reverse
    if ds.length ≤ 126 then some ((128 + ds.length) :: ds) else none

/-- Modelled from the spec: one DER TLV, tag octet, length field, content
(the ASN.1 writer is absent from src/). -/
def der_tlv (tag : Nat) (content : List Nat) : Option (List Nat) :=
  (der_length content.length).map (fun l => tag :: (l ++ content))

/-- Modelled from the spec: the minimal form of a non-negative INTEGER content
(part of the ASN.1 writer, absent from src/).  Spec 3: "the DER encoding of each
integer is its minimal big-endian two's-complement representation -- no
superfluous leading 0x00 bytes except the single mandatory one when the
most-significant bit of the minimal magnitude would otherwise be set".  A
leading 0x00 followed by a byte below 0x80 is superfluous and is dropped. -/
def der_integer_minimal : List Nat → List Nat
  | 0 :: b :: x => if b < 128 then der_integer_minimal (b :: x) else 0 :: b :: x
  | x => x

/-- Modelled from the spec: the content octets the encoder writes for the
magnitude `x` (part of gnutls_encode_rs_value, absent from src/).  Spec 4.5:
"prepends a single 0x00 byte if and only if the magnitude's first byte has its
high bit set", and then the INTEGER is written in its minimal form (spec 3). -/
def der_integer_content : List Nat → List Nat
  | [] => []
  | b :: x => der_integer_minimal (if 128 ≤ b then 0 :: b :: x else b :: x)

/-- Modelled from the spec: the content octets of a minimal non-negative DER
INTEGER (spec 3): not empty, first byte below 0x80, and a leading 0x00 only
before a byte that has its high bit set. -/
def is_minimal_integer : List Nat → Bool
  | [] => false
  | [b] => decide (b < 128)
  | a :: b :: _ => decide (a < 128) && (decide (a ≠ 0) || decide (128 ≤ b))

/-- Modelled from the spec: a DER `SEQUENCE { INTEGER a, INTEGER b }` with the
given INTEGER content octets, "both TLVs as a single DER SEQUENCE TLV with
length equal to the sum of the two inner TLV lengths" (spec 4.5). -/
def der_rs_sequence (a b : List Nat) : Option (List Nat) :=
  match der_tlv 0x02 a, der_tlv 0x02 b with
  | some ta, some tb => der_tlv 0x30 (ta ++ tb)
  | _, _ => none

/-- Modelled from the spec: gnutls_encode_rs_value, declared in
gnutls/crypto.h, body absent from src/ (only its test is there).  Spec 4.5 and
spec 3: each of r and s gets its sign guard and is written as a minimal DER
INTEGER, and both INTEGERs as one DER SEQUENCE; the output is canonical.
`none` is a failing return. -/
def gnutls_encode_rs_value (r s : List Nat) : Option (List Nat) :=
  der_rs_sequence (der_integer_content r) (der_integer_content s)

/-- Modelled from the spec: reading a DER length field (the ASN.1 parser is
absent from src/).  Returns the length and the rest of the input; the
indefinite form `0x80` and more than 126 length octets are refused. -/
def der_get_length : List Nat → Option (Nat × List Nat)
  | [] => none
  | b :: rest =>
    if b < 128 then some (b, rest)
    else
      let k := b - 128
      if k = 0 ∨ 126 < k ∨ rest.length < k then none
      else some (Nat.ofDigits 256 (rest.take k).reverse, rest.drop k)

/-- Modelled from the spec: reading one TLV with the expected tag (the ASN.1
parser is absent from src/).  Returns the content octets and the rest; fails on
another tag or when the length runs past the input. -/
def der_get_tlv (tag : Nat) : List Nat → Option (List Nat × List Nat)
  | [] => none
  | t :: rest =>
    if t ≠ tag then none
    else
      match der_get_length rest with
      | none => none
      | some (n, body) =>
        if body.length < n then none else some (body.take n, body.drop n)

/-- Modelled from the spec: gnutls_decode_rs_value, declared in
gnutls/crypto.h, body absent from src/ (only its test is there).  Spec 4.5:
"parses a DER SEQUENCE of exactly two INTEGERs" and fails "if the outer tag is
not SEQUENCE, if it does not contain exactly two INTEGER elements, or if any
integer's encoded length is inconsistent with the outer length".  The content
octets of each INTEGER are returned as they stand: the source's fixtures
(`encode_tests[0]`, 33-byte r and s that keep their leading 0x00) fix that, so
nothing is stripped.  Bytes after the SEQUENCE are refused. -/
def gnutls_decode_rs_value (sig : List Nat) : Option (List Nat × List Nat) :=
  match der_get_tlv 0x30 sig with
  | none => none
  | some (body, trailing) =>
    if trailing ≠ [] then none
    else
      match der_get_tlv 0x02 body with
      | none => none
      | some (r, rest) =>
        match der_get_tlv 0x02 rest with
        | none => none
        | some (s, rest2) => if rest2 ≠ [] then none else some (r, s)

/-- Modelled from the spec: the other reading of the decoder's return value,
spec 4.5 word for word: "strips exactly one leading 0x00 byte if present and if
removing it would still leave the first remaining byte with its high bit
possibly set ... otherwise the value is reported unchanged".  For comparison
only: the fixtures of the source rule this reading out
(`stripping_decoder_fails_test1`). -/
def strip_sign_guard : List Nat → List Nat
  | 0 :: b :: x => if 128 ≤ b then b :: x else 0 :: b :: x
  | x => x

/-- Modelled from the spec: gnutls_decode_rs_value under the stripping reading
of spec 4.5, for comparison only. -/
def decode_rs_value_stripping (sig : List Nat) : Option (List Nat × List Nat) :=
  (gnutls_decode_rs_value sig).map (fun p => (strip_sign_guard p.1, strip_sign_guard p.2))

/-- The body of `encode` in `tests/dss-sig-val.c` with `fail`/`exit` read as
`false`: the decoded r and s match the fixture in size and bytes, and the
encoding of the fixture's r and s matches its sig in size and bytes. -/
def encode (t : encode_tests_st) : Bool :=
  match gnutls_decode_rs_value t.sig with
  | none => false
  | some (tmp_r, tmp_s) =>
    if tmp_r.length ≠ t.r.length ∨ t.r ≠ tmp_r.take t.r.length then false
    else if tmp_s.length ≠ t.s.length ∨ t.s ≠ tmp_s.take t.s.length then false
    else
      match gnutls_encode_rs_value t.r t.s with
      | none => false
      | some tmp_sig =>
        if tmp_sig.length ≠ t.sig.length ∨ t.sig ≠ tmp_sig.take t.sig.length then false
        else true

/-- The function `doit` of `tests/dss-sig-val.c`: `encode` on every entry of
`encode_tests`; `true` when no entry fails. -/
def doit : Bool :=
  encode_tests.all encode

/-! ## `crypto/gc-nettle.c`: return codes and memory -/

/-- The `Gc_rc` enumerators that `gc-nettle.c` returns (gc.h is absent from
src/; only that the enumerators differ is used). -/
inductive Gc_rc where
  | GC_OK
  | GC_MALLOC_ERROR
  | GC_INIT_ERROR
  | GC_RANDOM_ERROR
  | GC_INVALID_CIPHER
  | GC_INVALID_HASH
deriving DecidableEq, Repr

/-- The C `malloc (size)` for a byte buffer: `none` is a NULL return, `some g` a
block of exactly `size` bytes whose indeterminate content is `g 0, g 1, ...`. -/
def malloc (size : Nat) (r : Option (Nat → Nat)) : Option (List Nat) :=
  r.map (fun g => (List.range size).map g)

/-- The C `memset (buf, c, n)`: the first `n` bytes become `c`. -/
def memset (buf : List Nat) (c n : Nat) : List Nat :=
  List.replicate n c ++ buf.drop n

/-- The C `memcpy (dst, src, n)`: the first `n` bytes of `dst` become those of
`src`. -/
def memcpy (dst src : List Nat) (n : Nat) : List Nat :=
  src.take n ++ dst.drop n

/-- Nettle's `memxor (dst, src, n)`: the first `n` bytes of `dst` are xored
with those of `src`. -/
def memxor (dst src : List Nat) (n : Nat) : List Nat :=
  List.zipWith Nat.xor (dst.take n) (src.take n) ++ dst.drop n

/-! ## Randomness -/

/-- One of the devices `NAME_OF_NONCE_DEVICE`, `NAME_OF_PSEUDO_RANDOM_DEVICE`,
`NAME_OF_RANDOM_DEVICE` as `randomize` sees it: the value `open` returns, what
the successive `read` calls do (`none` is a negative return, `some bs` offers
the bytes `bs`, of which a read takes at most the count it asked for), and the
value `close` returns. -/
structure device where
  open_fd : Int
  reads : List (Option (List Nat))
  close_rc : Int

/-- The three device names of `randomize` (configuration macros, absent from
src/), each standing for the device behind it. -/
structure devices where
  NAME_OF_NONCE_DEVICE : device
  NAME_OF_PSEUDO_RANDOM_DEVICE : device
  NAME_OF_RANDOM_DEVICE : device

/-- The `do ... while (len < datalen)` loop of `randomize`, one step per
scripted read.  Every `read (fd, data, datalen)` is given `data` itself and the
full `datalen`, so what it delivers lands at the start of the buffer;
`len += tmp`.  Result: `none` when the script ends while the loop still runs,
else whether the loop left normally (`false`: a read failed) and the buffer. -/
def randomize_loop (datalen : Nat) :
    List (Option (List Nat)) → List Nat → Nat → Option (Bool × List Nat)
  | [], _, _ => none
  | none :: _, data, _ => some (false, data)
  | some bs :: rest, data, len =>
    let got := bs.take datalen
    let data' := memcpy data got got.length
    let len' := len + got.length
    if len' < datalen then randomize_loop datalen rest data' len' else some (true, data')

/-- The function `randomize`: the return code and the caller's buffer. -/
def randomize (sys : devices) (level : Int) (data : List Nat) (datalen : Nat) :
    Option (Gc_rc × List Nat) :=
  let dev :=
    if level = 0 then sys.NAME_OF_NONCE_DEVICE
    else if level = 1 then sys.NAME_OF_PSEUDO_RANDOM_DEVICE
    else sys.NAME_OF_RANDOM_DEVICE
  if dev.open_fd < 0 then some (Gc_rc.GC_RANDOM_ERROR, data)
  else
    match randomize_loop datalen dev.reads data 0 with
    | none => none
    | some (false, data') => some (Gc_rc.GC_RANDOM_ERROR, data')
    | some (true, data') =>
      if dev.close_rc < 0 then some (Gc_rc.GC_RANDOM_ERROR, data')
      else some (Gc_rc.GC_OK, data')

/-- The function `gc_nonce`. -/
def gc_nonce (sys : devices) (data : List Nat) (datalen : Nat) : Option (Gc_rc × List Nat) :=
  randomize sys 0 data datalen

/-- The function `gc_pseudo_random`. -/
def gc_pseudo_random (sys : devices) (data : List Nat) (datalen : Nat) :
    Option (Gc_rc × List Nat) :=
  randomize sys 1 data datalen

/-- The function `gc_random`. -/
def gc_random (sys : devices) (data : List Nat) (datalen : Nat) : Option (Gc_rc × List Nat) :=
  randomize sys 2 data datalen

/-- Two short reads: the device first delivers aa bb, then cc dd. -/
def short_read_device : device :=
  { open_fd := 3, reads := [some [0xaa, 0xbb], some [0xcc, 0xdd]], close_rc := 0 }

/-- A system whose three devices all behave as `short_read_device`. -/
def short_read_sys : devices :=
  { NAME_OF_NONCE_DEVICE := short_read_device,
    NAME_OF_PSEUDO_RANDOM_DEVICE := short_read_device,
    NAME_OF_RANDOM_DEVICE := short_read_device }

/-! ## Ciphers -/

/-- The `struct nettle_cipher` of nettle-meta.h (absent from src/), the fields
`gc-nettle.c` uses.  A context is the byte buffer behind the `void *ctx`; a
function that writes through a pointer returns the new content: the key setup
returns the context, `encrypt (ctx, length, dst, src)` returns the context and
the `length` bytes written to `dst`. -/
structure nettle_cipher where
  context_size : Nat
  block_size : Nat
  key_size : Nat
  set_encrypt_key : List Nat → List Nat → List Nat
  set_decrypt_key : List Nat → List Nat → List Nat
  encrypt : List Nat → List Nat → List Nat × List Nat
  decrypt : List Nat → List Nat → List Nat × List Nat

/-- The `struct nettle_hash` of nettle-meta.h (absent from src/), the fields
`gc-nettle.c` uses.  `digest (ctx, length, dst)` returns the context and the
`length` bytes written to `dst`. -/
structure nettle_hash where
  context_size : Nat
  digest_size : Nat
  block_size : Nat
  init : List Nat → List Nat
  update : List Nat → List Nat → List Nat
  digest : List Nat → Nat → List Nat × List Nat

/-- What `gc-nettle.c` takes from headers that are absent from src/: the
enumerators and lengths of gc.h, the digest sizes of md5.h and sha.h, and the
algorithm tables of nettle-meta.h. -/
structure Env where
  GC_AES256 : Int
  GC_AES128 : Int
  GC_3DES : Int
  GC_DES : Int
  GC_ARCFOUR128 : Int
  GC_ARCFOUR40 : Int
  GC_ARCTWO40 : Int
  GC_CBC : Int
  GC_MD5 : Int
  GC_SHA1 : Int
  GC_RMD160 : Int
  GC_HMAC : Int
  GC_MD5_LEN : Nat
  GC_SHA1_LEN : Nat
  MD5_DIGEST_SIZE : Nat
  SHA1_DIGEST_SIZE : Nat
  nettle_aes256 : nettle_cipher
  nettle_aes128 : nettle_cipher
  nettle_des3 : nettle_cipher
  nettle_des : nettle_cipher
  nettle_arcfour128 : nettle_cipher
  nettle_pkcs12_arctwo40 : nettle_cipher
  nettle_md5 : nettle_hash
  nettle_sha1 : nettle_hash

/-- The constant `MAX_BLOCK_SIZE`. -/
def MAX_BLOCK_SIZE : Nat := 64

/-- The `struct cipher_info`.  A pointer field holds the buffer it points to. -/
structure cinfo where
  alg : Int
  mode : Int
  info : nettle_cipher
  encrypt_context : List Nat
  decrypt_context : List Nat
  encrypt_iv : List Nat
  decrypt_iv : List Nat

/-- The `switch (alg)` of `gc_cipher_open`: the table selected, `none` for the
`default:` branch. -/
def cipher_switch (E : Env) (alg : Int) : Option nettle_cipher :=
  if alg = E.GC_AES256 then some E.nettle_aes256
  else if alg = E.GC_AES128 then some E.nettle_aes128
  else if alg = E.GC_3DES then some E.nettle_des3
  else if alg = E.GC_DES then some E.nettle_des
  else if alg = E.GC_ARCFOUR128 ∨ alg = E.GC_ARCFOUR40 then some E.nettle_arcfour128
  else if alg = E.GC_ARCTWO40 then some E.nettle_pkcs12_arctwo40
  else none

/-- The function `gc_cipher_open`.  `m_cinf`, `m_enc`, `m_dec` are what the three
`malloc` calls return (`m_cinf`: the indeterminate structure, or `none` for
NULL).  The second component is what is stored through `outhandle`: `none` when
nothing is stored. -/
def gc_cipher_open (E : Env) (alg mode : Int) (m_cinf : Option cinfo)
    (m_enc m_dec : Option (Nat → Nat)) : Gc_rc × Option cinfo :=
  match m_cinf with
  | none => (Gc_rc.GC_MALLOC_ERROR, none)
  | some cinf0 =>
    let cinf1 := { cinf0 with alg := alg, mode := mode }
    match cipher_switch E alg with
    | none => (Gc_rc.GC_INVALID_CIPHER, none)
    | some info =>
      let cinf2 := { cinf1 with info := info }
      match malloc cinf2.info.context_size m_enc with
      | none => (Gc_rc.GC_MALLOC_ERROR, none)
      | some e =>
        let cinf3 := { cinf2 with encrypt_context := e }
        match malloc cinf3.info.context_size m_dec with
        | none => (Gc_rc.GC_MALLOC_ERROR, none)
        | some d =>
          let cinf4 := { cinf3 with decrypt_context := d }
          let cinf5 := { cinf4 with
            encrypt_context := memset cinf4.encrypt_context 0 cinf4.info.context_size }
          let cinf6 := { cinf5 with
            decrypt_context := memset cinf5.decrypt_context 0 cinf5.info.context_size }
          (Gc_rc.GC_OK, some cinf6)

/-- The function `gc_cipher_setkey`; `key` is the `keylen` bytes at `key`. -/
def gc_cipher_setkey (cinf : cinfo) (key : List Nat) : Gc_rc × cinfo :=
  let cinf1 := { cinf with encrypt_context := cinf.info.set_encrypt_key cinf.encrypt_context key }
  let cinf2 := { cinf1 with
    decrypt_context := cinf1.info.set_decrypt_key cinf1.decrypt_context key }
  (Gc_rc.GC_OK, cinf2)

/-- The function `gc_cipher_setiv`; `iv` is the `ivlen` bytes at `iv`. -/
def gc_cipher_setiv (cinf : cinfo) (iv : List Nat) : Gc_rc × cinfo :=
  if iv.length ≠ cinf.info.block_size then (Gc_rc.GC_INVALID_CIPHER, cinf)
  else
    let cinf1 := { cinf with encrypt_iv := memcpy cinf.encrypt_iv iv iv.length }
    let cinf2 := { cinf1 with decrypt_iv := memcpy cinf1.decrypt_iv iv iv.length }
    (Gc_rc.GC_OK, cinf2)

/-- Modelled from the spec: the loop of Nettle's `cbc_encrypt` (cbc.c is absent
from src/), one block per step: "each block ... is XORed with the previous
ciphertext block (or IV for the first block)", and the helper "advances the IV
in place".  Returns the context, the IV buffer and the bytes written. -/
def cbc_encrypt_blocks (f : List Nat → List Nat → List Nat × List Nat) (block_size : Nat) :
    Nat → List Nat → List Nat → List Nat → List Nat × List Nat × List Nat
  | 0, ctx, iv, _ => (ctx, iv, [])
  | n + 1, ctx, iv, src =>
    let iv1 := memxor iv src block_size
    let r := f ctx (iv1.take block_size)
    let iv2 := memcpy iv1 r.2 block_size
    let t := cbc_encrypt_blocks f block_size n r.1 iv2 (src.drop block_size)
    (t.1, t.2.1, r.2 ++ t.2.2)

/-- Modelled from the spec: Nettle's `cbc_encrypt` (absent from src/).  Input
that is not block-aligned is "undefined behavior at this layer" (spec 4.3):
`none`. -/
def cbc_encrypt (f : List Nat → List Nat → List Nat × List Nat) (block_size : Nat)
    (ctx iv src : List Nat) : Option (List Nat × List Nat × List Nat) :=
  if src.length % block_size ≠ 0 then none
  else some (cbc_encrypt_blocks f block_size (src.length / block_size) ctx iv src)

/-- Modelled from the spec: the loop of Nettle's `cbc_decrypt` (absent from
src/), one block per step: the block is decrypted, xored with the IV, and the
ciphertext block becomes the IV. -/
def cbc_decrypt_blocks (f : List Nat → List Nat → List Nat × List Nat) (block_size : Nat) :
    Nat → List Nat → List Nat → List Nat → List Nat × List Nat × List Nat
  | 0, ctx, iv, _ => (ctx, iv, [])
  | n + 1, ctx, iv, src =>
    let c := src.take block_size
    let r := f ctx c
    let p := memxor r.2 iv block_size
    let iv1 := memcpy iv c block_size
    let t := cbc_decrypt_blocks f block_size n r.1 iv1 (src.drop block_size)
    (t.1, t.2.1, p ++ t.2.2)

/-- Modelled from the spec: Nettle's `cbc_decrypt` (absent from src/); `none`
on input that is not block-aligned. -/
def cbc_decrypt (f : List Nat → List Nat → List Nat × List Nat) (block_size : Nat)
    (ctx iv src : List Nat) : Option (List Nat × List Nat × List Nat) :=
  if src.length % block_size ≠ 0 then none
  else some (cbc_decrypt_blocks f block_size (src.length / block_size) ctx iv src)

/-- The function `gc_cipher_encrypt_inline`; `data` is the `len` bytes at `data`.
Returns the code, the handle and the buffer `data` afterwards. -/
def gc_cipher_encrypt_inline (E : Env) (cinf : cinfo) (data : List Nat) :
    Option (Gc_rc × cinfo × List Nat) :=
  if cinf.mode = E.GC_CBC then
    match cbc_encrypt cinf.info.encrypt cinf.info.block_size cinf.encrypt_context
        cinf.encrypt_iv data with
    | none => none
    | some (ctx, iv, dst) =>
      some (Gc_rc.GC_OK, { cinf with encrypt_context := ctx, encrypt_iv := iv },
        memcpy data dst data.length)
  else
    let r := cinf.info.encrypt cinf.encrypt_context data
    some (Gc_rc.GC_OK, { cinf with encrypt_context := r.1 }, memcpy data r.2 data.length)

/-- The function `gc_cipher_decrypt_inline`. -/
def gc_cipher_decrypt_inline (E : Env) (cinf : cinfo) (data : List Nat) :
    Option (Gc_rc × cinfo × List Nat) :=
  if cinf.mode = E.GC_CBC then
    match cbc_decrypt cinf.info.decrypt cinf.info.block_size cinf.decrypt_context
        cinf.decrypt_iv data with
    | none => none
    | some (ctx, iv, dst) =>
      some (Gc_rc.GC_OK, { cinf with decrypt_context := ctx, decrypt_iv := iv },
        memcpy data dst data.length)
  else
    let r := cinf.info.decrypt cinf.decrypt_context data
    some (Gc_rc.GC_OK, { cinf with decrypt_context := r.1 }, memcpy data r.2 data.length)

/-- The assumption on a cipher backend that its decryption under a key inverts
its encryption under the same key.  `R e d` relates an encrypt-side context to
a decrypt-side context that are in step: the two key setups applied to the
zero-filled contexts of `gc_cipher_open` are in step, and on contexts in step
and block-aligned input, decrypting the encryption gives the input back, the
encryption has the length of the input, and the contexts left behind are in
step again (contexts may change, as a stream cipher's does). -/
def cipher_inverts (c : nettle_cipher) (R : List Nat → List Nat → Prop) : Prop :=
  (∀ key, R (c.set_encrypt_key (List.replicate c.context_size 0) key)
      (c.set_decrypt_key (List.replicate c.context_size 0) key)) ∧
  (∀ e d x, R e d → x.length % c.block_size = 0 →
    (c.encrypt e x).2.length = x.length ∧
    (c.decrypt d (c.encrypt e x).2).2 = x ∧
    R (c.encrypt e x).1 (c.decrypt d (c.encrypt e x).2).1)

/-- A small cipher table for evaluating the definitions: a one-byte context
holding the first key byte, blocks of two bytes, each byte xored with the
context byte. -/
def toy_cipher : nettle_cipher :=
  { context_size := 1,
    block_size := 2,
    key_size := 1,
    set_encrypt_key := fun _ key => [key.headD 0],
    set_decrypt_key := fun _ key => [key.headD 0],
    encrypt := fun ctx x => (ctx, x.map (fun b => Nat.xor b (ctx.headD 0))),
    decrypt := fun ctx x => (ctx, x.map (fun b => Nat.xor b (ctx.headD 0))) }

/-- A small hash table for evaluating the definitions: a one-byte context that
adds up the bytes written; `init` clears it, `digest` writes the sum modulo 256
`length` times and clears it. -/
def toy_hash (digest_size : Nat) : nettle_hash :=
  { context_size := 1,
    digest_size := digest_size,
    block_size := 4,
    init := fun ctx => ctx.map (fun _ => 0),
    update := fun ctx x => ctx.map (fun a => a + x.sum),
    digest := fun ctx n => (ctx.map (fun _ => 0), List.replicate n (ctx.headD 0 % 256)) }

/-- A small instance of `Env` for evaluating the definitions. -/
def toy_env : Env :=
  { GC_AES256 := 0, GC_AES128 := 1, GC_3DES := 2, GC_DES := 3,
    GC_ARCFOUR128 := 4, GC_ARCFOUR40 := 5, GC_ARCTWO40 := 6,
    GC_CBC := 1,
    GC_MD5 := 0, GC_SHA1 := 1, GC_RMD160 := 2,
    GC_HMAC := 1,
    GC_MD5_LEN := 16, GC_SHA1_LEN := 20,
    MD5_DIGEST_SIZE := 16, SHA1_DIGEST_SIZE := 20,
    nettle_aes256 := toy_cipher, nettle_aes128 := toy_cipher, nettle_des3 := toy_cipher,
    nettle_des := toy_cipher, nettle_arcfour128 := toy_cipher,
    nettle_pkcs12_arctwo40 := toy_cipher,
    nettle_md5 := toy_hash 16, nettle_sha1 := toy_hash 20 }

/-- An indeterminate `struct cipher_info`, as `malloc` may hand it out. -/
def junk_cinfo : cinfo :=
  { alg := 77, mode := 77, info := toy_cipher,
    encrypt_context := [1, 2, 3], decrypt_context := [],
    encrypt_iv := List.replicate 64 0xee, decrypt_iv := List.replicate 64 0xdd }

/-! ## Hashes -/

/-- The constant `MAX_DIGEST_SIZE`. -/
def MAX_DIGEST_SIZE : Nat := 20

/-- The `struct hash_info`.  `context` holds the buffer it points to; `outer`
and `inner` are `none` for NULL and otherwise the buffer pointed to. -/
structure hinfo where
  alg : Int
  mode : Int
  info : nettle_hash
  context : List Nat
  outer : Option (List Nat)
  inner : Option (List Nat)
  digest : List Nat

/-- The `switch (hash)` of `gc_hash_open`: the table selected, `none` for the
`default:` branch. -/
def hash_switch (E : Env) (hash : Int) : Option nettle_hash :=
  if hash = E.GC_MD5 then some E.nettle_md5
  else if hash = E.GC_SHA1 then some E.nettle_sha1
  else none

/-- The function `gc_hash_open`.  `m_hinf`, `m_ctx`, `m_outer`, `m_inner` are what
the `malloc` calls return, in the order of the source; the second component is
what is stored through `outhandle`. -/
def gc_hash_open (E : Env) (hash mode : Int) (m_hinf : Option hinfo)
    (m_ctx m_outer m_inner : Option (Nat → Nat)) : Gc_rc × Option hinfo :=
  match m_hinf with
  | none => (Gc_rc.GC_MALLOC_ERROR, none)
  | some hinf0 =>
    let hinf1 := { hinf0 with alg := hash, mode := mode }
    match hash_switch E hash with
    | none => (Gc_rc.GC_INVALID_HASH, none)
    | some info =>
      let hinf2 := { hinf1 with info := info }
      match malloc hinf2.info.context_size m_ctx with
      | none => (Gc_rc.GC_MALLOC_ERROR, none)
      | some ctx =>
        let hinf3 := { hinf2 with context := ctx }
        if mode = E.GC_HMAC then
          match malloc hinf3.info.context_size m_outer with
          | none => (Gc_rc.GC_MALLOC_ERROR, none)
          | some o =>
            let hinf4 := { hinf3 with outer := some o }
            match malloc hinf4.info.context_size m_inner with
            | none => (Gc_rc.GC_MALLOC_ERROR, none)
            | some i =>
              let hinf5 := { hinf4 with inner := some i }
              (Gc_rc.GC_OK, some { hinf5 with context := hinf5.info.init hinf5.context })
        else
          let hinf4 := { hinf3 with inner := none, outer := none }
          (Gc_rc.GC_OK, some { hinf4 with context := hinf4.info.init hinf4.context })

/-- The function `gc_hash_clone`.  `m_new`, `m_ctx`, `m_inner`, `m_outer` are what
the `malloc` calls return, in the order of the source.  The outer `none` is a
`memcpy` from a NULL `inner` or `outer` of the old handle. -/
def gc_hash_clone (E : Env) (oldhinf : hinfo) (m_new : Option hinfo)
    (m_ctx m_inner m_outer : Option (Nat → Nat)) : Option (Gc_rc × Option hinfo) :=
  match m_new with
  | none => some (Gc_rc.GC_MALLOC_ERROR, none)
  | some new0 =>
    let new1 := { new0 with alg := oldhinf.alg, mode := oldhinf.mode, info := oldhinf.info }
    match malloc new1.info.context_size m_ctx with
    | none => some (Gc_rc.GC_MALLOC_ERROR, none)
    | some ctx =>
      let new2 := { new1 with context := ctx }
      if oldhinf.mode = E.GC_HMAC then
        match malloc new2.info.context_size m_inner with
        | none => some (Gc_rc.GC_MALLOC_ERROR, none)
        | some i =>
          match malloc new2.info.context_size m_outer with
          | none => some (Gc_rc.GC_MALLOC_ERROR, none)
          | some o =>
            match oldhinf.inner, oldhinf.outer with
            | some old_inner, some old_outer =>
              let new3 := { new2 with
                inner := some (memcpy i old_inner new2.info.context_size),
                outer := some (memcpy o old_outer new2.info.context_size) }
              some (Gc_rc.GC_OK, some { new3 with
                context := memcpy new3.context oldhinf.context new3.info.context_size,
                digest := memcpy new3.digest oldhinf.digest MAX_DIGEST_SIZE })
            | _, _ => none
      else
        some (Gc_rc.GC_OK, some { new2 with
          context := memcpy new2.context oldhinf.context new2.info.context_size,
          digest := memcpy new2.digest oldhinf.digest MAX_DIGEST_SIZE })

/-- The function `gc_hash_digest_length`. -/
def gc_hash_digest_length (E : Env) (hash : Int) : Nat :=
  if hash = E.GC_MD5 then E.MD5_DIGEST_SIZE
  else if hash = E.GC_SHA1 then E.SHA1_DIGEST_SIZE
  else if hash = E.GC_RMD160 then 20
  else 0

/-- The constant `IPAD` of HMAC. -/
def IPAD : Nat := 0x36

/-- The constant `OPAD` of HMAC. -/
def OPAD : Nat := 0x5c

/-- Modelled from the spec: Nettle's `hmac_set_key (outer, inner, state, hash,
key_length, key)` (hmac.c is absent from src/): "if key longer than block size,
hash it down first; pad with zero bytes; XOR with ipad/opad constants"
(spec 4.4); the outer and inner states absorb their pad and the running state
starts as the inner state.  Returns the three contexts. -/
def hmac_set_key (hash : nettle_hash) (outer inner state key : List Nat) :
    List Nat × List Nat × List Nat :=
  let outer1 := hash.init outer
  let inner1 := hash.init inner
  let reduced :=
    if hash.block_size < key.length then
      hash.digest (hash.update (hash.init state) key) hash.digest_size
    else (state, key)
  let state1 := reduced.1
  let key1 := reduced.2
  let opad := memxor (memset (List.replicate hash.block_size 0) OPAD hash.block_size)
    key1 key1.length
  let outer2 := hash.update outer1 opad
  let ipad := memxor (memset (List.replicate hash.block_size 0) IPAD hash.block_size)
    key1 key1.length
  let inner2 := hash.update inner1 ipad
  (outer2, inner2, memcpy state1 inner2 hash.context_size)

/-- Modelled from the spec: Nettle's `hmac_digest (outer, inner, state, hash,
length, dst)` (absent from src/): "computes outer(inner(data) wrapped) using
the precomputed pad states and the running digest context" (spec 4.4), and
leaves the running state at the inner state.  Returns the running state and the
`length` bytes written to `dst`. -/
def hmac_digest (hash : nettle_hash) (outer inner state : List Nat) (length : Nat) :
    List Nat × List Nat :=
  let r1 := hash.digest state hash.digest_size
  let state1 := memcpy r1.1 outer hash.context_size
  let state2 := hash.update state1 r1.2
  let r2 := hash.digest state2 length
  (memcpy r2.1 inner hash.context_size, r2.2)

/-- The function `gc_hash_hmac_setkey`; `key` is the `len` bytes at `key`.
`none` when `outer` or `inner` is NULL (`hmac_set_key` writes through them). -/
def gc_hash_hmac_setkey (hinf : hinfo) (key : List Nat) : Option hinfo :=
  match hinf.outer, hinf.inner with
  | some o, some i =>
    let r := hmac_set_key hinf.info o i hinf.context key
    some { hinf with outer := some r.1, inner := some r.2.1, context := r.2.2 }
  | _, _ => none

/-- The function `gc_hash_write`; `data` is the `len` bytes at `data`. -/
def gc_hash_write (hinf : hinfo) (data : List Nat) : hinfo :=
  { hinf with context := hinf.info.update hinf.context data }

/-- The function `gc_hash_read`: the handle afterwards and the buffer
`hinf->digest` whose address is returned.  `none` when the mode is GC_HMAC and
`outer` or `inner` is NULL. -/
def gc_hash_read (E : Env) (hinf : hinfo) : Option (hinfo × List Nat) :=
  if hinf.mode = E.GC_HMAC then
    match hinf.outer, hinf.inner with
    | some o, some i =>
      let r := hmac_digest hinf.info o i hinf.context hinf.info.digest_size
      let hinf1 := { hinf with
        context := r.1, digest := memcpy hinf.digest r.2 hinf.info.digest_size }
      some (hinf1, hinf1.digest)
    | _, _ => none
  else
    let r := hinf.info.digest hinf.context hinf.info.digest_size
    let hinf1 := { hinf with
      context := r.1, digest := memcpy hinf.digest r.2 hinf.info.digest_size }
    some (hinf1, hinf1.digest)

/-- An object with automatic storage of `size` bytes, indeterminate content
`g 0, g 1, ...` (the `struct md5_ctx md5;` of `gc_hash_buffer`). -/
def auto_object (size : Nat) (g : Nat → Nat) : List Nat :=
  (List.range size).map g

/-- The function `gc_hash_buffer`; `inp` is the `inlen` bytes at `in`, `stack` the
indeterminate content of the local context, `out` the caller's buffer.
`md5_init`, `md5_update`, `md5_digest` and `sizeof (struct md5_ctx)` are the
entries of the table `nettle_md5`, likewise for SHA-1 (the provider supplies,
per algorithm, one context size and one init/update/finalize, spec 6). -/
def gc_hash_buffer (E : Env) (hash : Int) (inp : List Nat) (stack : Nat → Nat)
    (out : List Nat) : Gc_rc × List Nat :=
  if hash = E.GC_MD5 then
    let md5 := auto_object E.nettle_md5.context_size stack
    let md5_1 := E.nettle_md5.init md5
    let md5_2 := E.nettle_md5.update md5_1 inp
    let r := E.nettle_md5.digest md5_2 E.GC_MD5_LEN
    (Gc_rc.GC_OK, memcpy out r.2 E.GC_MD5_LEN)
  else if hash = E.GC_SHA1 then
    let sha1 := auto_object E.nettle_sha1.context_size stack
    let sha1_1 := E.nettle_sha1.init sha1
    let sha1_2 := E.nettle_sha1.update sha1_1 inp
    let r := E.nettle_sha1.digest sha1_2 E.GC_SHA1_LEN
    (Gc_rc.GC_OK, memcpy out r.2 E.GC_SHA1_LEN)
  else (Gc_rc.GC_INVALID_HASH, out)

/-- The function `gc_md5`. -/
def gc_md5 (E : Env) (inp : List Nat) (stack : Nat → Nat) (out : List Nat) :
    Gc_rc × List Nat :=
  let md5 := auto_object E.nettle_md5.context_size stack
  let md5_1 := E.nettle_md5.init md5
  let md5_2 := E.nettle_md5.update md5_1 inp
  let r := E.nettle_md5.digest md5_2 E.GC_MD5_LEN
  (Gc_rc.GC_OK, memcpy out r.2 E.GC_MD5_LEN)

/-- The function `gc_hmac_md5`.  The local `struct hmac_md5_ctx ctx` has the
members `outer`, `inner` and `state`, with indeterminate contents `s_outer`,
`s_inner`, `s_state`.  Modelled from the spec for the three Nettle calls
(hmac-md5.c is absent from src/): `hmac_md5_set_key`, `hmac_md5_update` and
`hmac_md5_digest` are `hmac_set_key`, the MD5 update on `state`, and
`hmac_digest`, with the table `nettle_md5`. -/
def gc_hmac_md5 (E : Env) (key inp : List Nat) (s_outer s_inner s_state : Nat → Nat)
    (outhash : List Nat) : Gc_rc × List Nat :=
  let outer := auto_object E.nettle_md5.context_size s_outer
  let inner := auto_object E.nettle_md5.context_size s_inner
  let state := auto_object E.nettle_md5.context_size s_state
  let k := hmac_set_key E.nettle_md5 outer inner state key
  let state1 := E.nettle_md5.update k.2.2 inp
  let r := hmac_digest E.nettle_md5 k.1 k.2.1 state1 E.GC_MD5_LEN
  (Gc_rc.GC_OK, memcpy outhash r.2 E.GC_MD5_LEN)

/-- The assumptions on a hash backend.  Its functions work in place on a
context, so the context keeps its length, and `digest` writes exactly `length`
bytes.  `R` relates contexts that hash alike (they may differ in bytes that do
not matter, such as a stale block buffer): it is an equivalence; `init` gives
related contexts whatever the buffer held; `update` takes related contexts to
related ones and `digest` gives them the same bytes and related contexts;
`update` is compositional over concatenation up to `R`. -/
structure hash_sound (h : nettle_hash) (R : List Nat → List Nat → Prop) : Prop where
  init_length : ∀ c, (h.init c).length = c.length
  update_length : ∀ c x, (h.update c x).length = c.length
  digest_length : ∀ c n, (h.digest c n).1.length = c.length ∧ (h.digest c n).2.length = n
  equiv : Equivalence R
  init_any : ∀ g g', g.length = h.context_size → g'.length = h.context_size →
    R (h.init g) (h.init g')
  update_congr : ∀ c c' x, R c c' → R (h.update c x) (h.update c' x)
  digest_congr : ∀ c c' n, R c c' →
    (h.digest c n).2 = (h.digest c' n).2 ∧ R (h.digest c n).1 (h.digest c' n).1
  update_nil : ∀ c, R (h.update c []) c
  update_append : ∀ c x y, R (h.update (h.update c x) y) (h.update c (x ++ y))

/-- The incremental path up to the first write: `gc_hash_open` and, when the
mode is GC_HMAC, `gc_hash_hmac_setkey` with `key`.  `none` unless both
succeed. -/
def hash_begin (E : Env) (hash mode : Int) (key : List Nat) (m_hinf : Option hinfo)
    (m_ctx m_outer m_inner : Option (Nat → Nat)) : Option hinfo :=
  match gc_hash_open E hash mode m_hinf m_ctx m_outer m_inner with
  | (Gc_rc.GC_OK, some hinf) =>
    if mode = E.GC_HMAC then gc_hash_hmac_setkey hinf key else some hinf
  | _ => none

/-- The `digest_size` bytes at the address `gc_hash_read` returns. -/
def hash_result (E : Env) (hinf : hinfo) : Option (List Nat) :=
  (gc_hash_read E hinf).map (fun r => r.2.take hinf.info.digest_size)

/-- An indeterminate `struct hash_info`, as `malloc` may hand it out. -/
def junk_hinfo : hinfo :=
  { alg := 55, mode := 55, info := toy_hash 3,
    context := [9, 9], outer := some [1], inner := some [2, 3],
    digest := List.replicate 20 0xee }

/-- Two handles that hash alike: same table and mode, contexts of the table's
context size related by `R` and, in mode GC_HMAC, outer states of that size
related by `R` and inner states present. -/
def hash_alike (E : Env) (R : List Nat → List Nat → Prop) (a b : hinfo) : Prop :=
  a.info = b.info ∧ a.mode = b.mode ∧ R a.context b.context ∧
  a.context.length = a.info.context_size ∧ b.context.length = a.info.context_size ∧
  (a.mode = E.GC_HMAC →
    ∃ oa ob ia ib, a.outer = some oa ∧ b.outer = some ob ∧ R oa ob ∧
      oa.length = a.info.context_size ∧ ob.length = a.info.context_size ∧
      a.inner = some ia ∧ b.inner = some ib ∧
      ia.length = a.info.context_size ∧ ib.length = a.info.context_size)

/-! ## Hash handles in memory

The definitions above hold the buffers of a handle by value, which is all that
one handle at work needs.  What two handles share is a matter of addresses, so
the hash functions follow once more with the heap explicit: a handle is the
address of its `struct hash_info`, and `context`, `outer` and `inner` are
addresses of blocks. -/

namespace Mem

/-- The `struct hash_info` as it lies in memory: `context`, `outer` and `inner`
are pointers, `none` for NULL and otherwise the address of a block. -/
structure hash_info where
  alg : Int
  mode : Int
  info : nettle_hash
  context : Option Nat
  outer : Option Nat
  inner : Option Nat
  digest : List Nat

/-- The heap: the blocks of bytes and the `struct hash_info` objects that
`malloc` handed out.  The address of an object is its position in the list. -/
structure memory where
  blocks : List (List Nat)
  handles : List hash_info

/-- The C `malloc (size)` of a block of bytes: `none` for NULL, else the
address of a new block, which no block in use has, and the memory with that
block in it; its content is indeterminate. -/
def malloc_block (m : memory) (size : Nat) (r : Option (Nat → Nat)) : Option (Nat × memory) :=
  (malloc size r).map (fun b => (m.blocks.length, { m with blocks := m.blocks ++ [b] }))

/-- The bytes at the pointer `p`; `none` when `p` is NULL or points to no
block. -/
def load (m : memory) (p : Option Nat) : Option (List Nat) :=
  p.bind (fun a => m.blocks[a]?)

/-- The memory with the block at address `a` overwritten by `b`. -/
def store (m : memory) (a : Nat) (b : List Nat) : memory :=
  { m with blocks := m.blocks.set a b }

/-- The C `memcpy (dst, src, n)` on two pointers; `none` when one of them is
NULL or points to no block. -/
def memcpy_blocks (m : memory) (dst src : Option Nat) (n : Nat) : Option memory :=
  match dst, load m dst, load m src with
  | some a, some d, some s => some (store m a (memcpy d s n))
  | _, _, _ => none

/-- The function `gc_hash_open` on the heap.  `m_hinf`, `m_ctx`, `m_outer`,
`m_inner` are what the `malloc` calls return, in the order of the source: the
indeterminate content of the new object.  The `struct hash_info` is filled in
as a local and takes its address, the next free one, when the function stores
it through `outhandle`; a failing return leaves the memory as it was (what was
allocated is freed).  The result is the return code, `*outhandle` and the
memory; the outer `none` is a store through a pointer to no block. -/
def gc_hash_open (E : Env) (m : memory) (hash mode : Int) (m_hinf : Option hash_info)
    (m_ctx m_outer m_inner : Option (Nat → Nat)) : Option (Gc_rc × Option Nat × memory) :=
  match m_hinf with
  | none => some (Gc_rc.GC_MALLOC_ERROR, none, m)
  | some hinf0 =>
    let hinf1 := { hinf0 with alg := hash, mode := mode }
    match hash_switch E hash with
    | none => some (Gc_rc.GC_INVALID_HASH, none, m)
    | some info =>
      let hinf2 := { hinf1 with info := info }
      match malloc_block m hinf2.info.context_size m_ctx with
      | none => some (Gc_rc.GC_MALLOC_ERROR, none, m)
      | some (p_ctx, m1) =>
        let hinf3 := { hinf2 with context := some p_ctx }
        if mode = E.GC_HMAC then
          match malloc_block m1 hinf3.info.context_size m_outer with
          | none => some (Gc_rc.GC_MALLOC_ERROR, none, m)
          | some (p_outer, m2) =>
            let hinf4 := { hinf3 with outer := some p_outer }
            match malloc_block m2 hinf4.info.context_size m_inner with
            | none => some (Gc_rc.GC_MALLOC_ERROR, none, m)
            | some (p_inner, m3) =>
              let hinf5 := { hinf4 with inner := some p_inner }
              match load m3 hinf5.context with
              | none => none
              | some ctx =>
                let m4 := store m3 p_ctx (hinf5.info.init ctx)
                some (Gc_rc.GC_OK, some m4.handles.length,
                  { m4 with handles := m4.handles ++ [hinf5] })
        else
          let hinf4 := { hinf3 with inner := none, outer := none }
          match load m1 hinf4.context with
          | none => none
          | some ctx =>
            let m2 := store m1 p_ctx (hinf4.info.init ctx)
            some (Gc_rc.GC_OK, some m2.handles.length,
              { m2 with handles := m2.handles ++ [hinf4] })

/-- The function `gc_hash_clone` on the heap.  `m_new`, `m_ctx`, `m_inner`,
`m_outer` are what the `malloc` calls return, in the order of the source.  The
new `struct hash_info` is filled in as a local and takes its address, the next
free one, when the function stores it through `outhandle`; a failing return
leaves the memory as it was.  The outer `none` is a handle that is no object, or
a `memcpy` from or to a pointer to no block. -/
def gc_hash_clone (E : Env) (m : memory) (handle : Nat) (m_new : Option hash_info)
    (m_ctx m_inner m_outer : Option (Nat → Nat)) : Option (Gc_rc × Option Nat × memory) :=
  match m.handles[handle]? with
  | none => none
  | some oldhinf =>
    match m_new with
    | none => some (Gc_rc.GC_MALLOC_ERROR, none, m)
    | some new0 =>
      let new1 := { new0 with alg := oldhinf.alg, mode := oldhinf.mode, info := oldhinf.info }
      match malloc_block m new1.info.context_size m_ctx with
      | none => some (Gc_rc.GC_MALLOC_ERROR, none, m)
      | some (p_ctx, m1) =>
        let new2 := { new1 with context := some p_ctx }
        if oldhinf.mode = E.GC_HMAC then
          match malloc_block m1 new2.info.context_size m_inner with
          | none => some (Gc_rc.GC_MALLOC_ERROR, none, m)
          | some (p_inner, m2) =>
            let new3 := { new2 with inner := some p_inner }
            match malloc_block m2 new3.info.context_size m_outer with
            | none => some (Gc_rc.GC_MALLOC_ERROR, none, m)
            | some (p_outer, m3) =>
              let new4 := { new3 with outer := some p_outer }
              match memcpy_blocks m3 new4.inner oldhinf.inner new4.info.context_size with
              | none => none
              | some m4 =>
                match memcpy_blocks m4 new4.outer oldhinf.outer new4.info.context_size with
                | none => none
                | some m5 =>
                  match memcpy_blocks m5 new4.context oldhinf.context
                    new4.info.context_size with
                  | none => none
                  | some m6 =>
                    some (Gc_rc.GC_OK, some m6.handles.length,
                      { m6 with handles := m6.handles ++ [{ new4 with
                          digest := memcpy new4.digest oldhinf.digest MAX_DIGEST_SIZE }] })
        else
          match memcpy_blocks m1 new2.context oldhinf.context new2.info.context_size with
          | none => none
          | some m2 =>
            some (Gc_rc.GC_OK, some m2.handles.length,
              { m2 with handles := m2.handles ++ [{ new2 with
                  digest := memcpy new2.digest oldhinf.digest MAX_DIGEST_SIZE }] })

/-- The function `gc_hash_hmac_setkey` on the heap; `key` is the `len` bytes at
`key`.  `hmac_set_key` writes the three contexts it is given.  `none` when the
handle is no object or one of its three pointers points to no block. -/
def gc_hash_hmac_setkey (m : memory) (handle : Nat) (key : List Nat) : Option memory :=
  match m.handles[handle]? with
  | none => none
  | some hinf =>
    match hinf.outer, hinf.inner, hinf.context with
    | some p_outer, some p_inner, some p_ctx =>
      match load m hinf.outer, load m hinf.inner, load m hinf.context with
      | some o, some i, some ctx =>
        let r := hmac_set_key hinf.info o i ctx key
        some (store (store (store m p_outer r.1) p_inner r.2.1) p_ctx r.2.2)
      | _, _, _ => none
    | _, _, _ => none

/-- The function `gc_hash_write` on the heap; `data` is the `len` bytes at
`data`.  `none` when the handle is no object or `context` points to no
block. -/
def gc_hash_write (m : memory) (handle : Nat) (data : List Nat) : Option memory :=
  match m.handles[handle]? with
  | none => none
  | some hinf =>
    match hinf.context, load m hinf.context with
    | some p_ctx, some ctx => some (store m p_ctx (hinf.info.update ctx data))
    | _, _ => none

/-- The function `gc_hash_read` on the heap: the content of the buffer
`hinf->digest` whose address is returned, and the memory afterwards.  `none`
when the handle is no object or a pointer that is used points to no block. -/
def gc_hash_read (E : Env) (m : memory) (handle : Nat) : Option (List Nat × memory) :=
  match m.handles[handle]? with
  | none => none
  | some hinf =>
    if hinf.mode = E.GC_HMAC then
      match hinf.context, load m hinf.outer, load m hinf.inner, load m hinf.context with
      | some p_ctx, some o, some i, some ctx =>
        let r := hmac_digest hinf.info o i ctx hinf.info.digest_size
        let hinf1 := { hinf with digest := memcpy hinf.digest r.2 hinf.info.digest_size }
        some (hinf1.digest,
          { blocks := m.blocks.set p_ctx r.1, handles := m.handles.set handle hinf1 })
      | _, _, _, _ => none
    else
      match hinf.context, load m hinf.context with
      | some p_ctx, some ctx =>
        let r := hinf.info.digest ctx hinf.info.digest_size
        let hinf1 := { hinf with digest := memcpy hinf.digest r.2 hinf.info.digest_size }
        some (hinf1.digest,
          { blocks := m.blocks.set p_ctx r.1, handles := m.handles.set handle hinf1 })
      | _, _ => none

/-- The incremental path up to the first write: `gc_hash_open` and, when the
mode is GC_HMAC, `gc_hash_hmac_setkey` with `key`.  The handle and the memory;
`none` unless both succeed. -/
def hash_begin (E : Env) (m : memory) (hash mode : Int) (key : List Nat)
    (m_hinf : Option hash_info) (m_ctx m_outer m_inner : Option (Nat → Nat)) :
    Option (Nat × memory) :=
  match gc_hash_open E m hash mode m_hinf m_ctx m_outer m_inner with
  | some (Gc_rc.GC_OK, some handle, m1) =>
    if mode = E.GC_HMAC then (gc_hash_hmac_setkey m1 handle key).map (fun m2 => (handle, m2))
    else some (handle, m1)
  | _ => none

/-- One `gc_hash_write` on `handle` per chunk, in order. -/
def hash_writes (m : memory) (handle : Nat) : List (List Nat) → Option memory
  | [] => some m
  | x :: xs =>
    match gc_hash_write m handle x with
    | none => none
    | some m1 => hash_writes m1 handle xs

/-- The `digest_size` bytes at the address `gc_hash_read` returns, and the
memory afterwards. -/
def hash_result (E : Env) (m : memory) (handle : Nat) : Option (List Nat × memory) :=
  match m.handles[handle]?, gc_hash_read E m handle with
  | some hinf, some r => some (r.1.take hinf.info.digest_size, r.2)
  | _, _ => none

/-- An indeterminate `struct hash_info`, as `malloc` may hand it out: its
pointers hold the addresses 0, 1 and 2. -/
def junk_hash_info : hash_info :=
  { alg := 55, mode := 55, info := toy_hash 3,
    context := some 0, outer := some 1, inner := some 2,
    digest := List.replicate 20 0xee }

/-- A memory with two blocks and one object in use. -/
def toy_memory : memory :=
  { blocks := [[7, 7, 7], [8]], handles := [junk_hash_info] }

end Mem

/-- The digest of `data` on the backend itself, in one go on a context of
automatic storage, the way `gc_hash_buffer` and `gc_hmac_md5` work: `init`, one
`update` with all of `data`, `digest`; in mode GC_HMAC `hmac_set_key` with
`key`, one `update`, `hmac_digest`.  `s_outer`, `s_inner`, `s_state` are the
indeterminate contents of the local contexts. -/
def hash_oneshot (E : Env) (info : nettle_hash) (mode : Int) (key data : List Nat)
    (s_outer s_inner s_state : Nat → Nat) : List Nat :=
  if mode = E.GC_HMAC then
    let outer := auto_object info.context_size s_outer
    let inner := auto_object info.context_size s_inner
    let state := auto_object info.context_size s_state
    let k := hmac_set_key info outer inner state key
    let state1 := info.update k.2.2 data
    (hmac_digest info k.1 k.2.1 state1 info.digest_size).2
  else
    let ctx := auto_object info.context_size s_state
    let ctx1 := info.init ctx
    let ctx2 := info.update ctx1 data
    (info.digest ctx2 info.digest_size).2

/-! ## Theorems -/

/-! ### DER length fields and TLVs: the reader inverts the writer -/

theorem der_length_short (n : Nat) (h : n < 128) : der_length n = some [n] := by
  simp [der_length, h]

theorem der_length_defined (n : Nat) (h : n < 256 ^ 126) :
    ∃ l, der_length n = some l ∧ 1 ≤ l.length ∧ l.length ≤ 127 := by
  by_cases hn : n < 128
  · exact ⟨[n], der_length_short n hn, by simp, by simp⟩
  · have hn0 : n ≠ 0 := by omega
    have hle : 256 ^ (Nat.digits 256 n).length ≤ 256 * n :=
      Nat.base_pow_length_digits_le 256 n (by norm_num) hn0
    have hlt : 256 ^ (Nat.digits 256 n).length < 256 ^ 127 := by
      calc 256 ^ (Nat.digits 256 n).length ≤ 256 * n := hle
        _ < 256 * 256 ^ 126 := by omega
        _ = 256 ^ 127 := by norm_num
    have hk : (Nat.digits 256 n).length < 127 :=
      (Nat.pow_lt_pow_iff_right (by norm_num : 1 < 256)).mp hlt
    refine ⟨(128 + (Nat.digits 256 n).reverse.length) :: (Nat.digits 256 n).reverse, ?_, ?_, ?_⟩
    · have hk2 : (Nat.digits 256 n).length ≤ 126 := by omega
      simp [der_length, hn, hk2]
    · simp
    · simp only [List.length_cons, List.length_reverse]; omega

theorem der_get_length_der_length (n : Nat) (l rest : List Nat)
    (h : der_length n = some l) : der_get_length (l ++ rest) = some (n, rest) := by
  unfold der_length at h
  by_cases hn : n < 128
  · simp only [hn, if_true, Option.some.injEq] at h
    subst h
    simp [der_get_length, hn]
  · simp only [hn, if_false] at h
    by_cases hk : (Nat.digits 256 n).reverse.length ≤ 126
    · simp only [hk, if_true, Option.some.injEq] at h
      subst h
      have hne : Nat.digits 256 n ≠ [] := Nat.digits_ne_nil_iff_ne_zero.mpr (by omega)
      have hpos : 0 < (Nat.digits 256 n).length := List.length_pos.mpr hne
      have hk2 : (Nat.digits 256 n).length ≤ 126 := by simpa using hk
      simp only [der_get_length, List.cons_append, List.length_reverse]
      have h1 : ¬ (128 + (Nat.digits 256 n).length < 128) := by omega
      have h2 : 128 + (Nat.digits 256 n).length - 128 = (Nat.digits 256 n).length := by omega
      have h3 : ¬ ((Nat.digits 256 n).length = 0 ∨ 126 < (Nat.digits 256 n).length ∨
          ((Nat.digits 256 n).reverse ++ rest).length < (Nat.digits 256 n).length) := by
        simp only [List.length_append, List.length_reverse]; omega
      have h4 : List.take (Nat.digits 256 n).length ((Nat.digits 256 n).reverse ++ rest)
          = (Nat.digits 256 n).reverse := by
        rw [List.take_append_of_le_length (by simp)]
        exact List.take_of_length_le (by simp)
      have h5 : List.drop (Nat.digits 256 n).length ((Nat.digits 256 n).reverse ++ rest)
          = rest := by
        rw [List.drop_append_of_le_length (by simp)]
        simp [List.drop_of_length_le]
      simp only [h1, if_false, h2, h3, h4, h5, List.reverse_reverse, Nat.ofDigits_digits]
    · simp only [List.length_reverse] at hk
      simp [hk] at h

theorem der_get_tlv_der_tlv (tag : Nat) (c t rest : List Nat)
    (h : der_tlv tag c = some t) : der_get_tlv tag (t ++ rest) = some (c, rest) := by
  unfold der_tlv at h
  cases hl : der_length c.length with
  | none => simp [hl] at h
  | some l =>
    simp only [hl, Option.map_some', Option.some.injEq] at h
    subst h
    have hg := der_get_length_der_length c.length l (c ++ rest) hl
    simp only [der_get_tlv, List.cons_append, ne_eq, not_true_eq_false, if_false,
      List.append_assoc, hg, List.length_append]
    have h1 : ¬ (c.length + rest.length < c.length) := by omega
    simp [h1]

/-- The reader accepts what the writer produced for two INTEGER contents and
returns those contents. -/
theorem decode_der_rs_sequence (a b sig : List Nat) (h : der_rs_sequence a b = some sig) :
    gnutls_decode_rs_value sig = some (a, b) := by
  unfold der_rs_sequence at h
  cases ha : der_tlv 0x02 a with
  | none => simp [ha] at h
  | some ta =>
    cases hb : der_tlv 0x02 b with
    | none => simp [ha, hb] at h
    | some tb =>
      simp only [ha, hb] at h
      have h1 := der_get_tlv_der_tlv 0x30 (ta ++ tb) sig [] h
      have h2 := der_get_tlv_der_tlv 0x02 a ta tb ha
      have h3 := der_get_tlv_der_tlv 0x02 b tb [] hb
      simp only [List.append_nil] at h1 h3
      simp [gnutls_decode_rs_value, h1, h2, h3]

theorem der_integer_minimal_zero (b : Nat) (x : List Nat) (h : b < 128) :
    der_integer_minimal (0 :: b :: x) = der_integer_minimal (b :: x) := by
  rw [der_integer_minimal, if_pos h]

theorem der_integer_minimal_guard (b : Nat) (x : List Nat) (h : 128 ≤ b) :
    der_integer_minimal (0 :: b :: x) = 0 :: b :: x := by
  rw [der_integer_minimal, if_neg (by omega)]

theorem der_integer_minimal_single (b : Nat) : der_integer_minimal [b] = [b] := by
  simp [der_integer_minimal]

theorem der_integer_minimal_nonzero (a : Nat) (x : List Nat) (h : a ≠ 0) :
    der_integer_minimal (a :: x) = a :: x := by
  cases a with
  | zero => exact absurd rfl h
  | succ n => simp [der_integer_minimal]

theorem der_integer_minimal_length (x : List Nat) :
    (der_integer_minimal x).length ≤ x.length := by
  induction x with
  | nil => simp [der_integer_minimal]
  | cons a t ih =>
    by_cases ha : a = 0
    · subst ha
      cases t with
      | nil => simp [der_integer_minimal]
      | cons b u =>
        by_cases hb : b < 128
        · rw [der_integer_minimal_zero b u hb]
          simp only [List.length_cons] at ih ⊢
          omega
        · rw [der_integer_minimal_guard b u (by omega)]
    · rw [der_integer_minimal_nonzero a t ha]

theorem der_integer_minimal_zeros (x : List Nat) :
    ∃ k, x = List.replicate k 0 ++ der_integer_minimal x := by
  induction x with
  | nil => exact ⟨0, by simp [der_integer_minimal]⟩
  | cons a t ih =>
    by_cases ha : a = 0
    · subst ha
      cases t with
      | nil => exact ⟨0, by simp [der_integer_minimal]⟩
      | cons b u =>
        by_cases hb : b < 128
        · obtain ⟨k, hk⟩ := ih
          refine ⟨k + 1, ?_⟩
          rw [der_integer_minimal_zero b u hb, List.replicate_succ, List.cons_append, ← hk]
        · exact ⟨0, by rw [der_integer_minimal_guard b u (by omega)]; simp⟩
    · exact ⟨0, by rw [der_integer_minimal_nonzero a t ha]; simp⟩

theorem der_integer_minimal_is_minimal (x : List Nat) (b : Nat) (h : b < 128) :
    is_minimal_integer (der_integer_minimal (b :: x)) = true := by
  induction x generalizing b with
  | nil => simp [der_integer_minimal, is_minimal_integer, h]
  | cons c u ih =>
    by_cases hb : b = 0
    · subst hb
      by_cases hc : c < 128
      · rw [der_integer_minimal_zero c u hc]
        exact ih c hc
      · rw [der_integer_minimal_guard c u (by omega)]
        simp only [is_minimal_integer, Bool.and_eq_true, Bool.or_eq_true, decide_eq_true_eq]
        omega
    · rw [der_integer_minimal_nonzero b _ hb]
      simp only [is_minimal_integer, Bool.and_eq_true, Bool.or_eq_true, decide_eq_true_eq]
      exact ⟨h, Or.inl hb⟩

theorem der_integer_minimal_fixed (x : List Nat) (h : is_minimal_integer x = true) :
    der_integer_minimal x = x := by
  match x, h with
  | [b], _ => exact der_integer_minimal_single b
  | a :: b :: u, h =>
    simp only [is_minimal_integer, Bool.and_eq_true, Bool.or_eq_true, decide_eq_true_eq] at h
    by_cases ha : a = 0
    · subst ha
      exact der_integer_minimal_guard b u (by omega)
    · exact der_integer_minimal_nonzero a _ ha

theorem is_minimal_integer_head (x : List Nat) (h : is_minimal_integer x = true) :
    x ≠ [] ∧ x.headD 0 < 128 := by
  match x, h with
  | [b], h => simpa [is_minimal_integer] using h
  | a :: b :: u, h =>
    simp only [is_minimal_integer, Bool.and_eq_true, Bool.or_eq_true, decide_eq_true_eq] at h
    simpa using h.1

theorem der_integer_content_high (x : List Nat) (h : 128 ≤ x.headD 0) :
    der_integer_content x = 0 :: x := by
  cases x with
  | nil => simp at h
  | cons b t =>
    simp only [List.headD_cons] at h
    rw [der_integer_content, if_pos h, der_integer_minimal_guard b t h]

theorem der_integer_content_low (x : List Nat) (h : x.headD 0 < 128) :
    der_integer_content x = der_integer_minimal x := by
  cases x with
  | nil => simp [der_integer_content, der_integer_minimal]
  | cons b t =>
    simp only [List.headD_cons] at h
    rw [der_integer_content, if_neg (by omega)]

theorem der_integer_content_length (x : List Nat) :
    (der_integer_content x).length ≤ x.length + 1 := by
  by_cases h : 128 ≤ x.headD 0
  · rw [der_integer_content_high x h]
    simp
  · rw [der_integer_content_low x (by omega)]
    have := der_integer_minimal_length x
    omega

theorem der_integer_content_is_minimal (x : List Nat) (hx : x ≠ []) :
    is_minimal_integer (der_integer_content x) = true := by
  cases x with
  | nil => exact absurd rfl hx
  | cons b t =>
    by_cases h : 128 ≤ b
    · rw [der_integer_content_high _ (by simpa using h)]
      simp only [is_minimal_integer, Bool.and_eq_true, Bool.or_eq_true, decide_eq_true_eq]
      omega
    · rw [der_integer_content_low _ (by simpa using h)]
      exact der_integer_minimal_is_minimal t b (by omega)

theorem der_integer_content_zeros (x : List Nat) :
    ∃ k, 0 :: x = List.replicate k 0 ++ der_integer_content x := by
  by_cases h : 128 ≤ x.headD 0
  · exact ⟨0, by rw [der_integer_content_high x h]; simp⟩
  · obtain ⟨k, hk⟩ := der_integer_minimal_zeros x
    refine ⟨k + 1, ?_⟩
    rw [der_integer_content_low x (by omega), List.replicate_succ, List.cons_append, ← hk]

theorem der_integer_content_eq_iff (x : List Nat) (hx : x ≠ []) :
    der_integer_content x = x ↔ is_minimal_integer x = true := by
  constructor
  · intro h
    rw [← h]
    exact der_integer_content_is_minimal x hx
  · intro h
    rw [der_integer_content_low x (is_minimal_integer_head x h).2]
    exact der_integer_minimal_fixed x h

theorem is_minimal_integer_zeros (y z : List Nat) (j : Nat)
    (hy : is_minimal_integer y = true) (hz : is_minimal_integer z = true)
    (h : y = List.replicate (j + 1) 0 ++ z) : False := by
  have hz1 := is_minimal_integer_head z hz
  match z, hz1 with
  | c :: w, hz1 =>
    simp only [List.headD_cons] at hz1
    cases j with
    | zero =>
      subst h
      simp only [zero_add, List.replicate_one, List.singleton_append, is_minimal_integer,
        Bool.and_eq_true, Bool.or_eq_true, decide_eq_true_eq] at hy
      omega
    | succ i =>
      subst h
      simp only [List.replicate_succ, List.cons_append, is_minimal_integer,
        Bool.and_eq_true, Bool.or_eq_true, decide_eq_true_eq] at hy
      omega

theorem is_minimal_integer_unique (y z : List Nat) (k j : Nat)
    (hy : is_minimal_integer y = true) (hz : is_minimal_integer z = true)
    (h : List.replicate k 0 ++ y = List.replicate j 0 ++ z) : y = z := by
  induction k generalizing j with
  | zero =>
    cases j with
    | zero => simpa using h
    | succ i => exact (is_minimal_integer_zeros y z i hy hz (by simpa using h)).elim
  | succ n ih =>
    cases j with
    | zero => exact (is_minimal_integer_zeros z y n hz hy (by simpa using h.symm)).elim
    | succ i =>
      simp only [List.replicate_succ, List.cons_append, List.cons.injEq, true_and] at h
      exact ih i h

theorem two_pow_32_bound : (2 : Nat) ^ 32 * 4 < 256 ^ 126 := by norm_num

/-- The writer succeeds on INTEGER contents of at most 2^32 bytes each. -/
theorem der_rs_sequence_defined (a b : List Nat) (ha : a.length ≤ 2 ^ 32)
    (hb : b.length ≤ 2 ^ 32) :
    ∃ La Lb L, der_length a.length = some La ∧ der_length b.length = some Lb ∧
      der_length ((1 + La.length + a.length) + (1 + Lb.length + b.length)) = some L ∧
      der_rs_sequence a b = some (0x30 :: (L ++ ((0x02 :: (La ++ a)) ++ (0x02 :: (Lb ++ b))))) := by
  have hB := two_pow_32_bound
  obtain ⟨La, hLa, _, hLa2⟩ := der_length_defined a.length (by omega)
  obtain ⟨Lb, hLb, _, hLb2⟩ := der_length_defined b.length (by omega)
  obtain ⟨L, hL, _, _⟩ := der_length_defined
    ((1 + La.length + a.length) + (1 + Lb.length + b.length)) (by omega)
  refine ⟨La, Lb, L, hLa, hLb, hL, ?_⟩
  have hlen : ((0x02 :: (La ++ a)) ++ (0x02 :: (Lb ++ b))).length
      = (1 + La.length + a.length) + (1 + Lb.length + b.length) := by
    simp only [List.length_append, List.length_cons]; omega
  simp only [der_rs_sequence, der_tlv, hLa, hLb, Option.map_some', hlen, hL]

/-! ### The codec claims -/

set_option maxRecDepth 100000 in
theorem encode_tests_encode :
    ∀ t ∈ encode_tests, gnutls_encode_rs_value t.r t.s = some t.sig := by
  decide

set_option maxRecDepth 100000 in
theorem encode_tests_decode :
    ∀ t ∈ encode_tests, gnutls_decode_rs_value t.sig = some (t.r, t.s) := by
  decide

/-- C1 (as amended): for non-empty r and s of a size a `gnutls_datum_t` can
hold, gnutls_encode_rs_value succeeds and gnutls_decode_rs_value of its output
succeeds and returns the pair (r', s') of the INTEGER contents that were
written: x' is minimal, and it is 0x00 followed by x when the first byte of x
is at least 0x80.  What is returned is exactly (r, s) if and only if r and s
are both minimal INTEGER contents already (first byte below 0x80, and a leading
0x00 only before a byte of at least 0x80). -/
theorem rs_round_trip_canonical (r s : List Nat) (hr : r ≠ []) (hs : s ≠ [])
    (hrl : r.length < 2 ^ 32) (hsl : s.length < 2 ^ 32) :
    ∃ sig r' s', gnutls_encode_rs_value r s = some sig ∧
      gnutls_decode_rs_value sig = some (r', s') ∧
      is_minimal_integer r' = true ∧ is_minimal_integer s' = true ∧
      (∃ k, 0 :: r = List.replicate k 0 ++ r') ∧ (∃ k, 0 :: s = List.replicate k 0 ++ s') ∧
      (128 ≤ r.headD 0 → r' = 0 :: r) ∧ (128 ≤ s.headD 0 → s' = 0 :: s) ∧
      (gnutls_decode_rs_value sig = some (r, s)
        ↔ is_minimal_integer r = true ∧ is_minimal_integer s = true) := by
  have h1 := der_integer_content_length r
  have h2 := der_integer_content_length s
  obtain ⟨La, Lb, L, -, -, -, henc⟩ :=
    der_rs_sequence_defined (der_integer_content r) (der_integer_content s)
      (by omega) (by omega)
  have hdec := decode_der_rs_sequence _ _ _ henc
  refine ⟨_, der_integer_content r, der_integer_content s, henc, hdec,
    der_integer_content_is_minimal r hr, der_integer_content_is_minimal s hs,
    der_integer_content_zeros r, der_integer_content_zeros s,
    der_integer_content_high r, der_integer_content_high s, ?_⟩
  rw [hdec, Option.some.injEq, Prod.mk.injEq, der_integer_content_eq_iff r hr,
    der_integer_content_eq_iff s hs]

/-- Witness of C1 (as amended) at r = 7f 01, s = 01, both minimal: the pair
decoded from the encoding is (r, s). -/
theorem rs_round_trip_canonical_witness :
    ∃ sig, gnutls_encode_rs_value [0x7f, 0x01] [0x01] = some sig ∧
      gnutls_decode_rs_value sig = some ([0x7f, 0x01], [0x01]) := by
  obtain ⟨sig, r', s', h1, -, -, -, -, -, -, -, h3⟩ :=
    rs_round_trip_canonical [0x7f, 0x01] [0x01] (by simp) (by simp) (by norm_num) (by norm_num)
  exact ⟨sig, h1, h3.mpr ⟨by decide, by decide⟩⟩

/-- C1 (counterexample): r = 80, s = 01 are non-empty, the encoding is
30 07 02 02 00 80 02 01 01, and decoding it returns r = 00 80, two bytes, not
the one byte that was encoded.  The non-empty r = 00 80 has the same encoding,
so no decoder returns both values of r.  A first byte below 0x80 is not enough
either: r = 00 01 is written as the minimal INTEGER 01, and decoding returns
r = 01. -/
theorem rs_round_trip_counterexample :
    gnutls_encode_rs_value [0x80] [0x01]
        = some [0x30, 0x07, 0x02, 0x02, 0x00, 0x80, 0x02, 0x01, 0x01] ∧
      gnutls_decode_rs_value [0x30, 0x07, 0x02, 0x02, 0x00, 0x80, 0x02, 0x01, 0x01]
        = some ([0x00, 0x80], [0x01]) ∧
      (¬ ∃ sig, gnutls_encode_rs_value [0x80] [0x01] = some sig ∧
          gnutls_decode_rs_value sig = some ([0x80], [0x01])) ∧
      gnutls_encode_rs_value [0x80] [0x01] = gnutls_encode_rs_value [0x00, 0x80] [0x01] ∧
      gnutls_encode_rs_value [0x00, 0x01] [0x01]
        = some [0x30, 0x06, 0x02, 0x01, 0x01, 0x02, 0x01, 0x01] ∧
      gnutls_decode_rs_value [0x30, 0x06, 0x02, 0x01, 0x01, 0x02, 0x01, 0x01]
        = some ([0x01], [0x01]) ∧
      (¬ ∃ sig, gnutls_encode_rs_value [0x00, 0x01] [0x01] = some sig ∧
          gnutls_decode_rs_value sig = some ([0x00, 0x01], [0x01])) := by
  decide

/-- C2 (counterexample): r = 00 01 and s = 01 are non-empty and the first byte
of r is below 0x80, so the claim has r' = r and the output
30 07 02 02 00 01 02 01 01; the encoder writes the minimal INTEGER 01 for r,
and the output is 30 06 02 01 01 02 01 01. -/
theorem encode_rs_value_format_counterexample :
    gnutls_encode_rs_value [0x00, 0x01] [0x01]
        = some [0x30, 0x06, 0x02, 0x01, 0x01, 0x02, 0x01, 0x01] ∧
      gnutls_encode_rs_value [0x00, 0x01] [0x01]
        ≠ some (0x30 :: 0x07 :: ((0x02 :: 0x02 :: [0x00, 0x01]) ++ (0x02 :: 0x01 :: [0x01]))) := by
  decide

/-- C2 (as amended): for non-empty r and s, gnutls_encode_rs_value returns
0x30 L || 0x02 Lr || r' || 0x02 Ls || s', where x' is the minimal INTEGER
content of x: x' is minimal, x' is what is left of 0x00 || x when leading 0x00
bytes are dropped (and the only minimal content of that kind), x' is 0x00 || x
when the first byte of x is at least 0x80, and x' = x exactly when x is minimal
already; Lr and Ls are the DER length fields of r' and s' (the single byte of
the length when it is below 128) and L that of the two INTEGER TLVs together;
and each of the 9 fixtures of `encode_tests` encodes to its `sig`. -/
theorem encode_rs_value_format (r s : List Nat) (hr : r ≠ []) (hs : s ≠ [])
    (hrl : r.length < 2 ^ 32) (hsl : s.length < 2 ^ 32) :
    (∃ r' s' Lr Ls L,
      is_minimal_integer r' = true ∧ is_minimal_integer s' = true ∧
      (∃ k, 0 :: r = List.replicate k 0 ++ r') ∧ (∃ k, 0 :: s = List.replicate k 0 ++ s') ∧
      (∀ y k, is_minimal_integer y = true → 0 :: r = List.replicate k 0 ++ y → y = r') ∧
      (∀ y k, is_minimal_integer y = true → 0 :: s = List.replicate k 0 ++ y → y = s') ∧
      (128 ≤ r.headD 0 → r' = 0 :: r) ∧ (128 ≤ s.headD 0 → s' = 0 :: s) ∧
      (r' = r ↔ is_minimal_integer r = true) ∧ (s' = s ↔ is_minimal_integer s = true) ∧
      der_length r'.length = some Lr ∧ der_length s'.length = some Ls ∧
      der_length ((1 + Lr.length + r'.length) + (1 + Ls.length + s'.length)) = some L ∧
      (r'.length < 128 → Lr = [r'.length]) ∧ (s'.length < 128 → Ls = [s'.length]) ∧
      (r'.length + s'.length + 4 < 128 → L = [r'.length + s'.length + 4]) ∧
      gnutls_encode_rs_value r s
        = some (0x30 :: (L ++ ((0x02 :: (Lr ++ r')) ++ (0x02 :: (Ls ++ s')))))) ∧
    (∀ t ∈ encode_tests, gnutls_encode_rs_value t.r t.s = some t.sig) := by
  refine ⟨?_, encode_tests_encode⟩
  have h1 := der_integer_content_length r
  have h2 := der_integer_content_length s
  obtain ⟨La, Lb, L, hLa, hLb, hL, henc⟩ :=
    der_rs_sequence_defined (der_integer_content r) (der_integer_content s)
      (by omega) (by omega)
  have hLa1 : (der_integer_content r).length < 128 → La = [(der_integer_content r).length] := by
    intro h
    rw [der_length_short _ h] at hLa
    exact (Option.some.inj hLa).symm
  have hLb1 : (der_integer_content s).length < 128 → Lb = [(der_integer_content s).length] := by
    intro h
    rw [der_length_short _ h] at hLb
    exact (Option.some.inj hLb).symm
  have hL1 : (der_integer_content r).length + (der_integer_content s).length + 4 < 128 →
      L = [(der_integer_content r).length + (der_integer_content s).length + 4] := by
    intro h
    rw [hLa1 (by omega), hLb1 (by omega)] at hL
    rw [der_length_short _ (by simp only [List.length_singleton]; omega)] at hL
    rw [← Option.some.inj hL]
    simp only [List.length_singleton, List.cons.injEq, and_true]
    omega
  have hur : ∀ y k, is_minimal_integer y = true → 0 :: r = List.replicate k 0 ++ y →
      y = der_integer_content r := by
    intro y k hy hk
    obtain ⟨j, hj⟩ := der_integer_content_zeros r
    exact is_minimal_integer_unique y _ k j hy (der_integer_content_is_minimal r hr)
      (hk.symm.trans hj)
  have hus : ∀ y k, is_minimal_integer y = true → 0 :: s = List.replicate k 0 ++ y →
      y = der_integer_content s := by
    intro y k hy hk
    obtain ⟨j, hj⟩ := der_integer_content_zeros s
    exact is_minimal_integer_unique y _ k j hy (der_integer_content_is_minimal s hs)
      (hk.symm.trans hj)
  exact ⟨der_integer_content r, der_integer_content s, La, Lb, L,
    der_integer_content_is_minimal r hr, der_integer_content_is_minimal s hs,
    der_integer_content_zeros r, der_integer_content_zeros s, hur, hus,
    der_integer_content_high r, der_integer_content_high s,
    der_integer_content_eq_iff r hr, der_integer_content_eq_iff s hs,
    hLa, hLb, hL, hLa1, hLb1, hL1, henc⟩

/-- Witness of C2 (as amended) at r = 80, s = 01. -/
theorem encode_rs_value_format_witness :
    gnutls_encode_rs_value [0x80] [0x01]
      = some [0x30, 0x07, 0x02, 0x02, 0x00, 0x80, 0x02, 0x01, 0x01] := by
  obtain ⟨⟨r', s', Lr, Ls, L, -, -, -, -, -, -, hr, -, -, hs, -, -, -, h1, h2, h3, h⟩, -⟩ :=
    encode_rs_value_format [0x80] [0x01] (by simp) (by simp) (by norm_num) (by norm_num)
  have hr1 := hr (by simp)
  have hs1 := hs.2 (by decide)
  subst hr1 hs1
  rw [h1 (by simp), h2 (by simp), h3 (by simp)] at h
  simpa using h

/-- C3: gnutls_decode_rs_value succeeds on every DER SEQUENCE of two INTEGERs
and returns the content octets of the first and of the second INTEGER as they
stand, a leading 0x00 included; each of the 9 fixtures of `encode_tests`
decodes to its `r` and `s`, test1 to 33 bytes each beginning 00 e8 and 00 c9,
test2 to 32 bytes each beginning 07 d2 and 37 06. -/
theorem decode_rs_value_contents (a b sig : List Nat)
    (h : der_rs_sequence a b = some sig) :
    gnutls_decode_rs_value sig = some (a, b) ∧
    (∀ t ∈ encode_tests, gnutls_decode_rs_value t.sig = some (t.r, t.s)) ∧
    (encode_tests.take 2).map (fun t => (gnutls_decode_rs_value t.sig).map
        (fun p => (p.1.length, p.1.take 2, p.2.length, p.2.take 2)))
      = [some (33, [0x00, 0xe8], 33, [0x00, 0xc9]), some (32, [0x07, 0xd2], 32, [0x37, 0x06])] :=
  ⟨decode_der_rs_sequence a b sig h, encode_tests_decode, by decide⟩

/-- Witness of C3 at the SEQUENCE of the INTEGERs 00 80 and 01. -/
theorem decode_rs_value_contents_witness :
    der_rs_sequence [0x00, 0x80] [0x01]
        = some [0x30, 0x07, 0x02, 0x02, 0x00, 0x80, 0x02, 0x01, 0x01] ∧
      gnutls_decode_rs_value [0x30, 0x07, 0x02, 0x02, 0x00, 0x80, 0x02, 0x01, 0x01]
        = some ([0x00, 0x80], [0x01]) :=
  ⟨by decide, (decode_rs_value_contents [0x00, 0x80] [0x01] _ (by decide)).1⟩

set_option maxRecDepth 100000 in
/-- The test program `tests/dss-sig-val.c` passes on the modelled codec. -/
theorem doit_passes : doit = true := by
  decide

set_option maxRecDepth 100000 in
/-- The stripping reading of the decoder is not what the source's test expects:
on the `sig` of `encode_tests[0]` it returns 32-byte values, where the fixture
has the 33-byte `r` and `s` that begin with 0x00; the test would fail. -/
theorem stripping_decoder_fails_test1 :
    (encode_tests.take 1).map (fun t => ((decode_rs_value_stripping t.sig).map
        (fun p => (p.1.length, p.2.length)), t.r.length, t.s.length))
      = [(some (32, 32), 33, 33)] := by
  decide

/-- Under the stripping reading the round trip fails as well, at the other of
the two values that share an encoding: r = 00 80 comes back as 80. -/
theorem stripping_decoder_round_trip :
    (gnutls_encode_rs_value [0x00, 0x80] [0x01]).bind decode_rs_value_stripping
      = some ([0x80], [0x01]) := by
  decide

/-! ### Randomness -/

/-- C9 (the code at the failing input): the device delivers aa bb and then
cc dd to a request for 4 bytes.  Each of gc_nonce, gc_pseudo_random and
gc_random returns GC_OK with the buffer cc dd 00 00: the second read landed on
the first one, and positions 2 and 3 still hold what the caller put there; the
buffer is not aa bb cc dd, the bytes read one after the other. -/
theorem randomize_short_reads :
    gc_nonce short_read_sys [0, 0, 0, 0] 4 = some (Gc_rc.GC_OK, [0xcc, 0xdd, 0, 0]) ∧
      gc_pseudo_random short_read_sys [0, 0, 0, 0] 4
        = some (Gc_rc.GC_OK, [0xcc, 0xdd, 0, 0]) ∧
      gc_random short_read_sys [0, 0, 0, 0] 4 = some (Gc_rc.GC_OK, [0xcc, 0xdd, 0, 0]) ∧
      gc_nonce short_read_sys [0, 0, 0, 0] 4 ≠ some (Gc_rc.GC_OK, [0xaa, 0xbb, 0xcc, 0xdd]) := by
  decide

/-! ### Ciphers -/

theorem memcpy_take (dst src : List Nat) (n : Nat) (h : src.length = n) :
    (memcpy dst src n).take n = src := by
  subst h
  simp [memcpy]

theorem memcpy_length_ge (dst src : List Nat) (n : Nat) (h : src.length = n) :
    n ≤ (memcpy dst src n).length := by
  subst h
  simp [memcpy]

theorem memcpy_full (dst src : List Nat) (h : src.length = dst.length) :
    memcpy dst src dst.length = src := by
  simp [memcpy, ← h]

theorem memxor_take (dst src : List Nat) (n : Nat) (h1 : n ≤ dst.length) (h2 : n ≤ src.length) :
    (memxor dst src n).take n = List.zipWith Nat.xor (dst.take n) (src.take n) := by
  have hl : (List.zipWith Nat.xor (dst.take n) (src.take n)).length = n := by
    simp [List.length_zipWith, List.length_take]; omega
  unfold memxor
  rw [List.take_append_of_le_length (by omega)]
  exact List.take_of_length_le (by omega)

theorem nat_xor_cancel (a b : Nat) : Nat.xor (Nat.xor a b) a = b := by
  show (a ^^^ b) ^^^ a = b
  rw [Nat.xor_comm a b, Nat.xor_assoc, Nat.xor_self, Nat.xor_zero]

theorem zipWith_xor_cancel : ∀ (a b : List Nat), a.length = b.length →
    List.zipWith Nat.xor (List.zipWith Nat.xor a b) a = b
  | [], [], _ => rfl
  | [], _ :: _, h => by simp at h
  | _ :: _, [], h => by simp at h
  | x :: a, y :: b, h => by
    simp only [List.zipWith_cons_cons, List.cons.injEq]
    exact ⟨nat_xor_cancel x y, zipWith_xor_cancel a b (by simpa using h)⟩

/-- CBC decryption of a CBC encryption gives the blocks back, when the two
contexts are in step and the two IV buffers start with the same block. -/
theorem cbc_blocks_round_trip (c : nettle_cipher) (R : List Nat → List Nat → Prop)
    (h : cipher_inverts c R) :
    ∀ (n : Nat) (e d ive ivd src : List Nat), R e d →
      ive.take c.block_size = ivd.take c.block_size → c.block_size ≤ ive.length →
      src.length = n * c.block_size →
      (cbc_encrypt_blocks c.encrypt c.block_size n e ive src).2.2.length = src.length ∧
      (cbc_decrypt_blocks c.decrypt c.block_size n d ivd
        (cbc_encrypt_blocks c.encrypt c.block_size n e ive src).2.2).2.2 = src := by
  intro n
  induction n with
  | zero =>
    intro e d ive ivd src _ _ _ hs
    have : src = [] := List.length_eq_zero.mp (by simpa using hs)
    subst this
    simp [cbc_encrypt_blocks, cbc_decrypt_blocks]
  | succ n ih =>
    intro e d ive ivd src hR hiv hle hs
    have hbs : c.block_size ≤ src.length := by
      rw [hs]; exact Nat.le_mul_of_pos_left _ (Nat.succ_pos n)
    have hX := memxor_take ive src c.block_size hle hbs
    have hXl : (List.zipWith Nat.xor (ive.take c.block_size) (src.take c.block_size)).length
        = c.block_size := by
      simp [List.length_zipWith, List.length_take]; omega
    obtain ⟨hlen, hdec, hR'⟩ := h.2 e d _ hR (by rw [hXl]; exact Nat.mod_self _)
    have hrest : (src.drop c.block_size).length = n * c.block_size := by
      rw [List.length_drop, hs, Nat.succ_mul]; omega
    simp only [cbc_encrypt_blocks, cbc_decrypt_blocks, hX]
    rw [hXl] at hlen
    have htake : List.take c.block_size
        ((c.encrypt e (List.zipWith Nat.xor (ive.take c.block_size) (src.take c.block_size))).2 ++
          (cbc_encrypt_blocks c.encrypt c.block_size n
            (c.encrypt e (List.zipWith Nat.xor (ive.take c.block_size) (src.take c.block_size))).1
            (memcpy (memxor ive src c.block_size)
              (c.encrypt e (List.zipWith Nat.xor (ive.take c.block_size)
                (src.take c.block_size))).2 c.block_size)
            (src.drop c.block_size)).2.2)
        = (c.encrypt e (List.zipWith Nat.xor (ive.take c.block_size) (src.take c.block_size))).2 := by
      rw [List.take_append_of_le_length (by omega)]
      exact List.take_of_length_le (by omega)
    have hdrop : List.drop c.block_size
        ((c.encrypt e (List.zipWith Nat.xor (ive.take c.block_size) (src.take c.block_size))).2 ++
          (cbc_encrypt_blocks c.encrypt c.block_size n
            (c.encrypt e (List.zipWith Nat.xor (ive.take c.block_size) (src.take c.block_size))).1
            (memcpy (memxor ive src c.block_size)
              (c.encrypt e (List.zipWith Nat.xor (ive.take c.block_size)
                (src.take c.block_size))).2 c.block_size)
            (src.drop c.block_size)).2.2)
        = (cbc_encrypt_blocks c.encrypt c.block_size n
            (c.encrypt e (List.zipWith Nat.xor (ive.take c.block_size) (src.take c.block_size))).1
            (memcpy (memxor ive src c.block_size)
              (c.encrypt e (List.zipWith Nat.xor (ive.take c.block_size)
                (src.take c.block_size))).2 c.block_size)
            (src.drop c.block_size)).2.2 := by
      rw [List.drop_append_of_le_length (by omega)]
      simp [List.drop_of_length_le, hlen]
    rw [htake, hdrop, hdec]
    obtain ⟨ih1, ih2⟩ := ih _ _ 
      (memcpy (memxor ive src c.block_size)
        (c.encrypt e (List.zipWith Nat.xor (ive.take c.block_size) (src.take c.block_size))).2
        c.block_size)
      (memcpy ivd
        (c.encrypt e (List.zipWith Nat.xor (ive.take c.block_size) (src.take c.block_size))).2
        c.block_size)
      (src.drop c.block_size) hR'
      (by rw [memcpy_take _ _ _ hlen, memcpy_take _ _ _ hlen])
      (memcpy_length_ge _ _ _ hlen) hrest
    refine ⟨?_, ?_⟩
    · rw [List.length_append, ih1, hlen, hrest, hs, Nat.succ_mul]; omega
    · rw [ih2]
      have hp : memxor (List.zipWith Nat.xor (ive.take c.block_size) (src.take c.block_size))
          ivd c.block_size = src.take c.block_size := by
        unfold memxor
        rw [List.take_of_length_le (by omega : _ ≤ c.block_size),
          List.drop_of_length_le (by omega : _ ≤ c.block_size), ← hiv, List.append_nil]
        exact zipWith_xor_cancel _ _ (by simp [List.length_take]; omega)
      rw [hp, List.take_append_drop]

/-- The handle `gc_cipher_open` stores when the identifier is supported and the
three allocations succeed. -/
theorem cipher_open_ok (E : Env) (alg mode : Int) (junk : cinfo) (g1 g2 : Nat → Nat)
    (c : nettle_cipher) (hsup : cipher_switch E alg = some c) :
    gc_cipher_open E alg mode (some junk) (some g1) (some g2)
      = (Gc_rc.GC_OK, some {
          alg := alg, mode := mode, info := c,
          encrypt_context := List.replicate c.context_size 0,
          decrypt_context := List.replicate c.context_size 0,
          encrypt_iv := junk.encrypt_iv, decrypt_iv := junk.decrypt_iv }) := by
  simp [gc_cipher_open, hsup, malloc, memset]

theorem encrypt_inline_cbc (E : Env) (h : cinfo) (data : List Nat) (hm : h.mode = E.GC_CBC)
    (hd : data.length % h.info.block_size = 0) :
    gc_cipher_encrypt_inline E h data
      = some (Gc_rc.GC_OK,
          { h with
            encrypt_context := (cbc_encrypt_blocks h.info.encrypt h.info.block_size
              (data.length / h.info.block_size) h.encrypt_context h.encrypt_iv data).1,
            encrypt_iv := (cbc_encrypt_blocks h.info.encrypt h.info.block_size
              (data.length / h.info.block_size) h.encrypt_context h.encrypt_iv data).2.1 },
          memcpy data (cbc_encrypt_blocks h.info.encrypt h.info.block_size
              (data.length / h.info.block_size) h.encrypt_context h.encrypt_iv data).2.2
            data.length) := by
  simp [gc_cipher_encrypt_inline, hm, cbc_encrypt, hd]

theorem decrypt_inline_cbc (E : Env) (h : cinfo) (data : List Nat) (hm : h.mode = E.GC_CBC)
    (hd : data.length % h.info.block_size = 0) :
    gc_cipher_decrypt_inline E h data
      = some (Gc_rc.GC_OK,
          { h with
            decrypt_context := (cbc_decrypt_blocks h.info.decrypt h.info.block_size
              (data.length / h.info.block_size) h.decrypt_context h.decrypt_iv data).1,
            decrypt_iv := (cbc_decrypt_blocks h.info.decrypt h.info.block_size
              (data.length / h.info.block_size) h.decrypt_context h.decrypt_iv data).2.1 },
          memcpy data (cbc_decrypt_blocks h.info.decrypt h.info.block_size
              (data.length / h.info.block_size) h.decrypt_context h.decrypt_iv data).2.2
            data.length) := by
  simp [gc_cipher_decrypt_inline, hm, cbc_decrypt, hd]

theorem encrypt_inline_raw (E : Env) (h : cinfo) (data : List Nat) (hm : h.mode ≠ E.GC_CBC) :
    gc_cipher_encrypt_inline E h data
      = some (Gc_rc.GC_OK,
          { h with encrypt_context := (h.info.encrypt h.encrypt_context data).1 },
          memcpy data (h.info.encrypt h.encrypt_context data).2 data.length) := by
  simp [gc_cipher_encrypt_inline, hm]

theorem decrypt_inline_raw (E : Env) (h : cinfo) (data : List Nat) (hm : h.mode ≠ E.GC_CBC) :
    gc_cipher_decrypt_inline E h data
      = some (Gc_rc.GC_OK,
          { h with decrypt_context := (h.info.decrypt h.decrypt_context data).1 },
          memcpy data (h.info.decrypt h.decrypt_context data).2 data.length) := by
  simp [gc_cipher_decrypt_inline, hm]

/-- On a handle whose two contexts are in step and whose two IV buffers start
with the same block, decrypting what was encrypted gives the data back. -/
theorem handle_round_trip (E : Env) (h : cinfo) (R : List Nat → List Nat → Prop)
    (hinv : cipher_inverts h.info R) (hR : R h.encrypt_context h.decrypt_context)
    (hiv : h.encrypt_iv.take h.info.block_size = h.decrypt_iv.take h.info.block_size)
    (hle : h.info.block_size ≤ h.encrypt_iv.length)
    (data : List Nat) (hd : data.length % h.info.block_size = 0) :
    ∃ h3 ct h4 pt,
      gc_cipher_encrypt_inline E h data = some (Gc_rc.GC_OK, h3, ct) ∧
      gc_cipher_decrypt_inline E h3 ct = some (Gc_rc.GC_OK, h4, pt) ∧
      pt = data ∧ ct.length = data.length := by
  have hn : data.length = data.length / h.info.block_size * h.info.block_size :=
    (Nat.div_mul_cancel (Nat.dvd_of_mod_eq_zero hd)).symm
  by_cases hm : h.mode = E.GC_CBC
  · obtain ⟨hl, hdec⟩ := cbc_blocks_round_trip h.info R hinv (data.length / h.info.block_size)
      _ _ _ _ data hR hiv hle hn
    have hct := memcpy_full data _ hl
    rw [encrypt_inline_cbc E h data hm hd, hct]
    refine ⟨_, _, _, _, rfl, decrypt_inline_cbc E _ _ hm (by rw [hl]; exact hd), ?_, hl⟩
    simp only [hl]
    rw [hdec]
    simp [memcpy, hl]
  · obtain ⟨hl, hdec, -⟩ := hinv.2 _ _ data hR hd
    have hct := memcpy_full data _ hl
    rw [encrypt_inline_raw E h data hm, hct]
    refine ⟨_, _, _, _, rfl, decrypt_inline_raw E _ _ hm, ?_, hl⟩
    simp only [hl]
    rw [hdec]
    simp [memcpy, hl]

/-- C4: for every algorithm the `switch` of gc_cipher_open accepts, whose backend
decryption inverts its encryption under the same key (`cipher_inverts`), every
key, every IV of block-size length and every data whose length is a multiple
of the block size: gc_cipher_open, gc_cipher_setkey and gc_cipher_setiv
succeed, and gc_cipher_decrypt_inline applied to the output of
gc_cipher_encrypt_inline returns the data, the ciphertext having the length of
the data, in mode GC_CBC and in every other mode. -/
theorem cipher_round_trip (E : Env) (alg mode : Int) (key iv data : List Nat) (junk : cinfo)
    (g1 g2 : Nat → Nat) (c : nettle_cipher) (R : List Nat → List Nat → Prop)
    (hsup : cipher_switch E alg = some c) (hinv : cipher_inverts c R)
    (hiv : iv.length = c.block_size) (hdata : data.length % c.block_size = 0) :
    ∃ h0 h1 h2 h3 h4 ct pt,
      gc_cipher_open E alg mode (some junk) (some g1) (some g2) = (Gc_rc.GC_OK, some h0) ∧
      gc_cipher_setkey h0 key = (Gc_rc.GC_OK, h1) ∧
      gc_cipher_setiv h1 iv = (Gc_rc.GC_OK, h2) ∧
      gc_cipher_encrypt_inline E h2 data = some (Gc_rc.GC_OK, h3, ct) ∧
      gc_cipher_decrypt_inline E h3 ct = some (Gc_rc.GC_OK, h4, pt) ∧
      pt = data ∧ ct.length = data.length := by
  have hopen := cipher_open_ok E alg mode junk g1 g2 c hsup
  have hsetiv : ∀ h1 : cinfo, h1.info = c → gc_cipher_setiv h1 iv
      = (Gc_rc.GC_OK, { h1 with encrypt_iv := memcpy h1.encrypt_iv iv iv.length,
                                decrypt_iv := memcpy h1.decrypt_iv iv iv.length }) := by
    intro h1 h1c
    simp [gc_cipher_setiv, h1c, hiv]
  obtain ⟨h3, ct, h4, pt, he, hd, hpt, hct⟩ := handle_round_trip E
    { alg := alg, mode := mode, info := c,
      encrypt_context := c.set_encrypt_key (List.replicate c.context_size 0) key,
      decrypt_context := c.set_decrypt_key (List.replicate c.context_size 0) key,
      encrypt_iv := memcpy junk.encrypt_iv iv iv.length,
      decrypt_iv := memcpy junk.decrypt_iv iv iv.length } R hinv (hinv.1 key)
    (by simp only [← hiv]; rw [memcpy_take _ _ _ rfl, memcpy_take _ _ _ rfl])
    (by simp only [← hiv]; exact memcpy_length_ge _ _ _ rfl) data hdata
  exact ⟨_, _, _, h3, h4, ct, pt, hopen, rfl, hsetiv _ rfl, he, hd, hpt, hct⟩

theorem toy_cipher_inverts : cipher_inverts toy_cipher (fun e d => e = d) := by
  refine ⟨fun key => rfl, ?_⟩
  intro e d x hR _
  subst hR
  refine ⟨by simp [toy_cipher], ?_, rfl⟩
  simp only [toy_cipher, List.map_map]
  have hf : ((fun b => Nat.xor b (e.headD 0)) ∘ fun b => Nat.xor b (e.headD 0)) = id := by
    funext b
    show (b ^^^ e.headD 0) ^^^ e.headD 0 = b
    rw [Nat.xor_assoc, Nat.xor_self, Nat.xor_zero]
  rw [hf, List.map_id]

/-- Witness of C4: the toy table under identifier 0 in CBC mode (1) and in raw
mode (0), key 5a, IV 07 09, data 01 02 03 04. -/
theorem cipher_round_trip_witness :
    (∃ h0 h1 h2 h3 h4 ct pt,
      gc_cipher_open toy_env 0 1 (some junk_cinfo) (some fun _ => 0xaa) (some fun _ => 0xbb)
        = (Gc_rc.GC_OK, some h0) ∧
      gc_cipher_setkey h0 [0x5a] = (Gc_rc.GC_OK, h1) ∧
      gc_cipher_setiv h1 [7, 9] = (Gc_rc.GC_OK, h2) ∧
      gc_cipher_encrypt_inline toy_env h2 [1, 2, 3, 4] = some (Gc_rc.GC_OK, h3, ct) ∧
      gc_cipher_decrypt_inline toy_env h3 ct = some (Gc_rc.GC_OK, h4, pt) ∧
      pt = [1, 2, 3, 4] ∧ ct.length = [1, 2, 3, 4].length) ∧
    (∃ h0 h1 h2 h3 h4 ct pt,
      gc_cipher_open toy_env 0 0 (some junk_cinfo) (some fun _ => 0xaa) (some fun _ => 0xbb)
        = (Gc_rc.GC_OK, some h0) ∧
      gc_cipher_setkey h0 [0x5a] = (Gc_rc.GC_OK, h1) ∧
      gc_cipher_setiv h1 [7, 9] = (Gc_rc.GC_OK, h2) ∧
      gc_cipher_encrypt_inline toy_env h2 [1, 2, 3, 4] = some (Gc_rc.GC_OK, h3, ct) ∧
      gc_cipher_decrypt_inline toy_env h3 ct = some (Gc_rc.GC_OK, h4, pt) ∧
      pt = [1, 2, 3, 4] ∧ ct.length = [1, 2, 3, 4].length) :=
  ⟨cipher_round_trip toy_env 0 1 [0x5a] [7, 9] [1, 2, 3, 4] junk_cinfo _ _ toy_cipher
      (fun e d => e = d) rfl toy_cipher_inverts rfl (by decide),
   cipher_round_trip toy_env 0 0 [0x5a] [7, 9] [1, 2, 3, 4] junk_cinfo _ _ toy_cipher
      (fun e d => e = d) rfl toy_cipher_inverts rfl (by decide)⟩


/-- C5: gc_cipher_setiv fails if and only if the IV length differs from the
block size of the handle's algorithm; when it fails (the code it returns is
GC_INVALID_CIPHER) the handle is unchanged;
when the lengths agree it returns GC_OK, the first ivlen bytes of the
encrypt-side and of the decrypt-side IV buffer are the given IV, and the rest
of both buffers, both contexts, alg and mode are as before. -/
theorem cipher_setiv_spec (cinf : cinfo) (iv : List Nat) :
    ((gc_cipher_setiv cinf iv).1 ≠ Gc_rc.GC_OK ↔ iv.length ≠ cinf.info.block_size) ∧
    ((gc_cipher_setiv cinf iv).1 ≠ Gc_rc.GC_OK →
      gc_cipher_setiv cinf iv = (Gc_rc.GC_INVALID_CIPHER, cinf)) ∧
    (iv.length = cinf.info.block_size →
      (gc_cipher_setiv cinf iv).1 = Gc_rc.GC_OK ∧
      (gc_cipher_setiv cinf iv).2.encrypt_iv.take iv.length = iv ∧
      (gc_cipher_setiv cinf iv).2.decrypt_iv.take iv.length = iv ∧
      (gc_cipher_setiv cinf iv).2.encrypt_iv.drop iv.length = cinf.encrypt_iv.drop iv.length ∧
      (gc_cipher_setiv cinf iv).2.decrypt_iv.drop iv.length = cinf.decrypt_iv.drop iv.length ∧
      (gc_cipher_setiv cinf iv).2.encrypt_context = cinf.encrypt_context ∧
      (gc_cipher_setiv cinf iv).2.decrypt_context = cinf.decrypt_context ∧
      (gc_cipher_setiv cinf iv).2.alg = cinf.alg ∧
      (gc_cipher_setiv cinf iv).2.mode = cinf.mode) := by
  by_cases h : iv.length = cinf.info.block_size
  · have hb : cinf.info.block_size = iv.length := h.symm
    simp [gc_cipher_setiv, hb, memcpy]
  · simp [gc_cipher_setiv, h]

theorem cipher_switch_none_iff (E : Env) (alg : Int) :
    cipher_switch E alg = none ↔
      alg ∉ [E.GC_AES256, E.GC_AES128, E.GC_3DES, E.GC_DES, E.GC_ARCFOUR128, E.GC_ARCFOUR40,
        E.GC_ARCTWO40] := by
  unfold cipher_switch
  simp only [List.mem_cons, List.mem_singleton, List.not_mem_nil, or_false, not_or]
  constructor
  · intro h
    split_ifs at h with h1 h2 h3 h4 h5 h6
    exact ⟨h1, h2, h3, h4, fun h7 => h5 (Or.inl h7), fun h7 => h5 (Or.inr h7), h6⟩
  · rintro ⟨h1, h2, h3, h4, h5, h6, h7⟩
    simp [h1, h2, h3, h4, h5, h6, h7]

/-- C10 (as amended): gc_cipher_open returns GC_MALLOC_ERROR when the handle
allocation fails, whatever the identifier; with the handle allocated it returns
GC_INVALID_CIPHER for every identifier outside the seven supported ones; for a
supported identifier it returns GC_MALLOC_ERROR when any allocation fails and
GC_OK when none does; on every failing return nothing is stored through
outhandle; a handle is stored only with GC_OK, and it records alg and mode and
has encrypt and decrypt buffers of the table's context size filled with zero. -/
theorem cipher_open_spec (E : Env) (alg mode : Int) (m_cinf : Option cinfo)
    (m_enc m_dec : Option (Nat → Nat)) :
    (m_cinf = none →
      gc_cipher_open E alg mode m_cinf m_enc m_dec = (Gc_rc.GC_MALLOC_ERROR, none)) ∧
    (m_cinf ≠ none →
      alg ∉ [E.GC_AES256, E.GC_AES128, E.GC_3DES, E.GC_DES, E.GC_ARCFOUR128, E.GC_ARCFOUR40,
        E.GC_ARCTWO40] →
      gc_cipher_open E alg mode m_cinf m_enc m_dec = (Gc_rc.GC_INVALID_CIPHER, none)) ∧
    (alg ∈ [E.GC_AES256, E.GC_AES128, E.GC_3DES, E.GC_DES, E.GC_ARCFOUR128, E.GC_ARCFOUR40,
        E.GC_ARCTWO40] →
      (m_cinf = none ∨ m_enc = none ∨ m_dec = none) →
      gc_cipher_open E alg mode m_cinf m_enc m_dec = (Gc_rc.GC_MALLOC_ERROR, none)) ∧
    (alg ∈ [E.GC_AES256, E.GC_AES128, E.GC_3DES, E.GC_DES, E.GC_ARCFOUR128, E.GC_ARCFOUR40,
        E.GC_ARCTWO40] →
      m_cinf ≠ none → m_enc ≠ none → m_dec ≠ none →
      (gc_cipher_open E alg mode m_cinf m_enc m_dec).1 = Gc_rc.GC_OK) ∧
    ((gc_cipher_open E alg mode m_cinf m_enc m_dec).1 ≠ Gc_rc.GC_OK →
      (gc_cipher_open E alg mode m_cinf m_enc m_dec).2 = none) ∧
    (∀ h, (gc_cipher_open E alg mode m_cinf m_enc m_dec).2 = some h →
      (gc_cipher_open E alg mode m_cinf m_enc m_dec).1 = Gc_rc.GC_OK ∧
      h.alg = alg ∧ h.mode = mode ∧ cipher_switch E alg = some h.info ∧
      h.encrypt_context = List.replicate h.info.context_size 0 ∧
      h.decrypt_context = List.replicate h.info.context_size 0) := by
  have hsw := cipher_switch_none_iff E alg
  cases m_cinf with
  | none => simp [gc_cipher_open]
  | some junk =>
    cases hc : cipher_switch E alg with
    | none =>
      have hn := hsw.mp hc
      simp [gc_cipher_open, hc, hn]
    | some c =>
      have hn : ¬ alg ∉ [E.GC_AES256, E.GC_AES128, E.GC_3DES, E.GC_DES, E.GC_ARCFOUR128,
          E.GC_ARCFOUR40, E.GC_ARCTWO40] := fun h => by
        rw [hsw.mpr h] at hc; exact Option.noConfusion hc
      cases m_enc with
      | none =>
        simp [gc_cipher_open, hc, malloc]
        simpa using hn
      | some g1 =>
        cases m_dec with
        | none =>
        simp [gc_cipher_open, hc, malloc]
        simpa using hn
        | some g2 =>
          rw [cipher_open_ok E alg mode junk g1 g2 c hc]
          simp
          simpa using hn

/-- C10 (counterexample): 99 is outside the supported identifiers of `toy_env`,
and with the handle allocation failing gc_cipher_open returns GC_MALLOC_ERROR,
not GC_INVALID_CIPHER. -/
theorem cipher_open_counterexample :
    (99 : Int) ∉ [toy_env.GC_AES256, toy_env.GC_AES128, toy_env.GC_3DES, toy_env.GC_DES,
        toy_env.GC_ARCFOUR128, toy_env.GC_ARCFOUR40, toy_env.GC_ARCTWO40] ∧
      (gc_cipher_open toy_env 99 0 none (some fun _ => 0) (some fun _ => 0)).1
        = Gc_rc.GC_MALLOC_ERROR ∧
      (gc_cipher_open toy_env 99 0 none (some fun _ => 0) (some fun _ => 0)).1
        ≠ Gc_rc.GC_INVALID_CIPHER := by
  decide

/-- Witness of C10 (as amended): identifier 4 of `toy_env` with every allocation
succeeding gives GC_OK and a handle with one-byte zero contexts; identifier 99
gives GC_INVALID_CIPHER and stores nothing. -/
theorem cipher_open_spec_witness :
    (gc_cipher_open toy_env 4 1 (some junk_cinfo) (some fun _ => 0xaa) (some fun _ => 0xbb)).1
        = Gc_rc.GC_OK ∧
      gc_cipher_open toy_env 99 1 (some junk_cinfo) (some fun _ => 0xaa) (some fun _ => 0xbb)
        = (Gc_rc.GC_INVALID_CIPHER, none) :=
  ⟨(cipher_open_spec toy_env 4 1 (some junk_cinfo) (some fun _ => 0xaa)
      (some fun _ => 0xbb)).2.2.2.1 (by decide) (by simp) (by simp) (by simp),
   (cipher_open_spec toy_env 99 1 (some junk_cinfo) (some fun _ => 0xaa)
      (some fun _ => 0xbb)).2.1 (by simp) (by decide)⟩

/-- Witness of C5: on a handle of block size 2 a three-byte IV is refused and
leaves the handle as it was, a two-byte IV is taken. -/
theorem cipher_setiv_spec_witness :
    gc_cipher_setiv junk_cinfo [1, 2, 3] = (Gc_rc.GC_INVALID_CIPHER, junk_cinfo) ∧
      (gc_cipher_setiv junk_cinfo [7, 9]).1 = Gc_rc.GC_OK ∧
      (gc_cipher_setiv junk_cinfo [7, 9]).2.encrypt_iv.take 2 = [7, 9] :=
  ⟨(cipher_setiv_spec junk_cinfo [1, 2, 3]).2.1 (by decide),
   ((cipher_setiv_spec junk_cinfo [7, 9]).2.2 rfl).1,
   ((cipher_setiv_spec junk_cinfo [7, 9]).2.2 rfl).2.1⟩

/-! ### Hashes -/

theorem auto_object_length (n : Nat) (g : Nat → Nat) : (auto_object n g).length = n := by
  simp [auto_object]

theorem malloc_some (n : Nat) (g : Nat → Nat) : malloc n (some g) = some (auto_object n g) := rfl

theorem memcpy_all (dst src : List Nat) (n : Nat) (hs : src.length = n) (hd : dst.length = n) :
    memcpy dst src n = src := by
  subst hs
  simp [memcpy, hd]

theorem hash_open_plain (E : Env) (hash mode : Int) (junk : hinfo) (g : Nat → Nat)
    (m_outer m_inner : Option (Nat → Nat)) (info : nettle_hash)
    (hsel : hash_switch E hash = some info) (hmode : mode ≠ E.GC_HMAC) :
    gc_hash_open E hash mode (some junk) (some g) m_outer m_inner
      = (Gc_rc.GC_OK, some {
          alg := hash, mode := mode, info := info,
          context := info.init (auto_object info.context_size g),
          outer := none, inner := none, digest := junk.digest }) := by
  simp [gc_hash_open, hsel, hmode, malloc_some]

theorem hash_open_hmac (E : Env) (hash mode : Int) (junk : hinfo) (g1 g2 g3 : Nat → Nat)
    (info : nettle_hash) (hsel : hash_switch E hash = some info) (hmode : mode = E.GC_HMAC) :
    gc_hash_open E hash mode (some junk) (some g1) (some g2) (some g3)
      = (Gc_rc.GC_OK, some {
          alg := hash, mode := mode, info := info,
          context := info.init (auto_object info.context_size g1),
          outer := some (auto_object info.context_size g2),
          inner := some (auto_object info.context_size g3), digest := junk.digest }) := by
  simp [gc_hash_open, hsel, hmode, malloc_some]

theorem foldl_write (hinf : hinfo) (chunks : List (List Nat)) :
    chunks.foldl gc_hash_write hinf
      = { hinf with context := chunks.foldl hinf.info.update hinf.context } := by
  induction chunks generalizing hinf with
  | nil => rfl
  | cons x xs ih => rw [List.foldl_cons, ih]; rfl

/-- Updating chunk by chunk hashes like one update with the concatenation. -/
theorem foldl_update_join (h : nettle_hash) (R : List Nat → List Nat → Prop)
    (hs : hash_sound h R) (chunks : List (List Nat)) :
    ∀ c, R (chunks.foldl h.update c) (h.update c chunks.flatten) := by
  induction chunks with
  | nil => intro c; exact hs.equiv.symm (hs.update_nil c)
  | cons x xs ih =>
    intro c
    rw [List.foldl_cons, List.flatten_cons]
    exact hs.equiv.trans (ih _) (hs.update_append c x xs.flatten)

theorem foldl_update_length (h : nettle_hash) (R : List Nat → List Nat → Prop)
    (hs : hash_sound h R) (chunks : List (List Nat)) :
    ∀ c, (chunks.foldl h.update c).length = c.length := by
  induction chunks with
  | nil => intro c; rfl
  | cons x xs ih => intro c; rw [List.foldl_cons, ih, hs.update_length]

/-- The key `hmac_set_key` works with: the digest of a key longer than a block,
else the key. It does not depend on what `state` held. -/
theorem hmac_set_key_spec (h : nettle_hash) (R : List Nat → List Nat → Prop)
    (hs : hash_sound h R) (key o i s o' i' s' : List Nat)
    (ho : o.length = h.context_size) (hi : i.length = h.context_size)
    (hst : s.length = h.context_size) (ho' : o'.length = h.context_size)
    (hi' : i'.length = h.context_size) (hst' : s'.length = h.context_size) :
    R (hmac_set_key h o i s key).1 (hmac_set_key h o' i' s' key).1 ∧
    R (hmac_set_key h o i s key).2.1 (hmac_set_key h o' i' s' key).2.1 ∧
    R (hmac_set_key h o i s key).2.2 (hmac_set_key h o' i' s' key).2.2 ∧
    (hmac_set_key h o i s key).1.length = h.context_size ∧
    (hmac_set_key h o i s key).2.1.length = h.context_size ∧
    (hmac_set_key h o i s key).2.2.length = h.context_size := by
  have hkey : (if h.block_size < key.length then
        h.digest (h.update (h.init s) key) h.digest_size else (s, key)).2
      = (if h.block_size < key.length then
        h.digest (h.update (h.init s') key) h.digest_size else (s', key)).2 := by
    by_cases hk : h.block_size < key.length
    · simp only [hk, if_true]
      exact (hs.digest_congr _ _ _ (hs.update_congr _ _ _ (hs.init_any s s' hst hst'))).1
    · simp only [hk, if_false]
  have hsl : ∀ t : List Nat, t.length = h.context_size →
      (if h.block_size < key.length then
        h.digest (h.update (h.init t) key) h.digest_size else (t, key)).1.length
      = h.context_size := by
    intro t ht
    by_cases hk : h.block_size < key.length
    · simp only [hk, if_true]
      rw [(hs.digest_length _ _).1, hs.update_length, hs.init_length, ht]
    · simpa only [hk, if_false] using ht
  have hil : ∀ t pad, t.length = h.context_size →
      (h.update (h.init t) pad).length = h.context_size := fun t pad ht => by
    rw [hs.update_length, hs.init_length, ht]
  simp only [hmac_set_key]
  rw [memcpy_all _ _ _ (hil i _ hi) (hsl s hst), memcpy_all _ _ _ (hil i' _ hi') (hsl s' hst'),
    hkey]
  exact ⟨hs.update_congr _ _ _ (hs.init_any o o' ho ho'),
    hs.update_congr _ _ _ (hs.init_any i i' hi hi'),
    hs.update_congr _ _ _ (hs.init_any i i' hi hi'), hil o _ ho, hil i _ hi, hil i _ hi⟩

/-- `hmac_digest` writes the same `n` bytes for outer states and for running
states that hash alike. -/
theorem hmac_digest_congr (h : nettle_hash) (R : List Nat → List Nat → Prop)
    (hs : hash_sound h R) (n : Nat) (o i s o' i' s' : List Nat)
    (ho : o.length = h.context_size) (hst : s.length = h.context_size)
    (ho' : o'.length = h.context_size) (hst' : s'.length = h.context_size)
    (hRo : R o o') (hRs : R s s') :
    (hmac_digest h o i s n).2 = (hmac_digest h o' i' s' n).2 ∧
    (hmac_digest h o i s n).2.length = n := by
  obtain ⟨hd, -⟩ := hs.digest_congr s s' h.digest_size hRs
  have h1 : (h.digest s h.digest_size).1.length = h.context_size := by
    rw [(hs.digest_length _ _).1, hst]
  have h1' : (h.digest s' h.digest_size).1.length = h.context_size := by
    rw [(hs.digest_length _ _).1, hst']
  simp only [hmac_digest]
  rw [memcpy_all _ _ _ ho h1, memcpy_all _ _ _ ho' h1', hd]
  exact ⟨(hs.digest_congr _ _ n (hs.update_congr _ _ _ hRo)).1, (hs.digest_length _ _).2⟩

theorem hash_alike_symm (E : Env) (R : List Nat → List Nat → Prop) (a b : hinfo)
    (hs : hash_sound a.info R) (h : hash_alike E R a b) : hash_alike E R b a := by
  obtain ⟨h1, h2, h3, h4, h5, h6⟩ := h
  refine ⟨h1.symm, h2.symm, hs.equiv.symm h3, by rw [← h1]; exact h5, by rw [← h1]; exact h4, ?_⟩
  intro hm
  obtain ⟨oa, ob, ia, ib, e1, e2, e3, e4, e5, e6, e7, e8, e9⟩ := h6 (h2.trans hm)
  exact ⟨ob, oa, ib, ia, e2, e1, hs.equiv.symm e3, by rw [← h1]; exact e5,
    by rw [← h1]; exact e4, e7, e6, by rw [← h1]; exact e9, by rw [← h1]; exact e8⟩

theorem hash_alike_trans (E : Env) (R : List Nat → List Nat → Prop) (a b c : hinfo)
    (hs : hash_sound a.info R) (hab : hash_alike E R a b) (hbc : hash_alike E R b c) :
    hash_alike E R a c := by
  obtain ⟨h1, h2, h3, h4, h5, h6⟩ := hab
  obtain ⟨k1, k2, k3, k4, k5, k6⟩ := hbc
  refine ⟨h1.trans k1, h2.trans k2, hs.equiv.trans h3 k3, h4, by rw [h1]; exact k5, ?_⟩
  intro hm
  obtain ⟨oa, ob, ia, ib, e1, e2, e3, e4, e5, e6, e7, e8, e9⟩ := h6 hm
  obtain ⟨ob', oc, ib', ic, f1, f2, f3, f4, f5, f6, f7, f8, f9⟩ := k6 (h2.symm.trans hm)
  have hob : ob = ob' := Option.some.inj (e2.symm.trans f1)
  subst hob
  exact ⟨oa, oc, ia, ic, e1, f2, hs.equiv.trans e3 f3, e4, by rw [h1]; exact f5, e6, f7, e8,
    by rw [h1]; exact f9⟩

theorem hash_alike_write (E : Env) (R : List Nat → List Nat → Prop) (a b : hinfo)
    (hs : hash_sound a.info R) (h : hash_alike E R a b) (x : List Nat) :
    hash_alike E R (gc_hash_write a x) (gc_hash_write b x) := by
  obtain ⟨h1, h2, h3, h4, h5, h6⟩ := h
  refine ⟨h1, h2, ?_, ?_, ?_, h6⟩
  · show R (a.info.update a.context x) (b.info.update b.context x)
    rw [← h1]; exact hs.update_congr _ _ _ h3
  · show (a.info.update a.context x).length = a.info.context_size
    rw [hs.update_length, h4]
  · show (b.info.update b.context x).length = a.info.context_size
    rw [← h1, hs.update_length, h5]

/-- Writing two chunks one after the other, or their concatenation at once,
leaves handles that hash alike. -/
theorem hash_alike_write_append (E : Env) (R : List Nat → List Nat → Prop) (a : hinfo)
    (hs : hash_sound a.info R) (h : hash_alike E R a a) (x y : List Nat) :
    hash_alike E R (gc_hash_write (gc_hash_write a x) y) (gc_hash_write a (x ++ y)) := by
  obtain ⟨h1, h2, h3, h4, h5, h6⟩ := h
  refine ⟨rfl, rfl, ?_, ?_, ?_, h6⟩
  · exact hs.update_append a.context x y
  · show (a.info.update (a.info.update a.context x) y).length = a.info.context_size
    rw [hs.update_length, hs.update_length, h4]
  · show (a.info.update a.context (x ++ y)).length = a.info.context_size
    rw [hs.update_length, h4]

theorem hash_alike_foldl (E : Env) (R : List Nat → List Nat → Prop) (a : hinfo)
    (hs : hash_sound a.info R) (h : hash_alike E R a a) (chunks : List (List Nat)) :
    hash_alike E R (chunks.foldl gc_hash_write a) (gc_hash_write a chunks.flatten) := by
  obtain ⟨h1, h2, h3, h4, h5, h6⟩ := h
  rw [foldl_write]
  refine ⟨rfl, rfl, ?_, ?_, ?_, h6⟩
  · exact foldl_update_join a.info R hs chunks a.context
  · show (chunks.foldl a.info.update a.context).length = a.info.context_size
    rw [foldl_update_length a.info R hs, h4]
  · show (a.info.update a.context chunks.flatten).length = a.info.context_size
    rw [hs.update_length, h4]

/-- Handles that hash alike give the same digest_size bytes on `gc_hash_read`. -/
theorem hash_alike_result (E : Env) (R : List Nat → List Nat → Prop) (a b : hinfo)
    (hs : hash_sound a.info R) (h : hash_alike E R a b) :
    ∃ d, hash_result E a = some d ∧ hash_result E b = some d ∧
      d.length = a.info.digest_size := by
  obtain ⟨h1, h2, h3, h4, h5, h6⟩ := h
  have htake : ∀ (buf bytes : List Nat) (n : Nat), bytes.length = n →
      (memcpy buf bytes n).take n = bytes := fun buf bytes n hn => memcpy_take buf bytes n hn
  by_cases hm : a.mode = E.GC_HMAC
  · obtain ⟨oa, ob, ia, ib, e1, e2, e3, e4, e5, e6, e7, -, -⟩ := h6 hm
    have hmb : b.mode = E.GC_HMAC := h2.symm.trans hm
    obtain ⟨hd, hl⟩ := hmac_digest_congr a.info R hs a.info.digest_size oa ia a.context ob ib
      b.context e4 h4 e5 h5 e3 h3
    refine ⟨(hmac_digest a.info oa ia a.context a.info.digest_size).2, ?_, ?_, hl⟩
    · simp only [hash_result, gc_hash_read, hm, if_true, e1, e6, Option.map_some']
      rw [htake _ _ _ hl]
    · simp only [hash_result, gc_hash_read, hmb, if_true, e2, e7, Option.map_some', ← h1]
      rw [← hd, htake _ _ _ hl]
  · have hmb : ¬ b.mode = E.GC_HMAC := fun hb => hm (h2.trans hb)
    obtain ⟨hd, -⟩ := hs.digest_congr _ _ a.info.digest_size h3
    have hl := (hs.digest_length a.context a.info.digest_size).2
    refine ⟨(a.info.digest a.context a.info.digest_size).2, ?_, ?_, hl⟩
    · simp only [hash_result, gc_hash_read, hm, if_false, Option.map_some']
      rw [htake _ _ _ hl]
    · simp only [hash_result, gc_hash_read, hmb, if_false, Option.map_some', ← h1]
      rw [← hd, htake _ _ _ hl]


theorem hash_begin_hmac (E : Env) (hash mode : Int) (key : List Nat) (info : nettle_hash)
    (hsel : hash_switch E hash = some info) (hm : mode = E.GC_HMAC) (junk : hinfo)
    (g1 g2 g3 : Nat → Nat) :
    hash_begin E hash mode key (some junk) (some g1) (some g2) (some g3)
      = some {
          alg := hash, mode := mode, info := info,
          context := (hmac_set_key info (auto_object info.context_size g2)
            (auto_object info.context_size g3)
            (info.init (auto_object info.context_size g1)) key).2.2,
          outer := some (hmac_set_key info (auto_object info.context_size g2)
            (auto_object info.context_size g3)
            (info.init (auto_object info.context_size g1)) key).1,
          inner := some (hmac_set_key info (auto_object info.context_size g2)
            (auto_object info.context_size g3)
            (info.init (auto_object info.context_size g1)) key).2.1,
          digest := junk.digest } := by
  subst hm
  simp only [hash_begin, hash_open_hmac E hash E.GC_HMAC junk g1 g2 g3 info hsel rfl, if_true,
    gc_hash_hmac_setkey]

theorem hash_begin_plain (E : Env) (hash mode : Int) (key : List Nat) (info : nettle_hash)
    (hsel : hash_switch E hash = some info) (hm : mode ≠ E.GC_HMAC) (junk : hinfo)
    (g1 : Nat → Nat) (m_outer m_inner : Option (Nat → Nat)) :
    hash_begin E hash mode key (some junk) (some g1) m_outer m_inner
      = some {
          alg := hash, mode := mode, info := info,
          context := info.init (auto_object info.context_size g1),
          outer := none, inner := none, digest := junk.digest } := by
  simp only [hash_begin, hash_open_plain E hash mode junk g1 _ _ info hsel hm, hm, if_false]

/-- Two handles begun for the same hash, mode and key hash alike, whatever the
allocator handed out. -/
theorem hash_begin_alike (E : Env) (hash mode : Int) (key : List Nat) (info : nettle_hash)
    (R : List Nat → List Nat → Prop) (hsel : hash_switch E hash = some info)
    (hs : hash_sound info R) (junk junk' : hinfo) (g1 g2 g3 g1' g2' g3' : Nat → Nat) :
    ∃ a b, hash_begin E hash mode key (some junk) (some g1) (some g2) (some g3) = some a ∧
      hash_begin E hash mode key (some junk') (some g1') (some g2') (some g3') = some b ∧
      a.info = info ∧ hash_alike E R a b := by
  have hinit : ∀ g : Nat → Nat, (info.init (auto_object info.context_size g)).length
      = info.context_size := fun g => by rw [hs.init_length, auto_object_length]
  by_cases hm : mode = E.GC_HMAC
  · obtain ⟨k1, k2, k3, k4, k5, k6⟩ := hmac_set_key_spec info R hs key
      (auto_object info.context_size g2) (auto_object info.context_size g3)
      (info.init (auto_object info.context_size g1))
      (auto_object info.context_size g2') (auto_object info.context_size g3')
      (info.init (auto_object info.context_size g1'))
      (auto_object_length _ _) (auto_object_length _ _) (hinit g1)
      (auto_object_length _ _) (auto_object_length _ _) (hinit g1')
    obtain ⟨-, -, -, k4', k5', k6'⟩ := hmac_set_key_spec info R hs key
      (auto_object info.context_size g2') (auto_object info.context_size g3')
      (info.init (auto_object info.context_size g1'))
      (auto_object info.context_size g2) (auto_object info.context_size g3)
      (info.init (auto_object info.context_size g1))
      (auto_object_length _ _) (auto_object_length _ _) (hinit g1')
      (auto_object_length _ _) (auto_object_length _ _) (hinit g1)
    exact ⟨_, _, hash_begin_hmac E hash mode key info hsel hm junk g1 g2 g3,
      hash_begin_hmac E hash mode key info hsel hm junk' g1' g2' g3', rfl,
      rfl, rfl, k3, k6, k6', fun _ => ⟨_, _, _, _, rfl, rfl, k1, k4, k4', rfl, rfl, k5, k5'⟩⟩
  · exact ⟨_, _, hash_begin_plain E hash mode key info hsel hm junk g1 _ _,
      hash_begin_plain E hash mode key info hsel hm junk' g1' _ _, rfl,
      rfl, rfl, hs.init_any _ _ (auto_object_length _ _) (auto_object_length _ _),
      hinit g1, hinit g1', fun h => absurd h hm⟩

/-- With its allocations succeeding, `gc_hash_clone` returns GC_OK and a handle
that hashes like the old one. -/
theorem hash_clone_alike (E : Env) (R : List Nat → List Nat → Prop) (a : hinfo)
    (h : hash_alike E R a a) (junk : hinfo)
    (g1 g2 g3 : Nat → Nat) :
    ∃ c, gc_hash_clone E a (some junk) (some g1) (some g2) (some g3)
        = some (Gc_rc.GC_OK, some c) ∧ hash_alike E R c a := by
  obtain ⟨h1, h2, h3, h4, h5, h6⟩ := h
  have hctx : memcpy (auto_object a.info.context_size g1) a.context a.info.context_size
      = a.context := memcpy_all _ _ _ h4 (auto_object_length _ _)
  by_cases hm : a.mode = E.GC_HMAC
  · obtain ⟨oa, ob, ia, ib, e1, e2, e3, e4, -, e6, -, e8, -⟩ := h6 hm
    have hob : oa = ob := Option.some.inj (e1.symm.trans e2)
    subst hob
    have hi : memcpy (auto_object a.info.context_size g2) ia a.info.context_size = ia :=
      memcpy_all _ _ _ e8 (auto_object_length _ _)
    have ho : memcpy (auto_object a.info.context_size g3) oa a.info.context_size = oa :=
      memcpy_all _ _ _ e4 (auto_object_length _ _)
    have hc : gc_hash_clone E a (some junk) (some g1) (some g2) (some g3)
        = some (Gc_rc.GC_OK, some {
            alg := a.alg, mode := a.mode, info := a.info, context := a.context,
            outer := some oa, inner := some ia,
            digest := memcpy junk.digest a.digest MAX_DIGEST_SIZE }) := by
      simp only [gc_hash_clone, malloc_some, hm, if_true, e1, e6, hctx, hi, ho]
    refine ⟨_, hc, ?_⟩
    exact ⟨rfl, rfl, h3, h4, h4, fun _ => ⟨oa, oa, ia, ia, rfl, e1, e3, e4, e4, rfl, e6, e8, e8⟩⟩
  · have hc : gc_hash_clone E a (some junk) (some g1) (some g2) (some g3)
        = some (Gc_rc.GC_OK, some {
            alg := a.alg, mode := a.mode, info := a.info, context := a.context,
            outer := junk.outer, inner := junk.inner,
            digest := memcpy junk.digest a.digest MAX_DIGEST_SIZE }) := by
      simp only [gc_hash_clone, malloc_some, hm, if_false, hctx]
    refine ⟨_, hc, ?_⟩
    exact ⟨rfl, rfl, h3, h4, h4, fun hx => absurd hx hm⟩

/-- On handles held by value: for every hash the `switch` of gc_hash_open
accepts and every mode, the handle after the prefix writes and suffixA, and its
gc_hash_clone after suffixB, give on gc_hash_read what an independently opened
handle gives for prefix ++ suffixA and for prefix ++ suffixB in one write.
Here no two handles share storage by construction; the statement on the heap
follows below. -/
theorem hash_clone_by_value (E : Env) (hash mode : Int) (key : List Nat)
    (info : nettle_hash) (R : List Nat → List Nat → Prop)
    (hsel : hash_switch E hash = some info) (hs : hash_sound info R)
    (junk junk' junk_c : hinfo) (g1 g2 g3 g1' g2' g3' c1 c2 c3 : Nat → Nat)
    (chunks : List (List Nat)) (suffixA suffixB : List Nat) :
    ∃ h0 fresh clone dA dB,
      hash_begin E hash mode key (some junk) (some g1) (some g2) (some g3) = some h0 ∧
      hash_begin E hash mode key (some junk') (some g1') (some g2') (some g3') = some fresh ∧
      gc_hash_clone E (chunks.foldl gc_hash_write h0) (some junk_c) (some c1) (some c2) (some c3)
        = some (Gc_rc.GC_OK, some clone) ∧
      hash_result E (gc_hash_write (chunks.foldl gc_hash_write h0) suffixA) = some dA ∧
      hash_result E (gc_hash_write fresh (chunks.flatten ++ suffixA)) = some dA ∧
      hash_result E (gc_hash_write clone suffixB) = some dB ∧
      hash_result E (gc_hash_write fresh (chunks.flatten ++ suffixB)) = some dB := by
  obtain ⟨h0, fresh, hb0, hbf, hinfo0, hal⟩ :=
    hash_begin_alike E hash mode key info R hsel hs junk junk' g1 g2 g3 g1' g2' g3'
  subst hinfo0
  have hff : hash_alike E R fresh fresh :=
    hash_alike_trans E R _ _ _ (by rw [← hal.1]; exact hs) (hash_alike_symm E R _ _ hs hal) hal
  have h00 : hash_alike E R h0 h0 :=
    hash_alike_trans E R _ _ _ hs hal (hash_alike_symm E R _ _ hs hal)
  have hsf : hash_sound fresh.info R := by rw [← hal.1]; exact hs
  -- the original after the prefix writes hashes like `fresh` after one write of the prefix
  have hpre : hash_alike E R (chunks.foldl gc_hash_write h0) (gc_hash_write fresh chunks.flatten) :=
    hash_alike_trans E R _ _ _ (by rw [foldl_write]; exact hs)
      (hash_alike_foldl E R h0 hs h00 chunks) (hash_alike_write E R _ _ hs hal _)
  have hsp : hash_sound (chunks.foldl gc_hash_write h0).info R := by rw [foldl_write]; exact hs
  have hpp : hash_alike E R (chunks.foldl gc_hash_write h0) (chunks.foldl gc_hash_write h0) :=
    hash_alike_trans E R _ _ _ hsp hpre (hash_alike_symm E R _ _ hsp hpre)
  obtain ⟨clone, hcl, hca⟩ := hash_clone_alike E R _ hpp junk_c c1 c2 c3
  have hsc : hash_sound clone.info R := by rw [hca.1]; exact hsp
  have hA : hash_alike E R (gc_hash_write (chunks.foldl gc_hash_write h0) suffixA)
      (gc_hash_write fresh (chunks.flatten ++ suffixA)) :=
    hash_alike_trans E R _ _ _ hsp (hash_alike_write E R _ _ hsp hpre suffixA)
      (hash_alike_write_append E R fresh hsf hff _ _)
  have hB : hash_alike E R (gc_hash_write clone suffixB)
      (gc_hash_write fresh (chunks.flatten ++ suffixB)) :=
    hash_alike_trans E R _ _ _ hsc
      (hash_alike_write E R _ _ hsc (hash_alike_trans E R _ _ _ hsc hca hpre) suffixB)
      (hash_alike_write_append E R fresh hsf hff _ _)
  obtain ⟨dA, hA1, hA2, -⟩ := hash_alike_result E R
    (gc_hash_write (chunks.foldl gc_hash_write h0) suffixA) _ hsp hA
  obtain ⟨dB, hB1, hB2, -⟩ := hash_alike_result E R (gc_hash_write clone suffixB) _ hsc hB
  exact ⟨h0, fresh, clone, dA, dB, hb0, hbf, hcl, hA1, hA2, hB1, hB2⟩

/-! ### Hash handles in memory -/

theorem get_tail {α : Type} (B T : List α) (k : Nat) :
    (B ++ T)[B.length + k]? = T[k]? := by
  rw [List.getElem?_append_right (by omega)]
  congr 1
  omega

theorem set_tail {α : Type} (B T : List α) (k : Nat) (v : α) :
    (B ++ T).set (B.length + k) v = B ++ T.set k v := by
  rw [List.set_append_right _ _ (by omega)]
  congr 2
  omega

theorem get_set_self {α : Type} (T : List α) (k : Nat) (x v : α) (h : T[k]? = some x) :
    (T.set k v)[k]? = some v := by
  have hk : k < T.length := by
    by_contra hn
    rw [List.getElem?_eq_none (by omega)] at h
    exact Option.noConfusion h
  simp [hk]

theorem set_self {α : Type} (T : List α) (k : Nat) (x : α) (h : T[k]? = some x) :
    T.set k x = T := by
  apply List.ext_getElem?
  intro i
  by_cases hi : k = i
  · subst hi
    rw [get_set_self T k x x h, h]
  · rw [List.getElem?_set_ne hi]

theorem get_head {α : Type} (P X : List α) (i : Nat) (x : α) (h : P[i]? = some x) :
    (P ++ X)[i]? = some x := by
  have hi : i < P.length := by
    by_contra hn
    rw [List.getElem?_eq_none (by omega)] at h
    exact Option.noConfusion h
  rw [List.getElem?_append_left hi, h]

theorem Mem.memcpy_blocks_spec (P X : List (List Nat)) (Hs : List Mem.hash_info)
    (kd src n : Nat) (d s : List Nat) (hd : X[kd]? = some d) (hs : (P ++ X)[src]? = some s) :
    Mem.memcpy_blocks { blocks := P ++ X, handles := Hs } (some (P.length + kd)) (some src) n
      = some { blocks := P ++ X.set kd (memcpy d s n), handles := Hs } := by
  simp only [Mem.memcpy_blocks, Mem.load, Option.bind, get_tail, hd, hs, Mem.store, set_tail]

/-- `gc_hash_write` on the heap, on the handle `j` and the block `k` counted from
the objects `S` and blocks `B` that were there before. -/
theorem Mem.write_spec (B T : List (List Nat)) (S U : List Mem.hash_info) (j k : Nat)
    (H : Mem.hash_info) (ctx x : List Nat) (hU : U[j]? = some H)
    (hc : H.context = some (B.length + k)) (hT : T[k]? = some ctx) :
    Mem.gc_hash_write { blocks := B ++ T, handles := S ++ U } (S.length + j) x
      = some { blocks := B ++ T.set k (H.info.update ctx x), handles := S ++ U } := by
  simp only [Mem.gc_hash_write, get_tail, hU, hc, Mem.load, Option.bind, hT, Mem.store,
    set_tail]

theorem Mem.writes_spec (B : List (List Nat)) (S U : List Mem.hash_info) (j k : Nat)
    (H : Mem.hash_info) (hU : U[j]? = some H) (hc : H.context = some (B.length + k))
    (chunks : List (List Nat)) :
    ∀ (T : List (List Nat)) (ctx : List Nat), T[k]? = some ctx →
      Mem.hash_writes { blocks := B ++ T, handles := S ++ U } (S.length + j) chunks
        = some { blocks := B ++ T.set k (chunks.foldl H.info.update ctx), handles := S ++ U } := by
  induction chunks with
  | nil =>
    intro T ctx hT
    simp only [Mem.hash_writes, List.foldl_nil]
    rw [set_self T k ctx hT]
  | cons x xs ih =>
    intro T ctx hT
    simp only [Mem.hash_writes, Mem.write_spec B T S U j k H ctx x hU hc hT, List.foldl_cons]
    rw [ih _ _ (get_set_self T k ctx _ hT), List.set_set]

/-- `gc_hash_read` on the heap in a mode other than GC_HMAC. -/
theorem Mem.result_plain_spec (E : Env) (B T : List (List Nat)) (S U : List Mem.hash_info)
    (j k : Nat) (H : Mem.hash_info) (ctx : List Nat) (hU : U[j]? = some H)
    (hm : H.mode ≠ E.GC_HMAC) (hc : H.context = some (B.length + k)) (hT : T[k]? = some ctx) :
    Mem.hash_result E { blocks := B ++ T, handles := S ++ U } (S.length + j)
      = some ((memcpy H.digest (H.info.digest ctx H.info.digest_size).2
            H.info.digest_size).take H.info.digest_size,
          { blocks := B ++ T.set k (H.info.digest ctx H.info.digest_size).1,
            handles := S ++ U.set j { H with
              digest := memcpy H.digest (H.info.digest ctx H.info.digest_size).2
                H.info.digest_size } }) := by
  simp only [Mem.hash_result, Mem.gc_hash_read, get_tail, hU, hm, if_false, hc, Mem.load,
    Option.bind, hT, set_tail]

/-- `gc_hash_read` on the heap in mode GC_HMAC. -/
theorem Mem.result_hmac_spec (E : Env) (B T : List (List Nat)) (S U : List Mem.hash_info)
    (j k ko ki : Nat) (H : Mem.hash_info) (ctx o i : List Nat) (hU : U[j]? = some H)
    (hm : H.mode = E.GC_HMAC) (hc : H.context = some (B.length + k))
    (hpo : H.outer = some (B.length + ko)) (hpi : H.inner = some (B.length + ki))
    (hT : T[k]? = some ctx) (hTo : T[ko]? = some o) (hTi : T[ki]? = some i) :
    Mem.hash_result E { blocks := B ++ T, handles := S ++ U } (S.length + j)
      = some ((memcpy H.digest (hmac_digest H.info o i ctx H.info.digest_size).2
            H.info.digest_size).take H.info.digest_size,
          { blocks := B ++ T.set k (hmac_digest H.info o i ctx H.info.digest_size).1,
            handles := S ++ U.set j { H with
              digest := memcpy H.digest (hmac_digest H.info o i ctx H.info.digest_size).2
                H.info.digest_size } }) := by
  simp only [Mem.hash_result, Mem.gc_hash_read, get_tail, hU, hm, if_true, hc, hpo, hpi,
    Mem.load, Option.bind, hT, hTo, hTi, set_tail]

/-- `gc_hash_clone` on the heap in a mode other than GC_HMAC: one new block, a
copy of the context, and one new object. -/
theorem Mem.clone_plain_spec (E : Env) (B T : List (List Nat)) (S U : List Mem.hash_info)
    (j k : Nat) (H junk : Mem.hash_info) (ctx : List Nat) (c1 : Nat → Nat)
    (m_inner m_outer : Option (Nat → Nat)) (hU : U[j]? = some H)
    (hm : H.mode ≠ E.GC_HMAC) (hc : H.context = some (B.length + k)) (hT : T[k]? = some ctx) :
    Mem.gc_hash_clone E { blocks := B ++ T, handles := S ++ U } (S.length + j) (some junk)
        (some c1) m_inner m_outer
      = some (Gc_rc.GC_OK, some (S.length + U.length),
          { blocks := B ++ (T ++ [memcpy (auto_object H.info.context_size c1) ctx
              H.info.context_size]),
            handles := S ++ (U ++ [{
              alg := H.alg, mode := H.mode, info := H.info,
              context := some (B.length + T.length), outer := junk.outer, inner := junk.inner,
              digest := memcpy junk.digest H.digest MAX_DIGEST_SIZE }]) }) := by
  have hsrc : ((B ++ T) ++ [auto_object H.info.context_size c1])[B.length + k]? = some ctx :=
    get_head _ _ _ _ (by rw [get_tail]; exact hT)
  have hcp := Mem.memcpy_blocks_spec (B ++ T) [auto_object H.info.context_size c1] (S ++ U) 0
    (B.length + k) H.info.context_size (auto_object H.info.context_size c1) ctx rfl hsrc
  simp only [Mem.gc_hash_clone, get_tail, hU, hm, if_false, Mem.malloc_block, malloc_some,
    Option.map_some']
  rw [show (B ++ T).length = (B ++ T).length + 0 from rfl, hc, hcp]
  simp only [List.append_assoc, List.length_append, List.set_cons_zero, Nat.add_zero]

/-- `gc_hash_clone` on the heap in mode GC_HMAC: three new blocks, copies of the
context and of the inner and outer states, and one new object. -/
theorem Mem.clone_hmac_spec (E : Env) (B T : List (List Nat)) (S U : List Mem.hash_info)
    (j k ko ki : Nat) (H junk : Mem.hash_info) (ctx o i : List Nat) (c1 c2 c3 : Nat → Nat)
    (hU : U[j]? = some H) (hm : H.mode = E.GC_HMAC) (hc : H.context = some (B.length + k))
    (hpo : H.outer = some (B.length + ko)) (hpi : H.inner = some (B.length + ki))
    (hT : T[k]? = some ctx) (hTo : T[ko]? = some o) (hTi : T[ki]? = some i) :
    Mem.gc_hash_clone E { blocks := B ++ T, handles := S ++ U } (S.length + j) (some junk)
        (some c1) (some c2) (some c3)
      = some (Gc_rc.GC_OK, some (S.length + U.length),
          { blocks := B ++ (T ++ [
              memcpy (auto_object H.info.context_size c1) ctx H.info.context_size,
              memcpy (auto_object H.info.context_size c2) i H.info.context_size,
              memcpy (auto_object H.info.context_size c3) o H.info.context_size]),
            handles := S ++ (U ++ [{
              alg := H.alg, mode := H.mode, info := H.info,
              context := some (B.length + T.length),
              outer := some (B.length + T.length + 2),
              inner := some (B.length + T.length + 1),
              digest := memcpy junk.digest H.digest MAX_DIGEST_SIZE }]) }) := by
  have hsrc : ∀ (X : List (List Nat)) (n : Nat) (x : List Nat), T[n]? = some x →
      ((B ++ T) ++ X)[B.length + n]? = some x := fun X n x hx =>
    get_head _ _ _ _ (by rw [get_tail]; exact hx)
  have h1 := Mem.memcpy_blocks_spec (B ++ T) [auto_object H.info.context_size c1,
      auto_object H.info.context_size c2, auto_object H.info.context_size c3] (S ++ U) 1
    (B.length + ki) H.info.context_size (auto_object H.info.context_size c2) i rfl
    (hsrc _ _ _ hTi)
  have h2 := Mem.memcpy_blocks_spec (B ++ T) [auto_object H.info.context_size c1,
      memcpy (auto_object H.info.context_size c2) i H.info.context_size,
      auto_object H.info.context_size c3] (S ++ U) 2
    (B.length + ko) H.info.context_size (auto_object H.info.context_size c3) o rfl
    (hsrc _ _ _ hTo)
  have h3 := Mem.memcpy_blocks_spec (B ++ T) [auto_object H.info.context_size c1,
      memcpy (auto_object H.info.context_size c2) i H.info.context_size,
      memcpy (auto_object H.info.context_size c3) o H.info.context_size] (S ++ U) 0
    (B.length + k) H.info.context_size (auto_object H.info.context_size c1) ctx rfl
    (hsrc _ _ _ hT)
  have e1 : ∀ a1 : List Nat, (B ++ T ++ [a1]).length = (B ++ T).length + 1 := fun a1 => by
    simp only [List.length_append, List.length_singleton]
  have e2 : ∀ a1 a2 : List Nat, (B ++ T ++ [a1] ++ [a2]).length = (B ++ T).length + 2 :=
    fun a1 a2 => by simp only [List.length_append, List.length_singleton]
  have e3 : ∀ a1 a2 a3 : List Nat, B ++ T ++ [a1] ++ [a2] ++ [a3] = (B ++ T) ++ [a1, a2, a3] :=
    fun a1 a2 a3 => by simp
  have e4 : (B ++ T).length = (B ++ T).length + 0 := rfl
  simp only [Mem.gc_hash_clone, get_tail, hU, hm, if_true, Mem.malloc_block, malloc_some,
    Option.map_some', e1, e2, e3]
  rw [hpi, h1]
  simp only [List.set_cons_succ, List.set_cons_zero]
  rw [hpo, h2]
  simp only [List.set_cons_succ, List.set_cons_zero]
  nth_rewrite 1 [e4]
  rw [hc, h3]
  simp only [List.set_cons_zero, List.append_assoc, List.length_append]

/-- `gc_hash_hmac_setkey` on the heap: the three blocks of the handle are
written, first `outer`, then `inner`, then `context`. -/
theorem Mem.setkey_spec (B T : List (List Nat)) (S U : List Mem.hash_info)
    (j k ko ki : Nat) (H : Mem.hash_info) (ctx o i key : List Nat)
    (hU : U[j]? = some H) (hc : H.context = some (B.length + k))
    (hpo : H.outer = some (B.length + ko)) (hpi : H.inner = some (B.length + ki))
    (hT : T[k]? = some ctx) (hTo : T[ko]? = some o) (hTi : T[ki]? = some i) :
    Mem.gc_hash_hmac_setkey { blocks := B ++ T, handles := S ++ U } (S.length + j) key
      = some {
          blocks := B ++ ((T.set ko (hmac_set_key H.info o i ctx key).1).set ki
            (hmac_set_key H.info o i ctx key).2.1).set k (hmac_set_key H.info o i ctx key).2.2,
          handles := S ++ U } := by
  simp only [Mem.gc_hash_hmac_setkey, get_tail, hU, hc, hpo, hpi, Mem.load, Option.bind,
    hT, hTo, hTi, Mem.store, set_tail]

theorem Mem.begin_plain_spec (E : Env) (hash mode : Int) (key : List Nat) (info : nettle_hash)
    (hsel : hash_switch E hash = some info) (hm : mode ≠ E.GC_HMAC) (m : Mem.memory)
    (junk : Mem.hash_info) (g1 : Nat → Nat) (m_outer m_inner : Option (Nat → Nat)) :
    Mem.hash_begin E m hash mode key (some junk) (some g1) m_outer m_inner
      = some (m.handles.length, {
          blocks := m.blocks ++ [info.init (auto_object info.context_size g1)],
          handles := m.handles ++ [{
            alg := hash, mode := mode, info := info, context := some m.blocks.length,
            outer := none, inner := none, digest := junk.digest }] }) := by
  have e0 : ∀ a1 : List Nat, (m.blocks ++ [a1])[m.blocks.length]? = some a1 := fun a1 =>
    get_tail m.blocks [a1] 0
  have e1 : ∀ a1 v : List Nat, (m.blocks ++ [a1]).set m.blocks.length v = m.blocks ++ [v] :=
    fun a1 v => set_tail m.blocks [a1] 0 v
  simp only [Mem.hash_begin, Mem.gc_hash_open, hsel, hm, if_false, Mem.malloc_block, malloc_some,
    Option.map_some', Mem.load, Option.bind, e0, Mem.store, e1]

theorem Mem.begin_hmac_spec (E : Env) (hash mode : Int) (key : List Nat) (info : nettle_hash)
    (hsel : hash_switch E hash = some info) (hm : mode = E.GC_HMAC) (m : Mem.memory)
    (junk : Mem.hash_info) (g1 g2 g3 : Nat → Nat) :
    Mem.hash_begin E m hash mode key (some junk) (some g1) (some g2) (some g3)
      = some (m.handles.length, {
          blocks := m.blocks ++ [
            (hmac_set_key info (auto_object info.context_size g2)
              (auto_object info.context_size g3)
              (info.init (auto_object info.context_size g1)) key).2.2,
            (hmac_set_key info (auto_object info.context_size g2)
              (auto_object info.context_size g3)
              (info.init (auto_object info.context_size g1)) key).1,
            (hmac_set_key info (auto_object info.context_size g2)
              (auto_object info.context_size g3)
              (info.init (auto_object info.context_size g1)) key).2.1],
          handles := m.handles ++ [{
            alg := hash, mode := mode, info := info, context := some m.blocks.length,
            outer := some (m.blocks.length + 1), inner := some (m.blocks.length + 2),
            digest := junk.digest }] }) := by
  have e1 : ∀ a1 : List Nat, (m.blocks ++ [a1]).length = m.blocks.length + 1 := fun a1 => by
    simp only [List.length_append, List.length_singleton]
  have e2 : ∀ a1 a2 : List Nat, (m.blocks ++ [a1] ++ [a2]).length = m.blocks.length + 2 :=
    fun a1 a2 => by simp only [List.length_append, List.length_singleton]
  have e3 : ∀ a1 a2 a3 : List Nat, m.blocks ++ [a1] ++ [a2] ++ [a3] = m.blocks ++ [a1, a2, a3] :=
    fun a1 a2 a3 => by simp
  have e4 : ∀ T : List (List Nat), (m.blocks ++ T)[m.blocks.length]? = T[0]? := fun T =>
    get_tail m.blocks T 0
  have e5 : ∀ (T : List (List Nat)) (v : List Nat),
      (m.blocks ++ T).set m.blocks.length v = m.blocks ++ T.set 0 v := fun T v =>
    set_tail m.blocks T 0 v
  have e6 : ∀ U : List Mem.hash_info, (m.handles ++ U)[m.handles.length]? = U[0]? := fun U =>
    get_tail m.handles U 0
  subst hm
  have hk := Mem.setkey_spec m.blocks [info.init (auto_object info.context_size g1),
      auto_object info.context_size g2, auto_object info.context_size g3] m.handles
    [{ alg := hash, mode := E.GC_HMAC, info := info, context := some m.blocks.length,
       outer := some (m.blocks.length + 1), inner := some (m.blocks.length + 2),
       digest := junk.digest }] 0 0 1 2 _ _ _ _ key rfl rfl rfl rfl rfl rfl rfl
  simp only [Mem.hash_begin, Mem.gc_hash_open, hsel, if_true, Mem.malloc_block, malloc_some,
    Option.map_some', Mem.load, Option.bind, e1, e2, e3, e4, Mem.store, e5,
    List.getElem?_cons_zero, List.set_cons_zero]
  exact congrArg (Option.map _) hk

/-- Chunk by chunk and then a suffix, or all of it in one update on a context
that hashes alike. -/
theorem update_then_suffix (h : nettle_hash) (R : List Nat → List Nat → Prop) (hs : hash_sound h R)
    (x0 y0 : List Nat) (hR : R x0 y0) (chunks : List (List Nat)) (suffix : List Nat) :
    R (h.update (chunks.foldl h.update x0) suffix) (h.update y0 (chunks.flatten ++ suffix)) :=
  hs.equiv.trans (hs.update_congr _ _ suffix (foldl_update_join h R hs chunks x0))
    (hs.equiv.trans (hs.update_append x0 chunks.flatten suffix) (hs.update_congr _ _ _ hR))

/-- What `gc_hash_buffer` writes is `hash_oneshot` in a mode other than
GC_HMAC, on the same local context. -/
theorem hash_oneshot_buffer (E : Env) (hash mode : Int) (info : nettle_hash)
    (R : List Nat → List Nat → Prop) (hsel : hash_switch E hash = some info)
    (hs : hash_sound info R) (hmd5 : E.GC_MD5_LEN = E.nettle_md5.digest_size)
    (hsha1 : E.GC_SHA1_LEN = E.nettle_sha1.digest_size) (hmode : mode ≠ E.GC_HMAC)
    (key data out : List Nat) (s_outer s_inner stack : Nat → Nat) :
    (gc_hash_buffer E hash data stack out).1 = Gc_rc.GC_OK ∧
    (gc_hash_buffer E hash data stack out).2.take info.digest_size
      = hash_oneshot E info mode key data s_outer s_inner stack := by
  have hl := (hs.digest_length
    (info.update (info.init (auto_object info.context_size stack)) data) info.digest_size).2
  have hbuf : gc_hash_buffer E hash data stack out
      = (Gc_rc.GC_OK, memcpy out (info.digest
          (info.update (info.init (auto_object info.context_size stack)) data)
          info.digest_size).2 info.digest_size) := by
    unfold hash_switch at hsel
    by_cases h1 : hash = E.GC_MD5
    · rw [if_pos h1] at hsel
      have hi := Option.some.inj hsel
      subst hi
      simp only [gc_hash_buffer, if_pos h1, hmd5]
    · by_cases h2 : hash = E.GC_SHA1
      · rw [if_neg h1, if_pos h2] at hsel
        have hi := Option.some.inj hsel
        subst hi
        simp only [gc_hash_buffer, if_neg h1, if_pos h2, hsha1]
      · rw [if_neg h1, if_neg h2] at hsel
        exact Option.noConfusion hsel
  rw [hbuf]
  refine ⟨rfl, ?_⟩
  simp only [hash_oneshot, hmode, if_false]
  exact memcpy_take _ _ _ hl

/-- What `gc_hmac_md5` writes is `hash_oneshot` for the table `nettle_md5` in
mode GC_HMAC, on the same local contexts. -/
theorem hash_oneshot_hmac_md5 (E : Env) (R : List Nat → List Nat → Prop)
    (hs : hash_sound E.nettle_md5 R) (hlen : E.GC_MD5_LEN = E.nettle_md5.digest_size)
    (key data outhash : List Nat) (s_outer s_inner s_state : Nat → Nat) :
    (gc_hmac_md5 E key data s_outer s_inner s_state outhash).1 = Gc_rc.GC_OK ∧
    (gc_hmac_md5 E key data s_outer s_inner s_state outhash).2.take E.nettle_md5.digest_size
      = hash_oneshot E E.nettle_md5 E.GC_HMAC key data s_outer s_inner s_state := by
  refine ⟨rfl, ?_⟩
  simp only [gc_hmac_md5, hash_oneshot, if_true, hlen]
  apply memcpy_take
  simp only [hmac_digest]
  exact (hs.digest_length _ _).2

/-- C6: for every hash the `switch` of gc_hash_open accepts and every mode (in
mode GC_HMAC the handle is keyed with gc_hash_hmac_setkey first), in every
memory: after the prefix is written chunk by chunk with gc_hash_write,
gc_hash_clone returns GC_OK and a handle other than the original; then suffixA
is written to the original and suffixB to the clone, in the one memory both
live in; gc_hash_read on the original gives the digest of prefix ++ suffixA
and, after that, gc_hash_read on the clone gives the digest of
prefix ++ suffixB.  The digest of `data` is `hash_oneshot`: the backend run
once over all of `data` on a context of its own; in a mode other than GC_HMAC
that is what gc_hash_buffer writes for `data`.  The backend is assumed sound
(`hash_sound`). -/
theorem hash_clone_independent (E : Env) (hash mode : Int) (key : List Nat)
    (info : nettle_hash) (R : List Nat → List Nat → Prop)
    (hsel : hash_switch E hash = some info) (hs : hash_sound info R)
    (m : Mem.memory) (junk junk_c : Mem.hash_info)
    (g1 g2 g3 c1 c2 c3 s_outer s_inner s_state : Nat → Nat)
    (chunks : List (List Nat)) (suffixA suffixB : List Nat) :
    ∃ h m1 m2 c m3 m4 m5 dA m6 dB m7,
      Mem.hash_begin E m hash mode key (some junk) (some g1) (some g2) (some g3)
        = some (h, m1) ∧
      Mem.hash_writes m1 h chunks = some m2 ∧
      Mem.gc_hash_clone E m2 h (some junk_c) (some c1) (some c2) (some c3)
        = some (Gc_rc.GC_OK, some c, m3) ∧
      c ≠ h ∧
      Mem.gc_hash_write m3 h suffixA = some m4 ∧
      Mem.gc_hash_write m4 c suffixB = some m5 ∧
      Mem.hash_result E m5 h = some (dA, m6) ∧
      Mem.hash_result E m6 c = some (dB, m7) ∧
      dA = hash_oneshot E info mode key (chunks.flatten ++ suffixA) s_outer s_inner s_state ∧
      dB = hash_oneshot E info mode key (chunks.flatten ++ suffixB) s_outer s_inner s_state ∧
      (mode ≠ E.GC_HMAC → E.GC_MD5_LEN = E.nettle_md5.digest_size →
        E.GC_SHA1_LEN = E.nettle_sha1.digest_size → ∀ out : List Nat,
        (gc_hash_buffer E hash (chunks.flatten ++ suffixA) s_state out).2.take info.digest_size
          = dA ∧
        (gc_hash_buffer E hash (chunks.flatten ++ suffixB) s_state out).2.take info.digest_size
          = dB) := by
  have hn : ∀ g : Nat → Nat, (auto_object info.context_size g).length = info.context_size :=
    fun g => auto_object_length _ g
  have hinit : ∀ g : Nat → Nat, (info.init (auto_object info.context_size g)).length
      = info.context_size := fun g => by rw [hs.init_length, hn]
  by_cases hm : mode = E.GC_HMAC
  · -- the blocks: context, outer and inner of the original and, after the clone, their copies
    let k := hmac_set_key info (auto_object info.context_size g2)
      (auto_object info.context_size g3) (info.init (auto_object info.context_size g1)) key
    let k' := hmac_set_key info (auto_object info.context_size s_outer)
      (auto_object info.context_size s_inner) (auto_object info.context_size s_state) key
    let x2 := chunks.foldl info.update k.2.2
    let H : Mem.hash_info := {
      alg := hash, mode := mode, info := info, context := some m.blocks.length,
      outer := some (m.blocks.length + 1), inner := some (m.blocks.length + 2),
      digest := junk.digest }
    let C : Mem.hash_info := {
      alg := hash, mode := mode, info := info, context := some (m.blocks.length + 3),
      outer := some (m.blocks.length + 3 + 2), inner := some (m.blocks.length + 3 + 1),
      digest := memcpy junk_c.digest junk.digest MAX_DIGEST_SIZE }
    let H1 : Mem.hash_info := {
      alg := hash, mode := mode, info := info, context := some m.blocks.length,
      outer := some (m.blocks.length + 1), inner := some (m.blocks.length + 2),
      digest := memcpy junk.digest
        (hmac_digest info k.1 k.2.1 (info.update x2 suffixA) info.digest_size).2
        info.digest_size }
    obtain ⟨k1, -, k3, k4, k5, k6⟩ := hmac_set_key_spec info R hs key
      (auto_object info.context_size g2) (auto_object info.context_size g3)
      (info.init (auto_object info.context_size g1))
      (auto_object info.context_size s_outer) (auto_object info.context_size s_inner)
      (auto_object info.context_size s_state)
      (hn g2) (hn g3) (hinit g1) (hn s_outer) (hn s_inner) (hn s_state)
    obtain ⟨-, -, -, k4', -, k6'⟩ := hmac_set_key_spec info R hs key
      (auto_object info.context_size s_outer) (auto_object info.context_size s_inner)
      (auto_object info.context_size s_state)
      (auto_object info.context_size g2) (auto_object info.context_size g3)
      (info.init (auto_object info.context_size g1))
      (hn s_outer) (hn s_inner) (hn s_state) (hn g2) (hn g3) (hinit g1)
    have hx2 : x2.length = info.context_size := by
      show (chunks.foldl info.update k.2.2).length = _
      rw [foldl_update_length info R hs]
      exact k6
    have hcopy1 : memcpy (auto_object info.context_size c1) x2 info.context_size = x2 :=
      memcpy_all _ _ _ hx2 (hn c1)
    have hcopy2 : memcpy (auto_object info.context_size c2) k.2.1 info.context_size = k.2.1 :=
      memcpy_all _ _ _ k5 (hn c2)
    have hcopy3 : memcpy (auto_object info.context_size c3) k.1 info.context_size = k.1 :=
      memcpy_all _ _ _ k4 (hn c3)
    have hb := Mem.begin_hmac_spec E hash mode key info hsel hm m junk g1 g2 g3
    have hw := Mem.writes_spec m.blocks m.handles [H] 0 0 H rfl rfl chunks [k.2.2, k.1, k.2.1]
      k.2.2 rfl
    have hcl := Mem.clone_hmac_spec E m.blocks [x2, k.1, k.2.1] m.handles [H] 0 0 1 2 H junk_c
      x2 k.1 k.2.1 c1 c2 c3 rfl hm rfl rfl rfl rfl rfl rfl
    rw [show memcpy (auto_object H.info.context_size c1) x2 H.info.context_size = x2
        from hcopy1,
      show memcpy (auto_object H.info.context_size c2) k.2.1 H.info.context_size = k.2.1
        from hcopy2,
      show memcpy (auto_object H.info.context_size c3) k.1 H.info.context_size = k.1
        from hcopy3] at hcl
    have hwA := Mem.write_spec m.blocks [x2, k.1, k.2.1, x2, k.2.1, k.1] m.handles [H, C] 0 0 H
      x2 suffixA rfl rfl rfl
    have hwB := Mem.write_spec m.blocks [info.update x2 suffixA, k.1, k.2.1, x2, k.2.1, k.1]
      m.handles [H, C] 1 3 C x2 suffixB rfl rfl rfl
    have hrA := Mem.result_hmac_spec E m.blocks
      [info.update x2 suffixA, k.1, k.2.1, info.update x2 suffixB, k.2.1, k.1]
      m.handles [H, C] 0 0 1 2 H (info.update x2 suffixA) k.1 k.2.1 rfl hm rfl rfl rfl
      rfl rfl rfl
    have hrB := Mem.result_hmac_spec E m.blocks
      [(hmac_digest info k.1 k.2.1 (info.update x2 suffixA) info.digest_size).1, k.1, k.2.1,
        info.update x2 suffixB, k.2.1, k.1]
      m.handles [H1, C] 1 3 5 4 C (info.update x2 suffixB) k.1 k.2.1 rfl hm rfl rfl rfl
      rfl rfl rfl
    have hone : ∀ d suffix : List Nat,
        (memcpy d (hmac_digest info k.1 k.2.1 (info.update x2 suffix) info.digest_size).2
          info.digest_size).take info.digest_size
        = hash_oneshot E info mode key (chunks.flatten ++ suffix) s_outer s_inner s_state := by
      intro d suffix
      obtain ⟨hd, hl⟩ := hmac_digest_congr info R hs info.digest_size k.1 k.2.1
        (info.update x2 suffix) k'.1 k'.2.1 (info.update k'.2.2 (chunks.flatten ++ suffix))
        k4 (by rw [hs.update_length, hx2]) k4' (by rw [hs.update_length]; exact k6') k1
        (update_then_suffix info R hs k.2.2 k'.2.2 k3 chunks suffix)
      rw [memcpy_take _ _ _ hl, hd]
      simp only [hash_oneshot, hm, if_true]
    refine ⟨m.handles.length, _, _, m.handles.length + 1, _, _, _, _, _, _, _,
      hb, hw, hcl, by omega, hwA, hwB, hrA, hrB, hone _ suffixA, hone _ suffixB, ?_⟩
    intro hne
    exact absurd hm hne
  · -- the blocks: the context of the original and, after the clone, its copy
    let x0 := info.init (auto_object info.context_size g1)
    let x2 := chunks.foldl info.update x0
    let H : Mem.hash_info := {
      alg := hash, mode := mode, info := info, context := some m.blocks.length,
      outer := none, inner := none, digest := junk.digest }
    let C : Mem.hash_info := {
      alg := hash, mode := mode, info := info, context := some (m.blocks.length + 1),
      outer := junk_c.outer, inner := junk_c.inner,
      digest := memcpy junk_c.digest junk.digest MAX_DIGEST_SIZE }
    let H1 : Mem.hash_info := {
      alg := hash, mode := mode, info := info, context := some m.blocks.length,
      outer := none, inner := none,
      digest := memcpy junk.digest (info.digest (info.update x2 suffixA) info.digest_size).2
        info.digest_size }
    have hx2 : x2.length = info.context_size := by
      show (chunks.foldl info.update x0).length = _
      rw [foldl_update_length info R hs]
      exact hinit g1
    have hcopy : memcpy (auto_object info.context_size c1) x2 info.context_size = x2 :=
      memcpy_all _ _ _ hx2 (hn c1)
    have hb := Mem.begin_plain_spec E hash mode key info hsel hm m junk g1 (some g2) (some g3)
    have hw := Mem.writes_spec m.blocks m.handles [H] 0 0 H rfl rfl chunks [x0] x0 rfl
    have hcl := Mem.clone_plain_spec E m.blocks [x2] m.handles [H] 0 0 H junk_c x2 c1
      (some c2) (some c3) rfl hm rfl rfl
    rw [show memcpy (auto_object H.info.context_size c1) x2 H.info.context_size = x2
      from hcopy] at hcl
    have hwA := Mem.write_spec m.blocks [x2, x2] m.handles [H, C] 0 0 H x2 suffixA rfl rfl rfl
    have hwB := Mem.write_spec m.blocks [info.update x2 suffixA, x2] m.handles [H, C] 1 1 C x2
      suffixB rfl rfl rfl
    have hrA := Mem.result_plain_spec E m.blocks [info.update x2 suffixA, info.update x2 suffixB]
      m.handles [H, C] 0 0 H (info.update x2 suffixA) rfl hm rfl rfl
    have hrB := Mem.result_plain_spec E m.blocks
      [(info.digest (info.update x2 suffixA) info.digest_size).1, info.update x2 suffixB]
      m.handles [H1, C] 1 1 C (info.update x2 suffixB) rfl hm rfl rfl
    have hone : ∀ d suffix : List Nat,
        (memcpy d (info.digest (info.update x2 suffix) info.digest_size).2
          info.digest_size).take info.digest_size
        = hash_oneshot E info mode key (chunks.flatten ++ suffix) s_outer s_inner s_state := by
      intro d suffix
      rw [memcpy_take _ _ _ (hs.digest_length _ _).2]
      simp only [hash_oneshot, hm, if_false]
      exact (hs.digest_congr _ _ _ (update_then_suffix info R hs x0 _
        (hs.init_any _ _ (hn g1) (hn s_state)) chunks suffix)).1
    refine ⟨m.handles.length, _, _, m.handles.length + 1, _, _, _, _, _, _, _,
      hb, hw, hcl, by omega, hwA, hwB, hrA, hrB, hone _ suffixA, hone _ suffixB, ?_⟩
    intro _ hmd5 hsha1 out
    exact ⟨(hash_oneshot_buffer E hash mode info R hsel hs hmd5 hsha1 hm key _ out s_outer
        s_inner s_state).2.trans (hone _ suffixA).symm,
      (hash_oneshot_buffer E hash mode info R hsel hs hmd5 hsha1 hm key _ out s_outer
        s_inner s_state).2.trans (hone _ suffixB).symm⟩

/-- C7: for MD5 and SHA-1 (the identifiers the `switch` accepts) and every
input, given as the chunks it is written in, the first digest_size bytes that
gc_hash_buffer writes for the concatenated input are the digest_size bytes that
gc_hash_read returns after gc_hash_open in a mode other than GC_HMAC and one
gc_hash_write per chunk; gc_hash_buffer returns GC_OK.  The backend is assumed
sound (`hash_sound`: update compositional over concatenation, init independent
of what the buffer held) and GC_MD5_LEN, GC_SHA1_LEN to be the digest sizes of
the two tables. -/
theorem hash_buffer_eq_incremental (E : Env) (hash mode : Int) (info : nettle_hash)
    (R : List Nat → List Nat → Prop) (hsel : hash_switch E hash = some info)
    (hs : hash_sound info R) (hmd5 : E.GC_MD5_LEN = E.nettle_md5.digest_size)
    (hsha1 : E.GC_SHA1_LEN = E.nettle_sha1.digest_size) (hmode : mode ≠ E.GC_HMAC)
    (junk : hinfo) (g stack : Nat → Nat) (m_outer m_inner : Option (Nat → Nat))
    (chunks : List (List Nat)) (out : List Nat) :
    ∃ h0 d,
      gc_hash_open E hash mode (some junk) (some g) m_outer m_inner = (Gc_rc.GC_OK, some h0) ∧
      hash_result E (chunks.foldl gc_hash_write h0) = some d ∧
      (gc_hash_buffer E hash chunks.flatten stack out).1 = Gc_rc.GC_OK ∧
      (gc_hash_buffer E hash chunks.flatten stack out).2.take info.digest_size = d := by
  have hopen := hash_open_plain E hash mode junk g m_outer m_inner info hsel hmode
  have hR : R (chunks.foldl info.update (info.init (auto_object info.context_size g)))
      (info.update (info.init (auto_object info.context_size stack)) chunks.flatten) :=
    hs.equiv.trans (foldl_update_join info R hs chunks _)
      (hs.update_congr _ _ _ (hs.init_any _ _ (auto_object_length _ _) (auto_object_length _ _)))
  obtain ⟨hd, -⟩ := hs.digest_congr _ _ info.digest_size hR
  have hl := (hs.digest_length
    (info.update (info.init (auto_object info.context_size stack)) chunks.flatten)
    info.digest_size).2
  have hbuf : gc_hash_buffer E hash chunks.flatten stack out
      = (Gc_rc.GC_OK, memcpy out (info.digest
          (info.update (info.init (auto_object info.context_size stack)) chunks.flatten)
          info.digest_size).2 info.digest_size) := by
    unfold hash_switch at hsel
    by_cases h1 : hash = E.GC_MD5
    · rw [if_pos h1] at hsel
      have hi := Option.some.inj hsel
      subst hi
      simp only [gc_hash_buffer, if_pos h1, hmd5]
    · by_cases h2 : hash = E.GC_SHA1
      · rw [if_neg h1, if_pos h2] at hsel
        have hi := Option.some.inj hsel
        subst hi
        simp only [gc_hash_buffer, if_neg h1, if_pos h2, hsha1]
      · rw [if_neg h1, if_neg h2] at hsel
        exact Option.noConfusion hsel
  refine ⟨_, (info.digest
      (info.update (info.init (auto_object info.context_size stack)) chunks.flatten)
      info.digest_size).2, hopen, ?_, by rw [hbuf], ?_⟩
  · rw [foldl_write]
    simp only [hash_result, gc_hash_read, hmode, if_false, Option.map_some']
    rw [memcpy_take _ _ _ (hs.digest_length _ _).2, hd]
  · rw [hbuf]
    exact memcpy_take _ _ _ hl

/-- C8: for every key and message, the GC_MD5_LEN bytes that gc_hmac_md5 writes
are the digest that gc_hash_read returns on the handle from
gc_hash_open (GC_MD5, GC_HMAC), gc_hash_hmac_setkey (key) and
gc_hash_write (msg); gc_hmac_md5 returns GC_OK.  The backend is assumed sound
(`hash_sound`) and GC_MD5_LEN to be the digest size of the table `nettle_md5`. -/
theorem hmac_md5_eq_incremental (E : Env) (key msg : List Nat)
    (R : List Nat → List Nat → Prop) (hs : hash_sound E.nettle_md5 R)
    (hlen : E.GC_MD5_LEN = E.nettle_md5.digest_size)
    (junk : hinfo) (g1 g2 g3 s_outer s_inner s_state : Nat → Nat) (outhash : List Nat) :
    ∃ h0 h1 d,
      gc_hash_open E E.GC_MD5 E.GC_HMAC (some junk) (some g1) (some g2) (some g3)
        = (Gc_rc.GC_OK, some h0) ∧
      gc_hash_hmac_setkey h0 key = some h1 ∧
      hash_result E (gc_hash_write h1 msg) = some d ∧
      (gc_hmac_md5 E key msg s_outer s_inner s_state outhash).1 = Gc_rc.GC_OK ∧
      (gc_hmac_md5 E key msg s_outer s_inner s_state outhash).2.take E.GC_MD5_LEN = d ∧
      d.length = E.GC_MD5_LEN := by
  have hsel : hash_switch E E.GC_MD5 = some E.nettle_md5 := by simp [hash_switch]
  have hopen := hash_open_hmac E E.GC_MD5 E.GC_HMAC junk g1 g2 g3 E.nettle_md5 hsel rfl
  have hinit : (E.nettle_md5.init (auto_object E.nettle_md5.context_size g1)).length
      = E.nettle_md5.context_size := by rw [hs.init_length, auto_object_length]
  obtain ⟨k1, -, k3, k4, -, k6⟩ := hmac_set_key_spec E.nettle_md5 R hs key
    (auto_object E.nettle_md5.context_size g2) (auto_object E.nettle_md5.context_size g3)
    (E.nettle_md5.init (auto_object E.nettle_md5.context_size g1))
    (auto_object E.nettle_md5.context_size s_outer)
    (auto_object E.nettle_md5.context_size s_inner)
    (auto_object E.nettle_md5.context_size s_state)
    (auto_object_length _ _) (auto_object_length _ _) hinit
    (auto_object_length _ _) (auto_object_length _ _) (auto_object_length _ _)
  obtain ⟨-, -, -, k4', -, k6'⟩ := hmac_set_key_spec E.nettle_md5 R hs key
    (auto_object E.nettle_md5.context_size s_outer)
    (auto_object E.nettle_md5.context_size s_inner)
    (auto_object E.nettle_md5.context_size s_state)
    (auto_object E.nettle_md5.context_size g2) (auto_object E.nettle_md5.context_size g3)
    (E.nettle_md5.init (auto_object E.nettle_md5.context_size g1))
    (auto_object_length _ _) (auto_object_length _ _) (auto_object_length _ _)
    (auto_object_length _ _) (auto_object_length _ _) hinit
  obtain ⟨hd, hl⟩ := hmac_digest_congr E.nettle_md5 R hs E.nettle_md5.digest_size
    _ (hmac_set_key E.nettle_md5 (auto_object E.nettle_md5.context_size g2)
      (auto_object E.nettle_md5.context_size g3)
      (E.nettle_md5.init (auto_object E.nettle_md5.context_size g1)) key).2.1
    _ _ (hmac_set_key E.nettle_md5 (auto_object E.nettle_md5.context_size s_outer)
      (auto_object E.nettle_md5.context_size s_inner)
      (auto_object E.nettle_md5.context_size s_state) key).2.1
    _ k4 (by rw [hs.update_length, k6]) k4' (by rw [hs.update_length, k6'])
    k1 (hs.update_congr _ _ msg k3)
  obtain ⟨h1, hset, hmode1, hinfo1, hout1, hinn1, hctx1⟩ : ∃ h1 : hinfo,
      gc_hash_hmac_setkey {
          alg := E.GC_MD5, mode := E.GC_HMAC, info := E.nettle_md5,
          context := E.nettle_md5.init (auto_object E.nettle_md5.context_size g1),
          outer := some (auto_object E.nettle_md5.context_size g2),
          inner := some (auto_object E.nettle_md5.context_size g3),
          digest := junk.digest } key = some h1 ∧
      h1.mode = E.GC_HMAC ∧ h1.info = E.nettle_md5 ∧
      h1.outer = some (hmac_set_key E.nettle_md5 (auto_object E.nettle_md5.context_size g2)
        (auto_object E.nettle_md5.context_size g3)
        (E.nettle_md5.init (auto_object E.nettle_md5.context_size g1)) key).1 ∧
      h1.inner = some (hmac_set_key E.nettle_md5 (auto_object E.nettle_md5.context_size g2)
        (auto_object E.nettle_md5.context_size g3)
        (E.nettle_md5.init (auto_object E.nettle_md5.context_size g1)) key).2.1 ∧
      h1.context = (hmac_set_key E.nettle_md5 (auto_object E.nettle_md5.context_size g2)
        (auto_object E.nettle_md5.context_size g3)
        (E.nettle_md5.init (auto_object E.nettle_md5.context_size g1)) key).2.2 :=
    ⟨_, rfl, rfl, rfl, rfl, rfl, rfl⟩
  refine ⟨_, h1, (hmac_digest E.nettle_md5
      (hmac_set_key E.nettle_md5 (auto_object E.nettle_md5.context_size g2)
        (auto_object E.nettle_md5.context_size g3)
        (E.nettle_md5.init (auto_object E.nettle_md5.context_size g1)) key).1
      (hmac_set_key E.nettle_md5 (auto_object E.nettle_md5.context_size g2)
        (auto_object E.nettle_md5.context_size g3)
        (E.nettle_md5.init (auto_object E.nettle_md5.context_size g1)) key).2.1
      (E.nettle_md5.update (hmac_set_key E.nettle_md5 (auto_object E.nettle_md5.context_size g2)
        (auto_object E.nettle_md5.context_size g3)
        (E.nettle_md5.init (auto_object E.nettle_md5.context_size g1)) key).2.2 msg)
      E.nettle_md5.digest_size).2, hopen, hset, ?_, rfl, ?_, ?_⟩
  · simp only [hash_result, gc_hash_read, gc_hash_write, hmode1, if_true, hout1, hinn1, hinfo1,
      hctx1, Option.map_some']
    rw [memcpy_take _ _ _ hl]
  · simp only [gc_hmac_md5, hlen]
    rw [memcpy_take _ _ _ (hd ▸ hl), hd]
  · rw [hlen]; exact hl

theorem toy_hash_sound (n : Nat) : hash_sound (toy_hash n) Eq where
  init_length := fun c => by simp [toy_hash]
  update_length := fun c x => by simp [toy_hash]
  digest_length := fun c k => by simp [toy_hash]
  equiv := ⟨fun _ => rfl, fun h => h.symm, fun h1 h2 => h1.trans h2⟩
  init_any := fun g g' hg hg' => by
    simp only [toy_hash] at hg hg' ⊢
    rw [List.map_const', List.map_const', hg, hg']
  update_congr := fun c c' x h => by rw [h]
  digest_congr := fun c c' k h => by rw [h]; exact ⟨rfl, rfl⟩
  update_nil := fun c => by simp [toy_hash]
  update_append := fun c x y => by
    simp only [toy_hash, List.map_map, List.sum_append]
    apply List.map_congr_left
    intro a _
    simp only [Function.comp_apply]
    omega

/-- Witness of C6 on the toy tables, in a memory that holds two blocks and an
object already: MD5 (0) in plain mode (0) and in mode GC_HMAC (1) with key 0b,
prefix written as 01 02 and then 03, suffixes 04 and 05 06.  The toy digest is
the sum of the bytes: 0a for 01 02 03 04 and 11 for 01 02 03 05 06 in plain
mode, which is also what gc_hash_buffer writes; the keyed digests are fb and
6b. -/
theorem hash_clone_independent_witness :
    (∃ h m1 m2 c m3 m4 m5 m6 m7,
      Mem.hash_begin toy_env Mem.toy_memory 0 0 [] (some Mem.junk_hash_info)
        (some fun _ => 1) (some fun _ => 2) (some fun _ => 3) = some (h, m1) ∧
      Mem.hash_writes m1 h [[1, 2], [3]] = some m2 ∧
      Mem.gc_hash_clone toy_env m2 h (some Mem.junk_hash_info) (some fun _ => 7)
        (some fun _ => 8) (some fun _ => 9) = some (Gc_rc.GC_OK, some c, m3) ∧
      c ≠ h ∧
      Mem.gc_hash_write m3 h [4] = some m4 ∧
      Mem.gc_hash_write m4 c [5, 6] = some m5 ∧
      Mem.hash_result toy_env m5 h = some (List.replicate 16 0x0a, m6) ∧
      Mem.hash_result toy_env m6 c = some (List.replicate 16 0x11, m7) ∧
      (gc_hash_buffer toy_env 0 [1, 2, 3, 4] (fun _ => 6) (List.replicate 16 0)).2
        = List.replicate 16 0x0a) ∧
    (∃ h m1 m2 c m3 m4 m5 m6 m7,
      Mem.hash_begin toy_env Mem.toy_memory 0 1 [0x0b] (some Mem.junk_hash_info)
        (some fun _ => 1) (some fun _ => 2) (some fun _ => 3) = some (h, m1) ∧
      Mem.hash_writes m1 h [[1, 2], [3]] = some m2 ∧
      Mem.gc_hash_clone toy_env m2 h (some Mem.junk_hash_info) (some fun _ => 7)
        (some fun _ => 8) (some fun _ => 9) = some (Gc_rc.GC_OK, some c, m3) ∧
      c ≠ h ∧
      Mem.gc_hash_write m3 h [4] = some m4 ∧
      Mem.gc_hash_write m4 c [5, 6] = some m5 ∧
      Mem.hash_result toy_env m5 h = some (List.replicate 16 0xfb, m6) ∧
      Mem.hash_result toy_env m6 c = some (List.replicate 16 0x6b, m7)) := by
  constructor
  · obtain ⟨h, m1, m2, c, m3, m4, m5, dA, m6, dB, m7, e1, e2, e3, e4, e5, e6, e7, e8, e9, e10,
      e11⟩ := hash_clone_independent toy_env 0 0 [] (toy_hash 16) Eq rfl (toy_hash_sound 16)
        Mem.toy_memory Mem.junk_hash_info Mem.junk_hash_info (fun _ => 1) (fun _ => 2)
        (fun _ => 3) (fun _ => 7) (fun _ => 8) (fun _ => 9) (fun _ => 4) (fun _ => 5)
        (fun _ => 6) [[1, 2], [3]] [4] [5, 6]
    have hA : dA = List.replicate 16 0x0a := e9.trans (by decide)
    have hB : dB = List.replicate 16 0x11 := e10.trans (by decide)
    subst hA hB
    exact ⟨h, m1, m2, c, m3, m4, m5, m6, m7, e1, e2, e3, e4, e5, e6, e7, e8, by decide⟩
  · obtain ⟨h, m1, m2, c, m3, m4, m5, dA, m6, dB, m7, e1, e2, e3, e4, e5, e6, e7, e8, e9, e10,
      -⟩ := hash_clone_independent toy_env 0 1 [0x0b] (toy_hash 16) Eq rfl (toy_hash_sound 16)
        Mem.toy_memory Mem.junk_hash_info Mem.junk_hash_info (fun _ => 1) (fun _ => 2)
        (fun _ => 3) (fun _ => 7) (fun _ => 8) (fun _ => 9) (fun _ => 4) (fun _ => 5)
        (fun _ => 6) [[1, 2], [3]] [4] [5, 6]
    have hA : dA = List.replicate 16 0xfb := e9.trans (by decide)
    have hB : dB = List.replicate 16 0x6b := e10.trans (by decide)
    subst hA hB
    exact ⟨h, m1, m2, c, m3, m4, m5, m6, m7, e1, e2, e3, e4, e5, e6, e7, e8⟩

/-- Witness of C7 on the toy tables: MD5 (0) in plain mode (0), input
01 02 03 written as 01 02 and then 03. -/
theorem hash_buffer_eq_incremental_witness :
    ∃ h0 d,
      gc_hash_open toy_env 0 0 (some junk_hinfo) (some fun _ => 1) none none
        = (Gc_rc.GC_OK, some h0) ∧
      hash_result toy_env ([[1, 2], [3]].foldl gc_hash_write h0) = some d ∧
      (gc_hash_buffer toy_env 0 [[1, 2], [3]].flatten (fun _ => 7)
        (List.replicate 16 0)).1 = Gc_rc.GC_OK ∧
      (gc_hash_buffer toy_env 0 [[1, 2], [3]].flatten (fun _ => 7)
        (List.replicate 16 0)).2.take (toy_hash 16).digest_size = d :=
  hash_buffer_eq_incremental toy_env 0 0 (toy_hash 16) Eq rfl (toy_hash_sound 16) rfl rfl
    (by decide) junk_hinfo _ _ none none [[1, 2], [3]] (List.replicate 16 0)

/-- Witness of C8 on the toy tables: key 0b, message 01 02 03. -/
theorem hmac_md5_eq_incremental_witness :
    ∃ h0 h1 d,
      gc_hash_open toy_env toy_env.GC_MD5 toy_env.GC_HMAC (some junk_hinfo) (some fun _ => 1)
        (some fun _ => 2) (some fun _ => 3) = (Gc_rc.GC_OK, some h0) ∧
      gc_hash_hmac_setkey h0 [0x0b] = some h1 ∧
      hash_result toy_env (gc_hash_write h1 [1, 2, 3]) = some d ∧
      (gc_hmac_md5 toy_env [0x0b] [1, 2, 3] (fun _ => 4) (fun _ => 5) (fun _ => 6)
        (List.replicate 16 0)).1 = Gc_rc.GC_OK ∧
      (gc_hmac_md5 toy_env [0x0b] [1, 2, 3] (fun _ => 4) (fun _ => 5) (fun _ => 6)
        (List.replicate 16 0)).2.take toy_env.GC_MD5_LEN = d ∧
      d.length = toy_env.GC_MD5_LEN :=
  hmac_md5_eq_incremental toy_env [0x0b] [1, 2, 3] Eq (toy_hash_sound 16) rfl junk_hinfo
    _ _ _ _ _ _ (List.replicate 16 0)

/-! ### The digest length lookup -/

/-- With its allocations succeeding, `gc_hash_open` returns GC_OK when the
`switch` selects a table and GC_INVALID_HASH when it does not. -/
theorem hash_open_rc (E : Env) (hash mode : Int) (junk : hinfo) (g1 g2 g3 : Nat → Nat) :
    (gc_hash_open E hash mode (some junk) (some g1) (some g2) (some g3)).1
      = if hash = E.GC_MD5 ∨ hash = E.GC_SHA1 then Gc_rc.GC_OK else Gc_rc.GC_INVALID_HASH := by
  by_cases h1 : hash = E.GC_MD5
  · by_cases hm : mode = E.GC_HMAC <;> simp [gc_hash_open, hash_switch, h1, hm, malloc_some]
  · by_cases h2 : hash = E.GC_SHA1
    · subst h2
      by_cases hm : mode = E.GC_HMAC <;> simp [gc_hash_open, hash_switch, h1, hm, malloc_some]
    · simp [gc_hash_open, hash_switch, h1, h2]

/-- `gc_hash_buffer` returns GC_OK for GC_MD5 and GC_SHA1 and GC_INVALID_HASH for
every other identifier. -/
theorem hash_buffer_rc (E : Env) (hash : Int) (inp : List Nat) (stack : Nat → Nat)
    (out : List Nat) :
    (gc_hash_buffer E hash inp stack out).1
      = if hash = E.GC_MD5 ∨ hash = E.GC_SHA1 then Gc_rc.GC_OK else Gc_rc.GC_INVALID_HASH := by
  by_cases h1 : hash = E.GC_MD5
  · simp [gc_hash_buffer, h1]
  · by_cases h2 : hash = E.GC_SHA1
    · subst h2
      simp [gc_hash_buffer, h1]
    · simp [gc_hash_buffer, h1, h2]

/-- C11 (as amended): with MD5_DIGEST_SIZE = 16 and SHA1_DIGEST_SIZE = 20 and the
three case labels distinct, gc_hash_digest_length returns 16 for GC_MD5, 20 for
GC_SHA1, 20 for GC_RMD160 and 0 for every other identifier; for every
identifier other than GC_RMD160 the length is non-zero if and only if
gc_hash_open (allocations succeeding) accepts the identifier (returns GC_OK,
not GC_INVALID_HASH) and if and only if gc_hash_buffer does; GC_RMD160 has the
length 20 and is refused by both with GC_INVALID_HASH. -/
theorem hash_digest_length_spec (E : Env) (hash mode : Int) (junk : hinfo)
    (g1 g2 g3 stack : Nat → Nat) (inp out : List Nat)
    (hmd5 : E.MD5_DIGEST_SIZE = 16) (hsha1 : E.SHA1_DIGEST_SIZE = 20)
    (hlabels : E.GC_SHA1 ≠ E.GC_MD5 ∧ E.GC_RMD160 ≠ E.GC_MD5 ∧ E.GC_RMD160 ≠ E.GC_SHA1) :
    gc_hash_digest_length E E.GC_MD5 = 16 ∧
    gc_hash_digest_length E E.GC_SHA1 = 20 ∧
    gc_hash_digest_length E E.GC_RMD160 = 20 ∧
    (hash ∉ [E.GC_MD5, E.GC_SHA1, E.GC_RMD160] → gc_hash_digest_length E hash = 0) ∧
    (hash ≠ E.GC_RMD160 →
      (gc_hash_digest_length E hash ≠ 0 ↔
        (gc_hash_open E hash mode (some junk) (some g1) (some g2) (some g3)).1
          ≠ Gc_rc.GC_INVALID_HASH) ∧
      (gc_hash_digest_length E hash ≠ 0 ↔
        (gc_hash_open E hash mode (some junk) (some g1) (some g2) (some g3)).1 = Gc_rc.GC_OK) ∧
      (gc_hash_digest_length E hash ≠ 0 ↔
        (gc_hash_buffer E hash inp stack out).1 ≠ Gc_rc.GC_INVALID_HASH) ∧
      (gc_hash_digest_length E hash ≠ 0 ↔
        (gc_hash_buffer E hash inp stack out).1 = Gc_rc.GC_OK)) ∧
    (gc_hash_open E E.GC_RMD160 mode (some junk) (some g1) (some g2) (some g3)).1
      = Gc_rc.GC_INVALID_HASH ∧
    (gc_hash_buffer E E.GC_RMD160 inp stack out).1 = Gc_rc.GC_INVALID_HASH := by
  obtain ⟨h21, h31, h32⟩ := hlabels
  refine ⟨?_, ?_, ?_, ?_, ?_, ?_, ?_⟩
  · simp [gc_hash_digest_length, hmd5]
  · simp [gc_hash_digest_length, h21, hsha1]
  · simp [gc_hash_digest_length, h31, h32]
  · intro hn
    simp only [List.mem_cons, List.mem_singleton, List.not_mem_nil, or_false, not_or] at hn
    simp [gc_hash_digest_length, hn.1, hn.2.1, hn.2.2]
  · intro h3
    rw [hash_open_rc, hash_buffer_rc]
    by_cases h1 : hash = E.GC_MD5
    · simp [gc_hash_digest_length, h1, hmd5]
    · by_cases h2 : hash = E.GC_SHA1
      · subst h2
        simp [gc_hash_digest_length, h1, hsha1]
      · simp [gc_hash_digest_length, h1, h2, h3]
  · rw [hash_open_rc]; simp [h31, h32]
  · rw [hash_buffer_rc]; simp [h31, h32]

/-- C11 (counterexample): in `toy_env` GC_RMD160 is 2; gc_hash_digest_length
returns 20 for it, not 0, while gc_hash_open (allocations succeeding) and
gc_hash_buffer return GC_INVALID_HASH for it: the length is non-zero and the
identifier is not accepted. -/
theorem hash_digest_length_counterexample :
    toy_env.GC_RMD160 = 2 ∧
      gc_hash_digest_length toy_env 2 = 20 ∧
      (gc_hash_open toy_env 2 0 (some junk_hinfo) (some fun _ => 1) (some fun _ => 2)
        (some fun _ => 3)).1 = Gc_rc.GC_INVALID_HASH ∧
      (gc_hash_buffer toy_env 2 [1, 2, 3] (fun _ => 7) (List.replicate 20 0)).1
        = Gc_rc.GC_INVALID_HASH ∧
      ¬ (gc_hash_digest_length toy_env 2 ≠ 0 ↔
        (gc_hash_open toy_env 2 0 (some junk_hinfo) (some fun _ => 1) (some fun _ => 2)
          (some fun _ => 3)).1 ≠ Gc_rc.GC_INVALID_HASH) := by
  decide

/-- Witness of C11 (as amended) on `toy_env`: the lengths of GC_MD5 (0),
GC_SHA1 (1), GC_RMD160 (2) and of the unknown identifier 9. -/
theorem hash_digest_length_spec_witness :
    gc_hash_digest_length toy_env toy_env.GC_MD5 = 16 ∧
      gc_hash_digest_length toy_env toy_env.GC_SHA1 = 20 ∧
      gc_hash_digest_length toy_env toy_env.GC_RMD160 = 20 ∧
      gc_hash_digest_length toy_env 9 = 0 :=
  have h := hash_digest_length_spec toy_env 9 0 junk_hinfo (fun _ => 1) (fun _ => 2)
    (fun _ => 3) (fun _ => 7) [1, 2, 3] (List.replicate 20 0) rfl rfl (by decide)
  ⟨h.1, h.2.1, h.2.2.1, h.2.2.2.1 (by decide)⟩

/-! ### The pad states of a hash handle -/

/-- What `gc_hash_open` leaves in `inner` and `outer`: in mode GC_HMAC two
buffers of the table's context size, in every other mode NULL. -/
theorem hash_open_pads (E : Env) (hash mode : Int) (m_hinf : Option hinfo)
    (m_ctx m_outer m_inner : Option (Nat → Nat)) (rc : Gc_rc) (h : hinfo)
    (hopen : gc_hash_open E hash mode m_hinf m_ctx m_outer m_inner = (rc, some h)) :
    h.mode = mode ∧
    (mode = E.GC_HMAC → ∃ o i, h.outer = some o ∧ h.inner = some i ∧
      o.length = h.info.context_size ∧ i.length = h.info.context_size) ∧
    (mode ≠ E.GC_HMAC → h.outer = none ∧ h.inner = none) := by
  unfold gc_hash_open at hopen
  cases m_hinf with
  | none => simp at hopen
  | some junk =>
    cases hs : hash_switch E hash with
    | none => simp [hs] at hopen
    | some info =>
      cases m_ctx with
      | none => simp [hs, malloc] at hopen
      | some g1 =>
        by_cases hm : mode = E.GC_HMAC
        · cases m_outer with
          | none => simp [hs, malloc, hm] at hopen
          | some g2 =>
            cases m_inner with
            | none => simp [hs, malloc, hm] at hopen
            | some g3 =>
              simp only [hs, malloc_some, hm, if_true, Prod.mk.injEq, Option.some.injEq] at hopen
              obtain ⟨-, rfl⟩ := hopen
              exact ⟨hm.symm, fun _ => ⟨_, _, rfl, rfl, auto_object_length _ _,
                auto_object_length _ _⟩, fun hn => absurd hm hn⟩
        · simp only [hs, malloc_some, hm, if_false, Prod.mk.injEq, Option.some.injEq] at hopen
          obtain ⟨-, rfl⟩ := hopen
          exact ⟨rfl, fun hx => absurd hx hm, fun _ => ⟨rfl, rfl⟩⟩

/-- The clone of a handle in mode GC_HMAC whose pads have the context size has
pads equal byte for byte to the old ones. -/
theorem hash_clone_hmac_pads (E : Env) (old junk : hinfo) (g1 g2 g3 : Nat → Nat)
    (o i : List Nat) (hm : old.mode = E.GC_HMAC) (ho : old.outer = some o)
    (hi : old.inner = some i) (hol : o.length = old.info.context_size)
    (hil : i.length = old.info.context_size) :
    ∃ c, gc_hash_clone E old (some junk) (some g1) (some g2) (some g3)
        = some (Gc_rc.GC_OK, some c) ∧
      c.mode = old.mode ∧ c.outer = some o ∧ c.inner = some i := by
  have h1 : memcpy (auto_object old.info.context_size g2) i old.info.context_size = i :=
    memcpy_all _ _ _ hil (auto_object_length _ _)
  have h2 : memcpy (auto_object old.info.context_size g3) o old.info.context_size = o :=
    memcpy_all _ _ _ hol (auto_object_length _ _)
  have hc : gc_hash_clone E old (some junk) (some g1) (some g2) (some g3)
      = some (Gc_rc.GC_OK, some {
          alg := old.alg, mode := old.mode, info := old.info,
          context := memcpy (auto_object old.info.context_size g1) old.context
            old.info.context_size,
          outer := some o, inner := some i,
          digest := memcpy junk.digest old.digest MAX_DIGEST_SIZE }) := by
    simp only [gc_hash_clone, malloc_some, hm, if_true, ho, hi, h1, h2]
  exact ⟨_, hc, rfl, rfl, rfl⟩

/-- The clone of a handle in a mode other than GC_HMAC: `gc_hash_clone` has no
`else` branch, so `inner` and `outer` of the new structure are never assigned
and keep what `malloc` handed out. -/
theorem hash_clone_plain_pads (E : Env) (old junk : hinfo) (g1 : Nat → Nat)
    (m_inner m_outer : Option (Nat → Nat)) (hm : old.mode ≠ E.GC_HMAC) :
    ∃ c, gc_hash_clone E old (some junk) (some g1) m_inner m_outer
        = some (Gc_rc.GC_OK, some c) ∧
      c.mode = old.mode ∧ c.outer = junk.outer ∧ c.inner = junk.inner := by
  have hc : gc_hash_clone E old (some junk) (some g1) m_inner m_outer
      = some (Gc_rc.GC_OK, some {
          alg := old.alg, mode := old.mode, info := old.info,
          context := memcpy (auto_object old.info.context_size g1) old.context
            old.info.context_size,
          outer := junk.outer, inner := junk.inner,
          digest := memcpy junk.digest old.digest MAX_DIGEST_SIZE }) := by
    simp only [gc_hash_clone, malloc_some, hm, if_false]
  exact ⟨_, hc, rfl, rfl, rfl⟩

/-- Neither `gc_hash_write` nor `gc_hash_read` touches `inner` or `outer`, and
after `gc_hash_hmac_setkey` both are present. -/
theorem hash_pads_kept (E : Env) (h : hinfo) (data key : List Nat) :
    ((gc_hash_write h data).outer = h.outer ∧ (gc_hash_write h data).inner = h.inner) ∧
    (∀ r, gc_hash_read E h = some r → r.1.outer = h.outer ∧ r.1.inner = h.inner) ∧
    (∀ h1, gc_hash_hmac_setkey h key = some h1 →
      h.outer.isSome ∧ h.inner.isSome ∧ h1.outer.isSome ∧ h1.inner.isSome ∧
      h1.mode = h.mode) := by
  refine ⟨⟨rfl, rfl⟩, ?_, ?_⟩
  · intro r hr
    unfold gc_hash_read at hr
    split_ifs at hr with hm
    · cases ho : h.outer with
      | none => simp [ho] at hr
      | some o =>
        cases hi : h.inner with
        | none => simp [ho, hi] at hr
        | some i =>
          simp only [ho, hi, Option.some.injEq] at hr
          subst hr
          exact ⟨rfl, rfl⟩
    · simp only [Option.some.injEq] at hr
      subst hr
      exact ⟨rfl, rfl⟩
  · intro h1 hk
    unfold gc_hash_hmac_setkey at hk
    cases ho : h.outer with
    | none => simp [ho] at hk
    | some o =>
      cases hi : h.inner with
      | none => simp [ho, hi] at hk
      | some i =>
        simp only [ho, hi, Option.some.injEq] at hk
        subst hk
        exact ⟨rfl, rfl, rfl, rfl, rfl⟩

/-- C12 (the code at the failing input): on `toy_env`, where GC_HMAC is 1, a
handle opened for MD5 (0) in mode 0 has `outer` and `inner` NULL; its clone,
made in a structure that `malloc` hands out with `outer` pointing at 01 and
`inner` at 02 03, is returned with GC_OK in mode 0 with that `outer` and that
`inner`, not NULL. -/
theorem hash_clone_plain_not_null :
    (gc_hash_open toy_env 0 0 (some junk_hinfo) (some fun _ => 1) none none).2.map
        (fun h => (h.mode, h.outer, h.inner)) = some (0, none, none) ∧
      toy_env.GC_HMAC = 1 ∧
      ((gc_hash_open toy_env 0 0 (some junk_hinfo) (some fun _ => 1) none none).2.bind
        (fun h => gc_hash_clone toy_env h (some junk_hinfo) (some fun _ => 7) none none)).map
        (fun r => (r.1, r.2.map (fun c => (c.mode, c.outer, c.inner))))
        = some (Gc_rc.GC_OK, some (0, some [1], some [2, 3])) :=
  ⟨rfl, rfl, rfl⟩

end GnuTLS
